import Mathlib

/-!
# SVM_Dose: a shallow embedding of `main.c`

The numerical core of the program (RANSAC curve fit, Gaussian kernel ridge
regression, support-set update, feature normalisation) is embedded over an
arbitrary linearly ordered field `R`: C `float`/`double` arithmetic is read as
exact arithmetic, the libm functions (`exp`, `sqrt`, `log`) and the GSL
least-squares solver are parameters of the definitions.  Loops of the source
are loops here (`forLoop`), GSL containers are a size together with the
contents, and the BLAS calls are given by their documented meaning.

Two computations whose outcome depends on the rounding of the machine, the
kernel of `predictGaussianSVM` and the constants of the normalisation loop,
are embedded a second time with every operation rounded (section "Rounded
arithmetic"), where IEEE 754 rounding to nearest is `roundNearestEven`.
-/

namespace SVMDose

/-! ## Loops and GSL containers -/

/-- The C loop `for (i = 0; i < n; ++i) s = body(i, s);`. -/
def forLoop {σ : Type} (n : Nat) (body : Nat → σ → σ) (s : σ) : σ :=
  match n with
  | 0 => s
  | m + 1 => body m (forLoop m body s)

/-- A C loop whose body can fail: the loop stops with `none` at the first
iteration that does. -/
def forLoopM {σ : Type} (n : Nat) (body : Nat → σ → Option σ) (s : σ) : Option σ :=
  match n with
  | 0 => some s
  | m + 1 => (forLoopM m body s).bind (body m)

/-- A `gsl_vector`: its `size` and its contents.  Indices below `size` are the
vector; GSL refuses any other index, so the accessors below, which are total,
are meant for indices in range. -/
structure gsl_vector (R : Type) where
  size : Nat
  data : Nat → R

/-- A `gsl_matrix` with `size1` rows and `size2` columns. -/
structure gsl_matrix (R : Type) where
  size1 : Nat
  size2 : Nat
  data : Nat → Nat → R

section Containers

variable {R : Type}

def gsl_vector_get (v : gsl_vector R) (i : Nat) : R := v.data i

def gsl_vector_set (v : gsl_vector R) (i : Nat) (x : R) : gsl_vector R :=
  { v with data := fun k => if k = i then x else v.data k }

def gsl_matrix_get (m : gsl_matrix R) (i j : Nat) : R := m.data i j

def gsl_matrix_set (m : gsl_matrix R) (i j : Nat) (x : R) : gsl_matrix R :=
  { m with data := fun a b => if a = i ∧ b = j then x else m.data a b }

/-- The call `gsl_vector_calloc n`: a zero vector.  Also used for `gsl_vector_alloc`,
whose contents are unspecified and always written before they are read. -/
def gsl_vector_calloc [Zero R] (n : Nat) : gsl_vector R := ⟨n, fun _ => 0⟩

/-- The call `gsl_matrix_calloc n m`: a zero matrix.  Also used for `gsl_matrix_alloc`,
whose contents are unspecified and always written before they are read. -/
def gsl_matrix_calloc [Zero R] (n m : Nat) : gsl_matrix R := ⟨n, m, fun _ _ => 0⟩

/-- The call `gsl_matrix_const_row m i`: the view of row `i` as a vector. -/
def gsl_matrix_const_row (m : gsl_matrix R) (i : Nat) : gsl_vector R :=
  ⟨m.size2, fun c => m.data i c⟩

end Containers

/-! ## BLAS and the least-squares solver -/

section Blas

variable {R : Type} [LinearOrderedField R]

/-- The call `gsl_blas_ddot x y`: the dot product of two vectors of the same length. -/
def gsl_blas_ddot (x y : gsl_vector R) : R :=
  ∑ k in Finset.range x.size, x.data k * y.data k

/-- The call `gsl_blas_dgemm(CblasNoTrans, CblasTrans, a, A, B, b, C)`:
`C := a * A * Bᵀ + b * C`. -/
def gsl_blas_dgemm_NoTrans_Trans (a : R) (A B : gsl_matrix R) (b : R) (C : gsl_matrix R) :
    gsl_matrix R :=
  { C with data := fun i j =>
      if i < C.size1 ∧ j < C.size2 then
        a * (∑ k in Finset.range A.size2, A.data i k * B.data j k) + b * C.data i j
      else C.data i j }

/-- The call `gsl_blas_dgemv(CblasNoTrans, a, A, x, b, y)`: `y := a * A * x + b * y`.
GSL reports `GSL_EBADLEN` (and the default handler aborts) unless `x` has as
many entries as `A` has columns and `y` as many as `A` has rows. -/
def gsl_blas_dgemv_NoTrans (a : R) (A : gsl_matrix R) (x : gsl_vector R) (b : R)
    (y : gsl_vector R) : Option (gsl_vector R) :=
  if A.size2 = x.size ∧ A.size1 = y.size then
    some
      { y with data := fun i =>
          if i < y.size then
            a * (∑ j in Finset.range A.size2, A.data i j * x.data j) + b * y.data i
          else y.data i }
  else none

/-- The call `gsl_multifit_linear(X, y, c, cov, &chisq, work)`: the least-squares
coefficients of `X c ≈ y` are written to `c`.  The solver itself is the
parameter `solve`; GSL reports `GSL_EBADLEN` (and the default handler aborts)
unless `y` has as many entries as `X` has rows and `c` as many as `X` has
columns.  The solver of GSL also refuses a system with fewer rows than
columns; that refusal is not part of this definition, which therefore
describes the call for systems with at least as many rows as columns: the
square systems of `trainGaussianSVM` and, in `ransac`, subsets of `k ≥ 3`
rows (`main` passes `k = 4`). -/
def gsl_multifit_linear (solve : gsl_matrix R → gsl_vector R → Nat → R)
    (X : gsl_matrix R) (y c : gsl_vector R) : Option (gsl_vector R) :=
  if X.size1 = y.size ∧ X.size2 = c.size then
    some
      { c with data := fun i => if i < c.size then solve X y i else c.data i }
  else none

end Blas

/-! ## Data of the program -/

/-- The C `struct patientStruct`: the measurements of one patient (arrays of
length `size`) and the covariates shared by all of them. -/
structure Patient (R : Type) where
  num : Int
  concentrations : Nat → R
  times : Nat → R
  doses : Nat → R
  size : Nat
  sex : R
  age : R
  weight : R

/-- The C `struct svmStruct`: normalisation constants of the 5 columns, kernel
width, regularisation, the support matrix (already normalised), its targets and
the trained coefficients. -/
structure SVM (R : Type) where
  means : Nat → R
  stds : Nat → R
  sigma : R
  C : R
  trainFeat : gsl_matrix R
  trainY : gsl_vector R
  alpha : gsl_vector R

/-- The invariant of the model:
`rows(trainFeat) = length(trainY) = length(alpha)`. -/
def sizesAgree {R : Type} (svm : SVM R) : Prop :=
  svm.trainFeat.size1 = svm.trainY.size ∧ svm.trainY.size = svm.alpha.size

instance sizesAgree_decidable {R : Type} (svm : SVM R) : Decidable (sizesAgree svm) :=
  inferInstanceAs (Decidable (_ ∧ _))

/-! ## predictGaussianSVM -/

section Predict

variable {R : Type} [LinearOrderedField R]

/-- The matrix `D` of `predictGaussianSVM` (the variable `kernel` after the
`gsl_blas_dgemm` call): squared norms of the support rows, then
`kernel[i][j] = xTrain2[j] + dot(xTest_i)`, then `- 2 * xTest * xTrainᵀ`.
Exact arithmetic; `predictDistRounded` is the same computation with every
operation rounded. -/
def predictDist (xTrain xTest : gsl_matrix R) : gsl_matrix R :=
  let xTrain2 : gsl_vector R :=
    forLoop xTrain.size1
      (fun i v =>
        gsl_vector_set v i
          (gsl_blas_ddot (gsl_matrix_const_row xTrain i) (gsl_matrix_const_row xTrain i)))
      (gsl_vector_calloc xTrain.size1)
  let kernel : gsl_matrix R :=
    forLoop xTest.size1
      (fun i K =>
        let dot := gsl_blas_ddot (gsl_matrix_const_row xTest i) (gsl_matrix_const_row xTest i)
        forLoop xTrain.size1
          (fun j K => gsl_matrix_set K i j (gsl_vector_get xTrain2 j + dot)) K)
      (gsl_matrix_calloc xTest.size1 xTrain.size1)
  gsl_blas_dgemm_NoTrans_Trans (-2) xTest xTrain 1 kernel

/-- The kernel width used by `predictGaussianSVM`: the one passed in, or the
mean entry of `D` when it is not positive. -/
def predictSigma (xTrain xTest : gsl_matrix R) (sigma : R) : R :=
  if sigma ≤ 0 then
    let sum : R :=
      forLoop xTest.size1
        (fun i s =>
          forLoop xTrain.size1 (fun j s => s + gsl_matrix_get (predictDist xTrain xTest) i j) s)
        0
    sum / ((xTest.size1 * xTrain.size1 : Nat) : R)
  else sigma

/-- The kernel matrix of `predictGaussianSVM`:
`kernel[i][j] = exp(kernel[i][j] * (-1 / (2 sigma²)))`. -/
def predictKernel (exp : R → R) (xTrain xTest : gsl_matrix R) (sigma : R) : gsl_matrix R :=
  let sigma1 := predictSigma xTrain xTest sigma
  let sigma2 := -1 / (2 * sigma1 * sigma1)
  forLoop xTest.size1
    (fun i K =>
      forLoop xTrain.size1
        (fun j K => gsl_matrix_set K i j (exp (gsl_matrix_get K i j * sigma2))) K)
    (predictDist xTrain xTest)

/-- The C function `predictGaussianSVM`: `y := K * alpha`; `none` when the
`assert` on the column counts fails or GSL rejects the lengths. -/
def predictGaussianSVM (exp : R → R) (xTrain xTest : gsl_matrix R) (alpha : gsl_vector R)
    (sigma : R) (y : gsl_vector R) : Option (gsl_vector R) :=
  if xTrain.size2 = xTest.size2 then
    gsl_blas_dgemv_NoTrans 1 (predictKernel exp xTrain xTest sigma) alpha 0 y
  else none

end Predict

/-! ## trainGaussianSVM -/

section Train

variable {R : Type} [LinearOrderedField R]

/-- The matrix `D` of `trainGaussianSVM` (the variable `kernel` after the
`gsl_blas_dgemm` call). -/
def trainDist (xTrain : gsl_matrix R) : gsl_matrix R :=
  let kernel : gsl_matrix R :=
    forLoop xTrain.size1
      (fun i K =>
        let dot := gsl_blas_ddot (gsl_matrix_const_row xTrain i) (gsl_matrix_const_row xTrain i)
        forLoop xTrain.size1
          (fun j K =>
            let K1 := gsl_matrix_set K i j (gsl_matrix_get K i j + dot)
            gsl_matrix_set K1 j i (gsl_matrix_get K1 j i + dot))
          K)
      (gsl_matrix_calloc xTrain.size1 xTrain.size1)
  gsl_blas_dgemm_NoTrans_Trans (-2) xTrain xTrain 1 kernel

/-- The value of `*C` after `if (*C <= 0.0) *C = 1000.0;`. -/
def trainC (C : R) : R := if C ≤ 0 then 1000 else C

/-- The value of `*sigma` after the `if (*sigma <= 0.0)` block. -/
def trainSigma (xTrain : gsl_matrix R) (sigma : R) : R :=
  if sigma ≤ 0 then
    let sum : R :=
      forLoop xTrain.size1
        (fun i s => forLoop xTrain.size1 (fun j s => s + gsl_matrix_get (trainDist xTrain) i j) s)
        0
    sum / ((xTrain.size1 * xTrain.size1 : Nat) : R)
  else sigma

/-- The matrix handed to the solver by `trainGaussianSVM`, for the values `C`
and `sigma` that `*C` and `*sigma` hold at that point. -/
def trainKernel (exp : R → R) (xTrain : gsl_matrix R) (C sigma : R) : gsl_matrix R :=
  let sigmaInv := -1 / (2 * sigma * sigma)
  let Cinv := 1 / C
  forLoop xTrain.size1
    (fun i K =>
      let K1 :=
        forLoop xTrain.size1
          (fun j K => gsl_matrix_set K i j (exp (gsl_matrix_get K i j * sigmaInv))) K
      gsl_matrix_set K1 i i (gsl_matrix_get K1 i i + Cinv))
    (trainDist xTrain)

/-- The C function `trainGaussianSVM`: returns the values written to `*C`,
`*sigma` and `alpha`; `none` when the `assert` fails or GSL rejects the
lengths. -/
def trainGaussianSVM (exp : R → R) (solve : gsl_matrix R → gsl_vector R → Nat → R)
    (xTrain : gsl_matrix R) (y : gsl_vector R) (C sigma : R) (alpha : gsl_vector R) :
    Option (R × R × gsl_vector R) :=
  if y.size = xTrain.size1 then
    let C1 := trainC C
    let sigma1 := trainSigma xTrain sigma
    match gsl_multifit_linear solve (trainKernel exp xTrain C1 sigma1) y alpha with
    | some alpha1 => some (C1, sigma1, alpha1)
    | none => none
  else none

end Train

/-! ## Reference formulas of the specification -/

section Reference

variable {R : Type} [LinearOrderedField R]

/-- The squared Euclidean distance between row `i` of `A` and row `j` of `B`,
over the columns of `A`. -/
def sqDist (A B : gsl_matrix R) (i j : Nat) : R :=
  ∑ c in Finset.range A.size2, (A.data i c - B.data j c) ^ 2

/-- The combined distance as the specification words it: the squared
difference of the two normalised concentrations plus the squared differences
of dose, sex, age and weight (columns 1 to 4 of the support matrix) against
the new sample's normalised values. -/
def combinedDistSpec (trainFeat : gsl_matrix R) (testFeat : Nat → R) (out : gsl_vector R)
    (conc : R) (i : Nat) : R :=
  (out.data i - conc) ^ 2 + ∑ j in Finset.range 4, (trainFeat.data i (j + 1) - testFeat j) ^ 2

end Reference

/-! ## leastRelevent -/

section Update

variable {R : Type} [LinearOrderedField R]

/-- The array `testFeat[4]` of `leastRelevent`: normalised dose, sex, age and
weight of the new sample. -/
def leastRelevent_testFeat (svm : SVM R) (p : Patient R) : Nat → R :=
  fun j =>
    if j = 0 then (p.doses 0 - svm.means 1) / svm.stds 1
    else if j = 1 then (p.sex - svm.means 2) / svm.stds 2
    else if j = 2 then (p.age - svm.means 3) / svm.stds 3
    else (p.weight - svm.means 4) / svm.stds 4

/-- The matrix `svm->trainFeat` after the loop that writes the new sample's
normalised time to column 0 of every row: `xTrain` and `xTest` are both the
pointer `svm->trainFeat`, so the loop writes to the support matrix itself. -/
def leastRelevent_xTest (svm : SVM R) (p : Patient R) : gsl_matrix R :=
  forLoop svm.trainFeat.size1
    (fun i m => gsl_matrix_set m i 0 ((p.times 0 - svm.means 0) / svm.stds 0))
    svm.trainFeat

/-- The values `Mval` and `Sval`: mean and standard deviation of the predictions `out`
together with the new concentration `conc`. -/
def leastRelevent_MS (sqrt : R → R) (conc : R) (out : gsl_vector R) : R × R :=
  let acc : R × R :=
    forLoop out.size
      (fun j a =>
        let x := gsl_vector_get out j
        (a.1 + x, a.2 + x * x))
      (conc, conc * conc)
  let Mval := acc.1 / ((out.size + 1 : Nat) : R)
  let Sval := sqrt (acc.2 / ((out.size + 1 : Nat) : R) - Mval * Mval)
  (Mval, Sval)

/-- The loop `out[j] = (out[j] - Mval) / Sval`.  For `Sval = 0` the C division
gives NaN or an infinity, which the exact embedding does not represent (the
quotient is 0 here): this definition and the ones that follow it describe the
program for `Sval ≠ 0`. -/
def leastRelevent_normOut (out : gsl_vector R) (Mval Sval : R) : gsl_vector R :=
  forLoop out.size (fun j o => gsl_vector_set o j ((gsl_vector_get o j - Mval) / Sval)) out

/-- The distance `d` that the selection loop of `leastRelevent` computes for
support row `i`. -/
def leastRelevent_dist (trainFeat : gsl_matrix R) (testFeat : Nat → R) (out : gsl_vector R)
    (conc : R) (i : Nat) : R :=
  forLoop 4
    (fun j d =>
      d + (gsl_matrix_get trainFeat i j - testFeat j) * (gsl_matrix_get trainFeat i j - testFeat j))
    ((gsl_vector_get out i - conc) * (gsl_vector_get out i - conc))

/-- The selection loop of `leastRelevent`: the pair `(largestDist, largestLoc)`
after the loop. -/
def leastRelevent_largest (trainFeat : gsl_matrix R) (testFeat : Nat → R) (out : gsl_vector R)
    (conc : R) : R × Nat :=
  forLoop trainFeat.size1
    (fun i a =>
      let d := leastRelevent_dist trainFeat testFeat out conc i
      if d > a.1 then (d, i) else a)
    (0, 0)

/-- The row `largestLoc` that `leastRelevent` replaces, given the predictions
`out` returned by `predictGaussianSVM` (for `Sval ≠ 0`, see
`leastRelevent_normOut`). -/
def leastRelevent_largestLoc (sqrt : R → R) (svm : SVM R) (p : Patient R) (out : gsl_vector R) :
    Nat :=
  let conc := p.concentrations 0
  let MS := leastRelevent_MS sqrt conc out
  (leastRelevent_largest (leastRelevent_xTest svm p) (leastRelevent_testFeat svm p)
    (leastRelevent_normOut out MS.1 MS.2) ((conc - MS.1) / MS.2)).2

/-- The distance of support row `i` as `leastRelevent` computes it from the
predictions `out` returned by `predictGaussianSVM`. -/
def leastRelevent_rowDist (sqrt : R → R) (svm : SVM R) (p : Patient R) (out : gsl_vector R)
    (i : Nat) : R :=
  let conc := p.concentrations 0
  let MS := leastRelevent_MS sqrt conc out
  leastRelevent_dist (leastRelevent_xTest svm p) (leastRelevent_testFeat svm p)
    (leastRelevent_normOut out MS.1 MS.2) ((conc - MS.1) / MS.2) i

/-- The support matrix after row `largestLoc` is overwritten with the new
sample: column 0 gets the normalised time, columns 1 to 4 get `testFeat`. -/
def leastRelevent_replaceRow (m : gsl_matrix R) (largestLoc : Nat) (svm : SVM R)
    (p : Patient R) : gsl_matrix R :=
  let m1 := gsl_matrix_set m largestLoc 0 ((p.times 0 - svm.means 0) / svm.stds 0)
  forLoop 4 (fun j m => gsl_matrix_set m largestLoc (j + 1) (leastRelevent_testFeat svm p j)) m1

/-- The distance of support row `i` as the specification words it, for the
support matrix `svm.trainFeat` at the call and the same normalised
concentrations as `leastRelevent_rowDist`. -/
def leastRelevent_rowDistSpec (sqrt : R → R) (svm : SVM R) (p : Patient R) (out : gsl_vector R)
    (i : Nat) : R :=
  let conc := p.concentrations 0
  let MS := leastRelevent_MS sqrt conc out
  combinedDistSpec svm.trainFeat (leastRelevent_testFeat svm p)
    (leastRelevent_normOut out MS.1 MS.2) ((conc - MS.1) / MS.2) i

/-- The C function `leastRelevent` for non-NULL `svm` and `p` (the NULL guard
returns -1 before anything is touched): the model after the call, which
returns 0; `none` when an `assert` fails or GSL rejects the lengths. -/
def leastRelevent (exp sqrt : R → R) (solve : gsl_matrix R → gsl_vector R → Nat → R)
    (svm : SVM R) (p : Patient R) : Option (SVM R) :=
  let xTest := leastRelevent_xTest svm p
  match predictGaussianSVM exp xTest xTest svm.alpha svm.sigma (gsl_vector_calloc xTest.size1) with
  | none => none
  | some out =>
    let largestLoc := leastRelevent_largestLoc sqrt svm p out
    let feat2 := leastRelevent_replaceRow xTest largestLoc svm p
    let trainY := gsl_vector_set svm.trainY largestLoc (p.concentrations 0)
    match trainGaussianSVM exp solve feat2 trainY svm.C svm.sigma svm.alpha with
    | none => none
    | some r =>
      some { svm with trainFeat := feat2, trainY := trainY, C := r.1, sigma := r.2.1,
                      alpha := r.2.2 }

end Update

/-! ## A concrete support-set update -/

/-- A model with two support rows `[1, 2, 0, 30, 70]` and `[2, 2, 1, 40, 80]`
(time, dose, sex, age, weight), identity normalisation constants, targets
`[7, 9]` and coefficients `[0, 0]`. -/
def exampleSVM : SVM ℚ where
  means := fun _ => 0
  stds := fun _ => 1
  sigma := 1
  C := 1
  trainFeat :=
    ⟨2, 5, fun i j =>
      if i = 0 then
        (if j = 0 then 1 else if j = 1 then 2 else if j = 2 then 0 else if j = 3 then 30 else 70)
      else
        (if j = 0 then 2 else if j = 1 then 2 else if j = 2 then 1 else if j = 3 then 40 else 80)⟩
  trainY := ⟨2, fun i => if i = 0 then 7 else 9⟩
  alpha := ⟨2, fun _ => 0⟩

/-- A new sample measured at time 3 with concentration 3, whose dose, sex, age
and weight `2, 0, 30, 70` are those of support row 0 of `exampleSVM`. -/
def examplePatient : Patient ℚ where
  num := 1
  concentrations := fun _ => 3
  times := fun _ => 3
  doses := fun _ => 2
  size := 1
  sex := 0
  age := 30
  weight := 70

/-! ## The training scenario of the specification -/

section Scenario

variable (R : Type) [LinearOrderedField R]

/-- The support matrix `[[1,0,0,0,0],[2,0,0,0,0],[3,0,0,0,0]]`. -/
def scenarioRows : gsl_matrix R := ⟨3, 5, fun i j => if j = 0 then (i : R) + 1 else 0⟩

/-- The targets `[10, 20, 30]`. -/
def scenarioTargets : gsl_vector R := ⟨3, fun i => 10 * ((i : R) + 1)⟩

/-- The single query row `[2,0,0,0,0]`. -/
def scenarioQuery : gsl_matrix R := ⟨1, 5, fun _ j => if j = 0 then 2 else 0⟩

end Scenario

section ScenarioSolver

variable {R : Type} [LinearOrderedField R]

/-- The determinant of the leading 3 by 3 block of `m`. -/
def det3 (m : Nat → Nat → R) : R :=
  m 0 0 * (m 1 1 * m 2 2 - m 1 2 * m 2 1) - m 0 1 * (m 1 0 * m 2 2 - m 1 2 * m 2 0) +
    m 0 2 * (m 1 0 * m 2 1 - m 1 1 * m 2 0)

/-- Cramer's rule for a 3 by 3 system `X c = y`: an exact solver, standing in
for the least-squares solver on the training scenario. -/
def cramer3 (X : gsl_matrix R) (y : gsl_vector R) (j : Nat) : R :=
  det3 (fun r c => if c = j then y.data r else X.data r c) / det3 X.data

end ScenarioSolver

/-! ## ransac -/

/-- The variables that `ransac` carries from trial to trial: the best inlier
count so far and the two output buffers of the caller. -/
structure RansacState (R : Type) where
  nbInliners : Nat
  alpha : Nat → R
  inliners : Nat → Int

section Ransac

variable {R : Type} [LinearOrderedField R]

/-- The matrix `mx` of `ransac`: row `j` is
`[x[j]^-2, log(x[j]), 1 - exp(-x[j])]`. -/
def ransac_mx (log exp : R → R) (x : Nat → R) (size : Nat) : gsl_matrix R :=
  forLoop size
    (fun j m =>
      let m1 := gsl_matrix_set m j 0 (x j ^ (-2 : Int))
      let m2 := gsl_matrix_set m1 j 1 (log (x j))
      gsl_matrix_set m2 j 2 (1 - exp (-x j)))
    (gsl_matrix_calloc size 3)

/-- The array `randperm` of trial `i`: `randperm[j] = rand() % size`.  `rand`
is the sequence of values that the successive calls of `rand()` return, trial
`i` makes the calls number `i * k` to `i * k + k - 1`; the remainder by
`size = 0` is undefined and gives `none`. -/
def ransac_sample (rand : Nat → Nat) (size k i : Nat) : Option (Nat → Nat) :=
  forLoopM k
    (fun j r =>
      if size = 0 then none
      else some (fun a => if a = j then rand (i * k + j) % size else r a))
    (fun _ => 0)

/-- The matrix `mx2` and the vector `my` of one trial: the sampled rows of `mx`
and the sampled entries of `y` (all `k` rows are rewritten in every trial). -/
def ransac_subset (mx : gsl_matrix R) (y : Nat → R) (randperm : Nat → Nat) (k : Nat) :
    gsl_matrix R × gsl_vector R :=
  forLoop k
    (fun j a =>
      let m1 := gsl_matrix_set a.1 j 0 (gsl_matrix_get mx (randperm j) 0)
      let m2 := gsl_matrix_set m1 j 1 (gsl_matrix_get mx (randperm j) 1)
      let m3 := gsl_matrix_set m2 j 2 (gsl_matrix_get mx (randperm j) 2)
      (m3, gsl_vector_set a.2 j (y (randperm j))))
    (gsl_matrix_calloc k 3, gsl_vector_calloc k)

/-- The decay model of `ransac` (Matlab comment: `m = [x.^(-2) log(x) (1-exp(-x))]`,
fitted value `m * a`) for the coefficients `a`. -/
def ransac_model (log exp : R → R) (a : Nat → R) (t : R) : R :=
  t ^ (-2 : Int) * a 0 + log t * a 1 + (1 - exp (-t)) * a 2

/-- The inlier test of `ransac` for point `j` under the coefficients `a`:
`|model(x[j]) - y[j]| < threshold`. -/
def ransac_inlier (log exp : R → R) (a : Nat → R) (x y : Nat → R) (threshold : R) (j : Nat) :
    Bool :=
  decide (abs (ransac_model log exp a (x j) - y j) < threshold)

/-- The counting loop of `ransac`: the number of `j < size` with
`fabs(mdist[j] - y[j]) < threshold`. -/
def ransac_count (mdist : gsl_vector R) (y : Nat → R) (size : Nat) (threshold : R) : Nat :=
  forLoop size (fun j n => if abs (gsl_vector_get mdist j - y j) < threshold then n + 1 else n) 0

/-- The recording loop of `ransac`: `n = 0; for j: if (...) inliners[n++] = j;`
returns the final `n` and the buffer. -/
def ransac_record (mdist : gsl_vector R) (y : Nat → R) (size : Nat) (threshold : R)
    (inliners : Nat → Int) : Nat × (Nat → Int) :=
  forLoop size
    (fun j w =>
      if abs (gsl_vector_get mdist j - y j) < threshold then
        (w.1 + 1, fun c => if c = w.1 then (j : Int) else w.2 c)
      else w)
    (0, inliners)

/-- One trial (one iteration of the outer loop) of `ransac`. -/
def ransac_trial (solve : gsl_matrix R → gsl_vector R → Nat → R) (rand : Nat → Nat)
    (mx : gsl_matrix R) (y : Nat → R) (size : Nat) (threshold : R) (k : Nat) (i : Nat)
    (s : RansacState R) : Option (RansacState R) :=
  match ransac_sample rand size k i with
  | none => none
  | some randperm =>
    let sub := ransac_subset mx y randperm k
    match gsl_multifit_linear solve sub.1 sub.2 (gsl_vector_calloc 3) with
    | none => none
    | some malpha =>
      match gsl_blas_dgemv_NoTrans 1 mx malpha 0 (gsl_vector_calloc size) with
      | none => none
      | some mdist =>
        let n := ransac_count mdist y size threshold
        if n > s.nbInliners then
          let alpha : Nat → R :=
            forLoop 3 (fun j a => fun c => if c = j then gsl_vector_get malpha j else a c) s.alpha
          some ⟨n, alpha, (ransac_record mdist y size threshold s.inliners).2⟩
        else some s

/-- The state of `ransac` after the first `trials` trials. -/
def ransac_loop (log exp : R → R) (solve : gsl_matrix R → gsl_vector R → Nat → R)
    (rand : Nat → Nat) (x y : Nat → R) (size : Nat) (threshold : R) (k : Nat)
    (alpha : Nat → R) (inliners : Nat → Int) (trials : Nat) : Option (RansacState R) :=
  forLoopM trials (ransac_trial solve rand (ransac_mx log exp x size) y size threshold k)
    ⟨0, alpha, inliners⟩

/-- The C function `ransac`: the returned count and the contents of the
caller's buffers `alpha` and `inliners` after the 100000 trials. -/
def ransac (log exp : R → R) (solve : gsl_matrix R → gsl_vector R → Nat → R)
    (rand : Nat → Nat) (x y : Nat → R) (size : Nat) (threshold : R) (k : Nat)
    (alpha : Nat → R) (inliners : Nat → Int) : Option (Nat × (Nat → R) × (Nat → Int)) :=
  (ransac_loop log exp solve rand x y size threshold k alpha inliners 100000).map
    (fun s => (s.nbInliners, s.alpha, s.inliners))

end Ransac

/-! ## The normalisation loop of main -/

/-- The variables of the normalisation loop of `main`: both feature matrices
and the constants stored in `svm.means`, `svm.stds`. -/
structure NormState (R : Type) where
  trainFeat : gsl_matrix R
  testFeat : gsl_matrix R
  means : Nat → R
  stds : Nat → R

section Normalize

variable {R : Type} [LinearOrderedField R]

/-- The constants of column `i`: `mean`, and `std` after the `std == 0`
guard, computed over the `nbSamplesTrain = trainFeat->size1` rows.  Exact
arithmetic with a `sqrt` that always returns a number;
`main_columnStatsRounded` is the same computation in `float` arithmetic. -/
def main_columnStats (sqrt : R → R) (trainFeat : gsl_matrix R) (i : Nat) : R × R :=
  let acc : R × R :=
    forLoop trainFeat.size1
      (fun j a =>
        let x := gsl_matrix_get trainFeat j i
        (a.1 + x, a.2 + x * x))
      (0, 0)
  let mean := acc.1 / (trainFeat.size1 : R)
  let std := sqrt (acc.2 / (trainFeat.size1 : R) - mean * mean)
  (mean, if std = 0 then 1 else std)

/-- The loop `m[j][i] = (m[j][i] - mean) / std` over the rows of `m`. -/
def main_applyColumn (m : gsl_matrix R) (i : Nat) (mean std : R) : gsl_matrix R :=
  forLoop m.size1
    (fun j m => gsl_matrix_set m j i ((gsl_matrix_get m j i - mean) / std)) m

/-- One iteration of the normalisation loop of `main`, for column `i`: the
constants are computed from the training rows, both matrices are rescaled
with them and they are stored in `svm.means[i]`, `svm.stds[i]`. -/
def main_normalizeColumn (sqrt : R → R) (i : Nat) (st : NormState R) : NormState R :=
  let c := main_columnStats sqrt st.trainFeat i
  { trainFeat := main_applyColumn st.trainFeat i c.1 c.2
    testFeat := main_applyColumn st.testFeat i c.1 c.2
    means := fun a => if a = i then c.1 else st.means a
    stds := fun a => if a = i then c.2 else st.stds a }

/-- The normalisation loop of `main` over the 5 columns. -/
def main_normalize (sqrt : R → R) (st : NormState R) : NormState R :=
  forLoop 5 (main_normalizeColumn sqrt) st

/-- The inverse of the normaliser as the specification words it:
`y ↦ y * std + mean`. -/
def unnormalize (mean std y : R) : R := y * std + mean

end Normalize

/-! ## The inlier compaction of main -/

section Compaction

variable {R : Type} [LinearOrderedField R]

/-- The compaction loop of `main` and the assignment
`trainFeat->size1 = nbInliners` after it: for `i < nbInliners` in ascending
order, row `i` of the training matrix is overwritten, column by column, with
row `inliners[i]` of the matrix as it is at that moment.  The `int`
`inliners[i]` is used as a row index; the indices that `ransac` records are
not negative. -/
def main_compact (trainFeat : gsl_matrix R) (inliners : Nat → Int) (nbInliners : Nat) :
    gsl_matrix R :=
  let m : gsl_matrix R :=
    forLoop nbInliners
      (fun i m =>
        forLoop 5
          (fun j m => gsl_matrix_set m i j (gsl_matrix_get m (inliners i).toNat j)) m)
      trainFeat
  { m with size1 := nbInliners }

/-- The targets of `main`: `svm.trainY = gsl_vector_calloc(nbSamplesTrain)`
followed by the loop `trainY[j] = y[inliners[j]]`, where `nbSamplesTrain` is
the number of inliers by then. -/
def main_trainY (y : Nat → R) (inliners : Nat → Int) (nbSamplesTrain : Nat) : gsl_vector R :=
  forLoop nbSamplesTrain
    (fun j v => gsl_vector_set v j (y (inliners j).toNat))
    (gsl_vector_calloc nbSamplesTrain)

end Compaction

/-! ## predictN -/

/-- The argument `const SVM * svm` as `predictN` tests it: the members
`trainFeat` and `alpha` are pointers that may be NULL (`none`). -/
structure SVMView (R : Type) where
  means : Nat → R
  stds : Nat → R
  sigma : R
  C : R
  trainFeat : Option (gsl_matrix R)
  trainY : Option (gsl_vector R)
  alpha : Option (gsl_vector R)

/-- A model whose three containers are allocated, seen through its pointers. -/
def SVM.view {R : Type} (svm : SVM R) : SVMView R where
  means := svm.means
  stds := svm.stds
  sigma := svm.sigma
  C := svm.C
  trainFeat := some svm.trainFeat
  trainY := some svm.trainY
  alpha := some svm.alpha

section PredictN

variable {R : Type} [LinearOrderedField R]

/-- The divisor `(n-1)` of the time step in `predictN`: the `int` `n - 1`
converted to `double`. -/
def predictN_divisor (n : Int) : R := ((n - 1 : Int) : R)

/-- The query time of row `j` in `predictN`:
`start + j * (stop - start) / (n-1)`, with the `int` `j` converted to
`double`. -/
def predictN_time (start stop : R) (n : Int) (j : Nat) : R :=
  start + (j : R) * (stop - start) / predictN_divisor n

/-- The matrix `testFeat` of `predictN` after its five loops: `n` rows of
normalised time, dose, sex, age and weight. -/
def predictN_testFeat (start stop : R) (n : Int) (p : Patient R) (dose : R)
    (means stds : Nat → R) : gsl_matrix R :=
  let m0 : gsl_matrix R := gsl_matrix_calloc n.toNat 5
  let m1 :=
    forLoop n.toNat
      (fun j m => gsl_matrix_set m j 0 ((predictN_time start stop n j - means 0) / stds 0)) m0
  let m2 := forLoop n.toNat (fun j m => gsl_matrix_set m j 1 ((dose - means 1) / stds 1)) m1
  let m3 := forLoop n.toNat (fun j m => gsl_matrix_set m j 2 ((p.sex - means 2) / stds 2)) m2
  let m4 := forLoop n.toNat (fun j m => gsl_matrix_set m j 3 ((p.age - means 3) / stds 3)) m3
  forLoop n.toNat (fun j m => gsl_matrix_set m j 4 ((p.weight - means 4) / stds 4)) m4

/-- The C function `predictN`: the returned `int` and the contents of `out`
after the call (`none` for a NULL `out`).  The guard returns -1 when a pointer
is NULL or `start < 0`, `start >= stop`, `n < 1`, the support row count
differs from the length of `alpha`, or `sigma <= 0`; otherwise the
predictions are written to `out` and 0 is returned.  The result is `none` when
`predictGaussianSVM` aborts. -/
def predictN (exp : R → R) (start stop : R) (n : Int) (p : Option (Patient R)) (dose : R)
    (svm : Option (SVMView R)) (out : Option (gsl_vector R)) :
    Option (Int × Option (gsl_vector R)) :=
  match p, svm, out with
  | some p, some svm, some out =>
    match svm.trainFeat, svm.alpha with
    | some trainFeat, some alpha =>
      if start < 0 ∨ start ≥ stop ∨ n < 1 ∨ trainFeat.size1 ≠ alpha.size ∨ svm.sigma ≤ 0 then
        some (-1, some out)
      else
        match predictGaussianSVM exp trainFeat
            (predictN_testFeat start stop n p dose svm.means svm.stds) alpha svm.sigma out with
        | some out1 => some (0, some out1)
        | none => none
    | _, _ => some (-1, some out)
  | _, _, out => some (-1, out)

end PredictN

/-! ## Rounded arithmetic

The definitions above read `float` and `double` arithmetic as exact.  Where a
property of the program depends on the rounding itself, the same code is given
a second time with the result of every arithmetic operation passed through a
rounding function `fl`; with `fl` the identity these are the definitions
above. -/

section Rounding

variable {R : Type} [LinearOrderedField R] [FloorRing R]

/-- Rounding to the nearest number with a significand of `p` bits, ties to the
even significand: the rounding of an IEEE 754 operation in the default mode,
with `p = 24` for `float` and `p = 53` for `double`.  The exponent `e` is the
one with `2 ^ e ≤ |x| < 2 ^ (e + 1)` and the result is a multiple of
`2 ^ (e - (p - 1))`.  The exponent range is unbounded here: no overflow and no
subnormal numbers. -/
def roundNearestEven (p : Nat) (x : R) : R :=
  if x = 0 then 0
  else
    let e : Int := Int.log 2 |x|
    let ulp : R := (2 : R) ^ (e - ((p : Int) - 1))
    let q : R := x / ulp
    let f : Int := ⌊q⌋
    let r : R := q - (f : R)
    let m : Int :=
      if r < 1 / 2 then f
      else if 1 / 2 < r then f + 1
      else if f % 2 = 0 then f else f + 1
    (m : R) * ulp

end Rounding

section PredictRounded

variable {R : Type} [LinearOrderedField R]

/-- The call `gsl_blas_ddot x y` in `double` arithmetic, as the CBLAS of GSL
computes it: `r = 0; for k: r += x[k] * y[k]`, the product and the sum each
rounded. -/
def gsl_blas_ddot_rounded (fl : R → R) (x y : gsl_vector R) : R :=
  forLoop x.size (fun k r => fl (r + fl (x.data k * y.data k))) 0

/-- The call `gsl_blas_dgemm(CblasNoTrans, CblasTrans, a, A, B, 1.0, C)` in
`double` arithmetic, as the CBLAS of GSL computes it:
`for i, j: temp = 0; for k: temp += A[i][k] * B[j][k]; C[i][j] += a * temp`. -/
def gsl_blas_dgemm_NoTrans_Trans_rounded (fl : R → R) (a : R) (A B C : gsl_matrix R) :
    gsl_matrix R :=
  { C with
    data := fun i j =>
      if i < C.size1 ∧ j < C.size2 then
        let temp := forLoop A.size2 (fun k t => fl (t + fl (A.data i k * B.data j k))) 0
        fl (C.data i j + fl (a * temp))
      else C.data i j }

/-- The matrix `D` of `predictGaussianSVM` (the variable `kernel` after the
`gsl_blas_dgemm` call) in `double` arithmetic: `predictDist` with every
operation rounded by `fl`.  The code applies no clamp to it. -/
def predictDistRounded (fl : R → R) (xTrain xTest : gsl_matrix R) : gsl_matrix R :=
  let xTrain2 : gsl_vector R :=
    forLoop xTrain.size1
      (fun i v =>
        gsl_vector_set v i
          (gsl_blas_ddot_rounded fl (gsl_matrix_const_row xTrain i)
            (gsl_matrix_const_row xTrain i)))
      (gsl_vector_calloc xTrain.size1)
  let kernel : gsl_matrix R :=
    forLoop xTest.size1
      (fun i K =>
        let dot :=
          gsl_blas_ddot_rounded fl (gsl_matrix_const_row xTest i) (gsl_matrix_const_row xTest i)
        forLoop xTrain.size1
          (fun j K => gsl_matrix_set K i j (fl (gsl_vector_get xTrain2 j + dot))) K)
      (gsl_matrix_calloc xTest.size1 xTrain.size1)
  gsl_blas_dgemm_NoTrans_Trans_rounded fl (-2) xTest xTrain kernel

/-- The kernel width used by `predictGaussianSVM`, in `double` arithmetic. -/
def predictSigmaRounded (fl : R → R) (xTrain xTest : gsl_matrix R) (sigma : R) : R :=
  if sigma ≤ 0 then
    let sum : R :=
      forLoop xTest.size1
        (fun i s =>
          forLoop xTrain.size1
            (fun j s => fl (s + gsl_matrix_get (predictDistRounded fl xTrain xTest) i j)) s)
        0
    fl (sum / fl ((xTest.size1 * xTrain.size1 : Nat) : R))
  else sigma

/-- The kernel matrix of `predictGaussianSVM` in `double` arithmetic:
`sigma = -1.0 / (2.0 * sigma * sigma)` and then
`kernel[i][j] = exp(kernel[i][j] * sigma)`, where `exp` is the libm
function. -/
def predictKernelRounded (fl exp : R → R) (xTrain xTest : gsl_matrix R) (sigma : R) :
    gsl_matrix R :=
  let sigma1 := predictSigmaRounded fl xTrain xTest sigma
  let sigma2 := fl (-1 / fl (fl (2 * sigma1) * sigma1))
  forLoop xTest.size1
    (fun i K =>
      forLoop xTrain.size1
        (fun j K => gsl_matrix_set K i j (exp (fl (gsl_matrix_get K i j * sigma2)))) K)
    (predictDistRounded fl xTrain xTest)

end PredictRounded

section CloseRows

variable (R : Type) [LinearOrderedField R]

/-- One support row `[268435463, 0, 0, 0, 0]`. -/
def closeSupport : gsl_matrix R := ⟨1, 5, fun _ j => if j = 0 then 268435463 else 0⟩

/-- One query row `[268435462, 0, 0, 0, 0]`, at distance 1 from the row of
`closeSupport`. -/
def closeQuery : gsl_matrix R := ⟨1, 5, fun _ j => if j = 0 then 268435462 else 0⟩

end CloseRows

section NormalizeRounded

variable {R : Type} [LinearOrderedField R]

/-- The `float` variable `mean` of column `i` of the normalisation loop of
`main`, and the argument `std / nbSamplesTrain - mean * mean` that the loop
passes to `sqrt`, in `float` arithmetic: `x`, `mean` and `std` are `float`
variables, so the matrix entry is narrowed to `float` and every operation is
rounded by `fl`.  The flag `fused` says how the compiler treats `std + x * x`
and `std / nbSamplesTrain - mean * mean`: as a fused multiply-add, which
rounds once, or as a product that is rounded before the sum is. -/
def main_columnMomentsRounded (fl : R → R) (fused : Bool) (trainFeat : gsl_matrix R)
    (i : Nat) : R × R :=
  let acc : R × R :=
    forLoop trainFeat.size1
      (fun j a =>
        let x := fl (gsl_matrix_get trainFeat j i)
        (fl (a.1 + x), if fused then fl (a.2 + x * x) else fl (a.2 + fl (x * x))))
      (0, 0)
  let mean := fl (acc.1 / fl (trainFeat.size1 : R))
  let q := fl (acc.2 / fl (trainFeat.size1 : R))
  (mean, if fused then fl (q - mean * mean) else fl (q - fl (mean * mean)))

/-- The constants of column `i` in `float` arithmetic: `mean`, and `std`
after the `std == 0` guard.  The libm function `sqrt` returns NaN (`none`) for
a negative argument; NaN compares unequal to 0, so the guard leaves it in
place and NaN is what is stored. -/
def main_columnStatsRounded (fl : R → R) (fused : Bool) (sqrt : R → Option R)
    (trainFeat : gsl_matrix R) (i : Nat) : R × Option R :=
  let ms := main_columnMomentsRounded fl fused trainFeat i
  (ms.1,
    match sqrt ms.2 with
    | none => none
    | some s => some (if fl s = 0 then 1 else fl s))

end NormalizeRounded

section ConstantColumn

variable (R : Type) [LinearOrderedField R]

/-- Three training rows (time, dose, sex, age, weight) of patients who all
weigh `61.7f = 16174285 / 262144`, the `float` nearest to 61.7. -/
def constantWeightRows : gsl_matrix R :=
  ⟨3, 5, fun i j =>
    if j = 0 then (i : R) + 1
    else if j = 1 then 400
    else if j = 2 then 0
    else if j = 3 then 30
    else 16174285 / 262144⟩

end ConstantColumn

/-! ## The support-set update of `exampleSVM` over any field -/

section ExampleOver

variable (R : Type) [LinearOrderedField R]

/-- The model `exampleSVM` over an arbitrary field, so that the update can be
evaluated with the real `exp` and `sqrt`. -/
def exampleSVMOver : SVM R where
  means := fun _ => 0
  stds := fun _ => 1
  sigma := 1
  C := 1
  trainFeat :=
    ⟨2, 5, fun i j =>
      if i = 0 then
        (if j = 0 then 1 else if j = 1 then 2 else if j = 2 then 0 else if j = 3 then 30 else 70)
      else
        (if j = 0 then 2 else if j = 1 then 2 else if j = 2 then 1 else if j = 3 then 40 else 80)⟩
  trainY := ⟨2, fun i => if i = 0 then 7 else 9⟩
  alpha := ⟨2, fun _ => 0⟩

/-- The new sample `examplePatient` over an arbitrary field. -/
def examplePatientOver : Patient R where
  num := 1
  concentrations := fun _ => 3
  times := fun _ => 3
  doses := fun _ => 2
  size := 1
  sex := 0
  age := 30
  weight := 70

end ExampleOver

/-! # Theorems -/

section LoopLemmas

variable {σ : Type}

@[simp] theorem forLoop_zero (body : Nat → σ → σ) (s : σ) : forLoop 0 body s = s := rfl

theorem forLoop_succ (n : Nat) (body : Nat → σ → σ) (s : σ) :
    forLoop (n + 1) body s = body n (forLoop n body s) := rfl

/-- Loop invariant rule: `P k` holds of the state after `k` iterations. -/
theorem forLoop_induct (P : Nat → σ → Prop) (n : Nat) (body : Nat → σ → σ) (s : σ)
    (h0 : P 0 s) (hs : ∀ i t, i < n → P i t → P (i + 1) (body i t)) :
    P n (forLoop n body s) := by
  have key : ∀ k, k ≤ n → P k (forLoop k body s) := by
    intro k
    induction k with
    | zero => intro _; exact h0
    | succ k ih =>
      intro hk
      rw [forLoop_succ]
      exact hs k _ (by omega) (ih (by omega))
  exact key n le_rfl

end LoopLemmas

section ContainerLemmas

variable {R : Type}

@[simp] theorem gsl_matrix_set_size1 (m : gsl_matrix R) (i j : Nat) (x : R) :
    (gsl_matrix_set m i j x).size1 = m.size1 := rfl

@[simp] theorem gsl_matrix_set_size2 (m : gsl_matrix R) (i j : Nat) (x : R) :
    (gsl_matrix_set m i j x).size2 = m.size2 := rfl

theorem gsl_matrix_set_data (m : gsl_matrix R) (i j : Nat) (x : R) (a b : Nat) :
    (gsl_matrix_set m i j x).data a b = if a = i ∧ b = j then x else m.data a b := rfl

@[simp] theorem gsl_vector_set_size (v : gsl_vector R) (i : Nat) (x : R) :
    (gsl_vector_set v i x).size = v.size := rfl

theorem gsl_vector_set_data (v : gsl_vector R) (i : Nat) (x : R) (k : Nat) :
    (gsl_vector_set v i x).data k = if k = i then x else v.data k := rfl

theorem forLoop_size1 (n : Nat) (body : Nat → gsl_matrix R → gsl_matrix R) (m : gsl_matrix R)
    (h : ∀ i t, (body i t).size1 = t.size1) : (forLoop n body m).size1 = m.size1 :=
  forLoop_induct (fun _ (t : gsl_matrix R) => t.size1 = m.size1) n body m rfl
    (fun i t _ ht => by simpa [h i t] using ht)

theorem forLoop_size2 (n : Nat) (body : Nat → gsl_matrix R → gsl_matrix R) (m : gsl_matrix R)
    (h : ∀ i t, (body i t).size2 = t.size2) : (forLoop n body m).size2 = m.size2 :=
  forLoop_induct (fun _ (t : gsl_matrix R) => t.size2 = m.size2) n body m rfl
    (fun i t _ ht => by simpa [h i t] using ht)

theorem forLoop_vsize (n : Nat) (body : Nat → gsl_vector R → gsl_vector R) (v : gsl_vector R)
    (h : ∀ i t, (body i t).size = t.size) : (forLoop n body v).size = v.size :=
  forLoop_induct (fun _ (t : gsl_vector R) => t.size = v.size) n body v rfl
    (fun i t _ ht => by simpa [h i t] using ht)

end ContainerLemmas

section UpdateLemmas

variable {R : Type} [LinearOrderedField R]

theorem leastRelevent_xTest_size1 (svm : SVM R) (p : Patient R) :
    (leastRelevent_xTest svm p).size1 = svm.trainFeat.size1 := by
  unfold leastRelevent_xTest
  exact forLoop_induct (fun _ (m : gsl_matrix R) => m.size1 = svm.trainFeat.size1) _ _ _ rfl
    (fun i t _ h => by simpa using h)

theorem leastRelevent_xTest_size2 (svm : SVM R) (p : Patient R) :
    (leastRelevent_xTest svm p).size2 = svm.trainFeat.size2 := by
  unfold leastRelevent_xTest
  exact forLoop_induct (fun _ (m : gsl_matrix R) => m.size2 = svm.trainFeat.size2) _ _ _ rfl
    (fun i t _ h => by simpa using h)

/-- After the first loop of `leastRelevent`, column 0 of every support row
holds the new sample's normalised time; nothing else is touched. -/
theorem leastRelevent_xTest_data (svm : SVM R) (p : Patient R) (a b : Nat) :
    (leastRelevent_xTest svm p).data a b =
      if a < svm.trainFeat.size1 ∧ b = 0 then (p.times 0 - svm.means 0) / svm.stds 0
      else svm.trainFeat.data a b := by
  unfold leastRelevent_xTest
  refine forLoop_induct
    (fun k (m : gsl_matrix R) => m.data a b =
      if a < k ∧ b = 0 then (p.times 0 - svm.means 0) / svm.stds 0 else svm.trainFeat.data a b)
    _ _ _ (by simp) ?_
  intro i t _ h
  simp only [gsl_matrix_set_data, h]
  by_cases hb : b = 0
  · by_cases ha : a = i
    · simp [ha, hb]
    · have : (a < i + 1) ↔ (a < i) := by omega
      simp [ha, hb, this]
  · simp [hb]

end UpdateLemmas

section SizeLemmas

variable {R : Type} [LinearOrderedField R]

theorem predictDist_size1 (xTrain xTest : gsl_matrix R) :
    (predictDist xTrain xTest).size1 = xTest.size1 := by
  simp only [predictDist, gsl_blas_dgemm_NoTrans_Trans]
  rw [forLoop_size1]
  · rfl
  · intro i t
    exact forLoop_size1 _ _ _ (fun j u => rfl)

theorem predictDist_size2 (xTrain xTest : gsl_matrix R) :
    (predictDist xTrain xTest).size2 = xTrain.size1 := by
  simp only [predictDist, gsl_blas_dgemm_NoTrans_Trans]
  rw [forLoop_size2]
  · rfl
  · intro i t
    exact forLoop_size2 _ _ _ (fun j u => rfl)

theorem predictKernel_size1 (exp : R → R) (xTrain xTest : gsl_matrix R) (sigma : R) :
    (predictKernel exp xTrain xTest sigma).size1 = xTest.size1 := by
  simp only [predictKernel]
  rw [forLoop_size1, predictDist_size1]
  intro i t
  exact forLoop_size1 _ _ _ (fun j u => rfl)

theorem predictKernel_size2 (exp : R → R) (xTrain xTest : gsl_matrix R) (sigma : R) :
    (predictKernel exp xTrain xTest sigma).size2 = xTrain.size1 := by
  simp only [predictKernel]
  rw [forLoop_size2, predictDist_size2]
  intro i t
  exact forLoop_size2 _ _ _ (fun j u => rfl)

theorem trainDist_size1 (xTrain : gsl_matrix R) : (trainDist xTrain).size1 = xTrain.size1 := by
  simp only [trainDist, gsl_blas_dgemm_NoTrans_Trans]
  rw [forLoop_size1]
  · rfl
  · intro i t
    exact forLoop_size1 _ _ _ (fun j u => rfl)

theorem trainDist_size2 (xTrain : gsl_matrix R) : (trainDist xTrain).size2 = xTrain.size1 := by
  simp only [trainDist, gsl_blas_dgemm_NoTrans_Trans]
  rw [forLoop_size2]
  · rfl
  · intro i t
    exact forLoop_size2 _ _ _ (fun j u => rfl)

theorem trainKernel_size1 (exp : R → R) (xTrain : gsl_matrix R) (C sigma : R) :
    (trainKernel exp xTrain C sigma).size1 = xTrain.size1 := by
  simp only [trainKernel]
  rw [forLoop_size1, trainDist_size1]
  intro i t
  simp only [gsl_matrix_set_size1]
  exact forLoop_size1 _ _ _ (fun j u => rfl)

theorem trainKernel_size2 (exp : R → R) (xTrain : gsl_matrix R) (C sigma : R) :
    (trainKernel exp xTrain C sigma).size2 = xTrain.size1 := by
  simp only [trainKernel]
  rw [forLoop_size2, trainDist_size2]
  intro i t
  simp only [gsl_matrix_set_size2]
  exact forLoop_size2 _ _ _ (fun j u => rfl)

/-- The function `predictGaussianSVM` returns exactly when the column counts agree and
`alpha`, `y` have the lengths of the kernel matrix; the result has the length
of `y`. -/
theorem predictGaussianSVM_some (exp : R → R) (xTrain xTest : gsl_matrix R)
    (alpha : gsl_vector R) (sigma : R) (y : gsl_vector R)
    (h2 : xTrain.size2 = xTest.size2) (ha : xTrain.size1 = alpha.size)
    (hy : xTest.size1 = y.size) :
    ∃ out, predictGaussianSVM exp xTrain xTest alpha sigma y = some out ∧ out.size = y.size ∧
      ∀ i, i < y.size → out.data i =
        ∑ j in Finset.range xTrain.size1,
          (predictKernel exp xTrain xTest sigma).data i j * alpha.data j := by
  simp only [predictGaussianSVM, gsl_blas_dgemv_NoTrans, h2, if_true, predictKernel_size1,
    predictKernel_size2, ha, hy, and_self]
  refine ⟨_, rfl, rfl, ?_⟩
  intro i hi
  simp [hi]

/-- The function `trainGaussianSVM` returns exactly when `y` and `alpha` have as many
entries as there are support rows; it then returns `trainC`, `trainSigma` and
the solver's coefficients for the regularised kernel matrix. -/
theorem trainGaussianSVM_some (exp : R → R) (solve : gsl_matrix R → gsl_vector R → Nat → R)
    (xTrain : gsl_matrix R) (y : gsl_vector R) (C sigma : R) (alpha : gsl_vector R)
    (hy : y.size = xTrain.size1) (ha : alpha.size = xTrain.size1) :
    ∃ alpha1, trainGaussianSVM exp solve xTrain y C sigma alpha
        = some (trainC C, trainSigma xTrain sigma, alpha1) ∧
      alpha1.size = alpha.size ∧
      ∀ i, i < alpha.size → alpha1.data i =
        solve (trainKernel exp xTrain (trainC C) (trainSigma xTrain sigma)) y i := by
  simp only [trainGaussianSVM, gsl_multifit_linear, hy, if_true, trainKernel_size1,
    trainKernel_size2, ha, and_self]
  refine ⟨_, rfl, rfl, ?_⟩
  intro i hi
  simp [hi]

end SizeLemmas


section UpdateTheorems

variable {R : Type} [LinearOrderedField R]

theorem leastRelevent_replaceRow_size1 (m : gsl_matrix R) (loc : Nat) (svm : SVM R)
    (p : Patient R) : (leastRelevent_replaceRow m loc svm p).size1 = m.size1 := by
  simp only [leastRelevent_replaceRow]
  exact Eq.trans (forLoop_size1 4 _ _ (fun j u => rfl)) rfl

theorem leastRelevent_replaceRow_size2 (m : gsl_matrix R) (loc : Nat) (svm : SVM R)
    (p : Patient R) : (leastRelevent_replaceRow m loc svm p).size2 = m.size2 := by
  simp only [leastRelevent_replaceRow]
  exact Eq.trans (forLoop_size2 4 _ _ (fun j u => rfl)) rfl

/-- The row replacement writes the 5 columns of row `loc` and nothing else. -/
theorem leastRelevent_replaceRow_data (m : gsl_matrix R) (loc : Nat) (svm : SVM R)
    (p : Patient R) (a b : Nat) :
    (leastRelevent_replaceRow m loc svm p).data a b =
      if a = loc ∧ b < 5 then
        (if b = 0 then (p.times 0 - svm.means 0) / svm.stds 0
         else leastRelevent_testFeat svm p (b - 1))
      else m.data a b := by
  simp only [leastRelevent_replaceRow, forLoop, gsl_matrix_set_data]
  by_cases ha : a = loc
  · by_cases hb : b < 5
    · interval_cases b <;> simp [ha]
    · have h0 : b ≠ 0 := by omega
      have h1 : b ≠ 1 := by omega
      have h2 : b ≠ 2 := by omega
      have h3 : b ≠ 3 := by omega
      have h4 : b ≠ 4 := by omega
      simp [ha, hb, h0, h1, h2, h3, h4]
  · simp [ha]

theorem leastRelevent_normOut_size (out : gsl_vector R) (M S : R) :
    (leastRelevent_normOut out M S).size = out.size := by
  simp only [leastRelevent_normOut]
  exact forLoop_vsize _ _ _ (fun j u => rfl)

theorem leastRelevent_normOut_data (out : gsl_vector R) (M S : R) (i : Nat) :
    (leastRelevent_normOut out M S).data i =
      if i < out.size then (out.data i - M) / S else out.data i := by
  simp only [leastRelevent_normOut]
  refine forLoop_induct
    (fun k (o : gsl_vector R) => o.data i = if i < k then (out.data i - M) / S else out.data i)
    _ _ _ (by simp) ?_
  intro j t _ h
  simp only [gsl_vector_set_data, gsl_vector_get, h]
  by_cases hij : i = j
  · subst hij
    simp at h
    simp [h]
  · have : (i < j + 1) ↔ (i < j) := by omega
    simp [hij, this]

/-- The distance computed by the selection loop, written out: the squared
concentration difference plus the squared differences of columns 0 to 3 of
the support row against `testFeat[0..3]`. -/
theorem leastRelevent_dist_eq (trainFeat : gsl_matrix R) (testFeat : Nat → R)
    (out : gsl_vector R) (conc : R) (i : Nat) :
    leastRelevent_dist trainFeat testFeat out conc i =
      (out.data i - conc) ^ 2 + ∑ j in Finset.range 4, (trainFeat.data i j - testFeat j) ^ 2 := by
  simp only [leastRelevent_dist, forLoop, gsl_matrix_get, gsl_vector_get, Finset.sum_range_succ,
    Finset.sum_range_zero]
  ring

theorem leastRelevent_dist_nonneg (trainFeat : gsl_matrix R) (testFeat : Nat → R)
    (out : gsl_vector R) (conc : R) (i : Nat) :
    0 ≤ leastRelevent_dist trainFeat testFeat out conc i := by
  rw [leastRelevent_dist_eq]
  exact add_nonneg (sq_nonneg _) (Finset.sum_nonneg (fun j _ => sq_nonneg _))

/-- The selection loop `if (d > largestDist) { largestDist = d; largestLoc = i; }`
started from `(0, 0)` over non-negative distances: the result is the first
index of the maximum. -/
theorem largest_loop_spec (d : Nat → R) (n : Nat) (hd : ∀ i, 0 ≤ d i) (hn : 0 < n) :
    (forLoop n (fun i (a : R × Nat) => if d i > a.1 then (d i, i) else a) (0, 0)).2 < n ∧
    (forLoop n (fun i (a : R × Nat) => if d i > a.1 then (d i, i) else a) (0, 0)).1 =
      d (forLoop n (fun i (a : R × Nat) => if d i > a.1 then (d i, i) else a) (0, 0)).2 ∧
    (∀ i, i < n →
      d i ≤ (forLoop n (fun i (a : R × Nat) => if d i > a.1 then (d i, i) else a) (0, 0)).1) ∧
    (∀ i, i < (forLoop n (fun i (a : R × Nat) => if d i > a.1 then (d i, i) else a) (0, 0)).2 →
      d i < (forLoop n (fun i (a : R × Nat) => if d i > a.1 then (d i, i) else a) (0, 0)).1) := by
  have key := forLoop_induct
    (fun k (a : R × Nat) =>
      (k = 0 ∧ a = (0, 0)) ∨
      (0 < k ∧ a.2 < k ∧ a.1 = d a.2 ∧ (∀ i, i < k → d i ≤ a.1) ∧ (∀ i, i < a.2 → d i < a.1)))
    n (fun i (a : R × Nat) => if d i > a.1 then (d i, i) else a) (0, 0) (Or.inl ⟨rfl, rfl⟩) ?_
  · rcases key with ⟨h0, _⟩ | ⟨_, h⟩
    · omega
    · exact h
  · intro i t _ ht
    right
    rcases ht with ⟨hi, ht⟩ | ⟨hi, h2, h1, hle, hlt⟩
    · subst hi; subst ht
      by_cases hpos : d 0 > 0
      · beta_reduce
        rw [if_pos hpos]
        refine ⟨by omega, by omega, rfl, ?_, ?_⟩
        · intro j hj
          have : j = 0 := by omega
          subst this; exact le_rfl
        · intro j hj; omega
      · beta_reduce
        rw [if_neg hpos]
        have h0 : d 0 = 0 := le_antisymm (not_lt.mp hpos) (hd 0)
        refine ⟨by omega, by omega, h0.symm, ?_, ?_⟩
        · intro j hj
          have : j = 0 := by omega
          subst this; exact le_of_eq h0
        · intro j hj; omega
    · by_cases hgt : d i > t.1
      · beta_reduce
        rw [if_pos hgt]
        refine ⟨by omega, by omega, rfl, ?_, ?_⟩
        · intro j hj
          rcases Nat.lt_succ_iff_lt_or_eq.mp hj with hj | hj
          · exact le_of_lt (lt_of_le_of_lt (hle j hj) hgt)
          · subst hj; exact le_rfl
        · intro j hj
          exact lt_of_le_of_lt (hle j hj) hgt
      · beta_reduce
        rw [if_neg hgt]
        refine ⟨by omega, by omega, h1, ?_, hlt⟩
        intro j hj
        rcases Nat.lt_succ_iff_lt_or_eq.mp hj with hj | hj
        · exact hle j hj
        · subst hj; exact not_lt.mp hgt

end UpdateTheorems


section UpdateClaims

variable {R : Type} [LinearOrderedField R]

/-- Under the size invariant `leastRelevent` returns: the prediction succeeds,
row `largestLoc` of the support matrix and of the targets is replaced, and the
model is retrained. -/
theorem leastRelevent_some (exp sqrt : R → R) (solve : gsl_matrix R → gsl_vector R → Nat → R)
    (svm : SVM R) (p : Patient R) (h : sizesAgree svm) :
    ∃ out alpha1,
      predictGaussianSVM exp (leastRelevent_xTest svm p) (leastRelevent_xTest svm p) svm.alpha
          svm.sigma (gsl_vector_calloc (leastRelevent_xTest svm p).size1) = some out ∧
      out.size = svm.trainFeat.size1 ∧
      (∀ i, i < svm.trainFeat.size1 → out.data i =
        ∑ j in Finset.range svm.trainFeat.size1,
          (predictKernel exp (leastRelevent_xTest svm p) (leastRelevent_xTest svm p)
            svm.sigma).data i j * svm.alpha.data j) ∧
      alpha1.size = svm.alpha.size ∧
      leastRelevent exp sqrt solve svm p =
        some
          { svm with
            trainFeat :=
              leastRelevent_replaceRow (leastRelevent_xTest svm p)
                (leastRelevent_largestLoc sqrt svm p out) svm p
            trainY :=
              gsl_vector_set svm.trainY (leastRelevent_largestLoc sqrt svm p out)
                (p.concentrations 0)
            C := trainC svm.C
            sigma :=
              trainSigma
                (leastRelevent_replaceRow (leastRelevent_xTest svm p)
                  (leastRelevent_largestLoc sqrt svm p out) svm p) svm.sigma
            alpha := alpha1 } := by
  obtain ⟨h1, h2⟩ := h
  obtain ⟨out, hout, hsz, hdata⟩ :=
    predictGaussianSVM_some exp (leastRelevent_xTest svm p) (leastRelevent_xTest svm p) svm.alpha
      svm.sigma (gsl_vector_calloc (leastRelevent_xTest svm p).size1) rfl
      (by rw [leastRelevent_xTest_size1, h1, h2]) rfl
  obtain ⟨alpha1, htrain, hasz, -⟩ :=
    trainGaussianSVM_some exp solve
      (leastRelevent_replaceRow (leastRelevent_xTest svm p)
        (leastRelevent_largestLoc sqrt svm p out) svm p)
      (gsl_vector_set svm.trainY (leastRelevent_largestLoc sqrt svm p out) (p.concentrations 0))
      svm.C svm.sigma svm.alpha
      (by rw [leastRelevent_replaceRow_size1, leastRelevent_xTest_size1, gsl_vector_set_size, h1])
      (by rw [leastRelevent_replaceRow_size1, leastRelevent_xTest_size1, h1, h2])
  refine ⟨out, alpha1, hout, ?_, ?_, hasz, ?_⟩
  · rw [hsz]; exact leastRelevent_xTest_size1 svm p
  · intro i hi
    have := hdata i (by
      show i < (leastRelevent_xTest svm p).size1
      rw [leastRelevent_xTest_size1]; exact hi)
    rw [this, leastRelevent_xTest_size1]
  · simp only [leastRelevent, hout, htrain]

end UpdateClaims

section UpdateClaims2

variable {R : Type} [LinearOrderedField R]

/-- The row that `leastRelevent` replaces is the result of the selection loop
over the distances `leastRelevent_rowDist`. -/
theorem leastRelevent_largestLoc_eq (sqrt : R → R) (svm : SVM R) (p : Patient R)
    (out : gsl_vector R) :
    leastRelevent_largestLoc sqrt svm p out =
      (forLoop svm.trainFeat.size1
        (fun i (a : R × Nat) =>
          if leastRelevent_rowDist sqrt svm p out i > a.1 then
            (leastRelevent_rowDist sqrt svm p out i, i)
          else a)
        (0, 0)).2 := by
  simp only [leastRelevent_largestLoc, leastRelevent_largest, leastRelevent_rowDist,
    leastRelevent_xTest_size1]

theorem leastRelevent_rowDist_nonneg (sqrt : R → R) (svm : SVM R) (p : Patient R)
    (out : gsl_vector R) (i : Nat) : 0 ≤ leastRelevent_rowDist sqrt svm p out i := by
  simp only [leastRelevent_rowDist]
  exact leastRelevent_dist_nonneg _ _ _ _ _

/-- The selection loop of `leastRelevent` taken by itself, in exact arithmetic
and for `Sval ≠ 0`: for a model with a non-empty support set whose sizes
agree, `leastRelevent` returns, and the row `largestLoc` it overwrites with
the new sample (normalised time and covariates, raw concentration) is the
first row of maximum `leastRelevent_rowDist`, the distance that the loop
computes from columns 0 to 3 of the support matrix with the time column
already overwritten.  That distance is not the combined distance of the
specification (`leastRelevent_rowDistSpec`). -/
theorem leastRelevent_evicts_first_maximum (exp sqrt : R → R)
    (solve : gsl_matrix R → gsl_vector R → Nat → R) (svm : SVM R) (p : Patient R)
    (hinv : sizesAgree svm) (hne : 0 < svm.trainFeat.size1) :
    ∃ svm1 out loc,
      leastRelevent exp sqrt solve svm p = some svm1 ∧
      predictGaussianSVM exp (leastRelevent_xTest svm p) (leastRelevent_xTest svm p) svm.alpha
          svm.sigma (gsl_vector_calloc (leastRelevent_xTest svm p).size1) = some out ∧
      loc = leastRelevent_largestLoc sqrt svm p out ∧
      loc < svm.trainFeat.size1 ∧
      (∀ i, i < svm.trainFeat.size1 →
        leastRelevent_rowDist sqrt svm p out i ≤ leastRelevent_rowDist sqrt svm p out loc) ∧
      (∀ i, i < loc →
        leastRelevent_rowDist sqrt svm p out i < leastRelevent_rowDist sqrt svm p out loc) ∧
      ((∀ i, i < svm.trainFeat.size1 → leastRelevent_rowDist sqrt svm p out i = 0) → loc = 0) ∧
      svm1.trainFeat.data loc 0 = (p.times 0 - svm.means 0) / svm.stds 0 ∧
      svm1.trainFeat.data loc 1 = (p.doses 0 - svm.means 1) / svm.stds 1 ∧
      svm1.trainFeat.data loc 2 = (p.sex - svm.means 2) / svm.stds 2 ∧
      svm1.trainFeat.data loc 3 = (p.age - svm.means 3) / svm.stds 3 ∧
      svm1.trainFeat.data loc 4 = (p.weight - svm.means 4) / svm.stds 4 ∧
      svm1.trainY.data loc = p.concentrations 0 := by
  obtain ⟨out, alpha1, hout, -, -, -, hres⟩ := leastRelevent_some exp sqrt solve svm p hinv
  obtain ⟨hlt, heq, hle, hfirst⟩ :=
    largest_loop_spec (leastRelevent_rowDist sqrt svm p out) svm.trainFeat.size1
      (leastRelevent_rowDist_nonneg sqrt svm p out) hne
  rw [← leastRelevent_largestLoc_eq] at hlt heq hfirst
  rw [heq] at hle hfirst
  refine ⟨_, out, _, hres, hout, rfl, hlt, hle, hfirst, ?_, ?_, ?_, ?_, ?_, ?_, ?_⟩
  · intro hzero
    by_contra hloc
    have h0 := hfirst 0 (Nat.pos_of_ne_zero hloc)
    rw [hzero 0 hne, hzero _ hlt] at h0
    exact lt_irrefl _ h0
  · simp [leastRelevent_replaceRow_data]
  · simp [leastRelevent_replaceRow_data, leastRelevent_testFeat]
  · simp [leastRelevent_replaceRow_data, leastRelevent_testFeat]
  · simp [leastRelevent_replaceRow_data, leastRelevent_testFeat]
  · simp [leastRelevent_replaceRow_data, leastRelevent_testFeat]
  · simp [gsl_vector_set_data]

/-- C4: if `rows(trainFeat) = length(trainY) = length(alpha)` holds before
`trainGaussianSVM` or `leastRelevent` is called on the model, the call returns
and the equalities hold afterwards; `leastRelevent` leaves the number of
support rows unchanged. -/
theorem sizesAgree_preserved (exp sqrt : R → R) (solve : gsl_matrix R → gsl_vector R → Nat → R)
    (svm : SVM R) (p : Patient R) (hinv : sizesAgree svm) :
    (∃ r, trainGaussianSVM exp solve svm.trainFeat svm.trainY svm.C svm.sigma svm.alpha = some r ∧
      sizesAgree { svm with C := r.1, sigma := r.2.1, alpha := r.2.2 }) ∧
    (∃ svm1, leastRelevent exp sqrt solve svm p = some svm1 ∧ sizesAgree svm1 ∧
      svm1.trainFeat.size1 = svm.trainFeat.size1 ∧ svm1.trainFeat.size2 = svm.trainFeat.size2) := by
  constructor
  · obtain ⟨alpha1, htrain, hsz, -⟩ :=
      trainGaussianSVM_some exp solve svm.trainFeat svm.trainY svm.C svm.sigma svm.alpha
        hinv.1.symm (hinv.2.symm.trans hinv.1.symm)
    exact ⟨_, htrain, hinv.1, hinv.2.trans hsz.symm⟩
  · obtain ⟨out, alpha1, -, -, -, hsz, hres⟩ := leastRelevent_some exp sqrt solve svm p hinv
    refine ⟨_, hres, ⟨?_, ?_⟩, ?_, ?_⟩
    · show (leastRelevent_replaceRow _ _ svm p).size1 = (gsl_vector_set _ _ _).size
      rw [leastRelevent_replaceRow_size1, leastRelevent_xTest_size1, gsl_vector_set_size]
      exact hinv.1
    · show (gsl_vector_set _ _ _).size = alpha1.size
      rw [gsl_vector_set_size, hsz]
      exact hinv.2
    · show (leastRelevent_replaceRow _ _ svm p).size1 = _
      rw [leastRelevent_replaceRow_size1, leastRelevent_xTest_size1]
    · show (leastRelevent_replaceRow _ _ svm p).size2 = _
      rw [leastRelevent_replaceRow_size2, leastRelevent_xTest_size2]

end UpdateClaims2


section ExampleUpdate

/-- On `exampleSVM` the predictions are 0 (the coefficients are 0), whatever
`exp` is. -/
theorem example_leastRelevent (exp sqrt : ℚ → ℚ)
    (solve : gsl_matrix ℚ → gsl_vector ℚ → Nat → ℚ) :
    ∃ out alpha1,
      predictGaussianSVM exp (leastRelevent_xTest exampleSVM examplePatient)
          (leastRelevent_xTest exampleSVM examplePatient) exampleSVM.alpha exampleSVM.sigma
          (gsl_vector_calloc (leastRelevent_xTest exampleSVM examplePatient).size1) = some out ∧
      out.size = 2 ∧ out.data 0 = 0 ∧ out.data 1 = 0 ∧
      leastRelevent exp sqrt solve exampleSVM examplePatient =
        some
          { exampleSVM with
            trainFeat :=
              leastRelevent_replaceRow (leastRelevent_xTest exampleSVM examplePatient)
                (leastRelevent_largestLoc sqrt exampleSVM examplePatient out) exampleSVM
                examplePatient
            trainY :=
              gsl_vector_set exampleSVM.trainY
                (leastRelevent_largestLoc sqrt exampleSVM examplePatient out)
                (examplePatient.concentrations 0)
            C := trainC exampleSVM.C
            sigma :=
              trainSigma
                (leastRelevent_replaceRow (leastRelevent_xTest exampleSVM examplePatient)
                  (leastRelevent_largestLoc sqrt exampleSVM examplePatient out) exampleSVM
                  examplePatient) exampleSVM.sigma
            alpha := alpha1 } := by
  obtain ⟨out, alpha1, hout, hsz, hdata, -, hres⟩ :=
    leastRelevent_some exp sqrt solve exampleSVM examplePatient ⟨rfl, rfl⟩
  refine ⟨out, alpha1, hout, hsz, ?_, ?_, hres⟩
  · rw [hdata 0 (by decide)]
    simp [exampleSVM]
  · rw [hdata 1 (by decide)]
    simp [exampleSVM]

/-- The distances that the selection loop computes on the example: row 0,
whose dose, sex, age and weight are those of the new sample, gets 2505 on top
of the concentration term, row 1 gets 1746. -/
theorem example_rowDist (sqrt : ℚ → ℚ) (out : gsl_vector ℚ) (hsz : out.size = 2)
    (h0 : out.data 0 = 0) (h1 : out.data 1 = 0) :
    leastRelevent_rowDist sqrt exampleSVM examplePatient out 0 =
      leastRelevent_rowDistSpec sqrt exampleSVM examplePatient out 0 + 2505 ∧
    leastRelevent_rowDist sqrt exampleSVM examplePatient out 1 =
      leastRelevent_rowDistSpec sqrt exampleSVM examplePatient out 1 + 1545 ∧
    leastRelevent_rowDistSpec sqrt exampleSVM examplePatient out 1 =
      leastRelevent_rowDistSpec sqrt exampleSVM examplePatient out 0 + 201 ∧
    0 ≤ leastRelevent_rowDistSpec sqrt exampleSVM examplePatient out 0 := by
  simp only [leastRelevent_rowDist, leastRelevent_rowDistSpec, leastRelevent_dist_eq,
    combinedDistSpec, leastRelevent_normOut_data, leastRelevent_xTest_data, hsz, h0, h1,
    Finset.sum_range_succ, Finset.sum_range_zero]
  refine ⟨?_, ?_, ?_, ?_⟩
  · norm_num [exampleSVM, examplePatient, leastRelevent_testFeat]
  · norm_num [exampleSVM, examplePatient, leastRelevent_testFeat]
    ring
  · norm_num [exampleSVM, examplePatient, leastRelevent_testFeat]
  · norm_num [exampleSVM, examplePatient, leastRelevent_testFeat]
    positivity

/-- On the example the selection loop keeps row 0. -/
theorem example_largestLoc (sqrt : ℚ → ℚ) (out : gsl_vector ℚ) (hsz : out.size = 2)
    (h0 : out.data 0 = 0) (h1 : out.data 1 = 0) :
    leastRelevent_largestLoc sqrt exampleSVM examplePatient out = 0 := by
  obtain ⟨e0, e1, e2, e3⟩ := example_rowDist sqrt out hsz h0 h1
  rw [leastRelevent_largestLoc_eq]
  have hn : exampleSVM.trainFeat.size1 = 2 := rfl
  rw [hn]
  simp only [forLoop]
  have hpos : leastRelevent_rowDist sqrt exampleSVM examplePatient out 0 > 0 := by
    rw [e0]; linarith
  rw [if_pos hpos]
  have hle : ¬ (leastRelevent_rowDist sqrt exampleSVM examplePatient out 1 >
      leastRelevent_rowDist sqrt exampleSVM examplePatient out 0) := by
    rw [e0, e1, e2]; intro h; linarith
  rw [if_neg hle]

end ExampleUpdate


section UpdateVerdicts

/-- What `leastRelevent` leaves of the support set, in general: column 0 of
every support row holds the new sample's normalised time afterwards, while
columns other than 0 of the rows other than `largestLoc`, and the targets
other than that of `largestLoc`, keep their values. -/
theorem leastRelevent_frame {R : Type} [LinearOrderedField R] (exp sqrt : R → R)
    (solve : gsl_matrix R → gsl_vector R → Nat → R) (svm : SVM R) (p : Patient R)
    (hinv : sizesAgree svm) :
    ∃ svm1 out,
      leastRelevent exp sqrt solve svm p = some svm1 ∧
      predictGaussianSVM exp (leastRelevent_xTest svm p) (leastRelevent_xTest svm p) svm.alpha
          svm.sigma (gsl_vector_calloc (leastRelevent_xTest svm p).size1) = some out ∧
      (∀ i, i < svm.trainFeat.size1 →
        svm1.trainFeat.data i 0 = (p.times 0 - svm.means 0) / svm.stds 0) ∧
      (∀ i c, i ≠ leastRelevent_largestLoc sqrt svm p out → c ≠ 0 →
        svm1.trainFeat.data i c = svm.trainFeat.data i c) ∧
      (∀ i, i ≠ leastRelevent_largestLoc sqrt svm p out →
        svm1.trainY.data i = svm.trainY.data i) := by
  obtain ⟨out, alpha1, hout, -, -, -, hres⟩ := leastRelevent_some exp sqrt solve svm p hinv
  refine ⟨_, out, hres, hout, ?_, ?_, ?_⟩
  · intro i hi
    simp only [leastRelevent_replaceRow_data, leastRelevent_xTest_data]
    by_cases h : i = leastRelevent_largestLoc sqrt svm p out
    · simp [h]
    · simp [h, hi]
  · intro i c hi hc
    simp only [leastRelevent_replaceRow_data, leastRelevent_xTest_data]
    simp [hi, hc]
  · intro i hi
    simp [gsl_vector_set_data, hi]

/-- C1, evaluated on `exampleSVM` and `examplePatient`: `leastRelevent`
replaces row 0, and yet the time column of row 1, which is not the replaced
row, changes from 2 to 3, the normalised time of the new sample.  Columns 1
to 4 of row 1 and its target keep their values. -/
theorem leastRelevent_overwrites_time_of_kept_row (exp sqrt : ℚ → ℚ)
    (solve : gsl_matrix ℚ → gsl_vector ℚ → Nat → ℚ) :
    ∃ svm1 out,
      leastRelevent exp sqrt solve exampleSVM examplePatient = some svm1 ∧
      predictGaussianSVM exp (leastRelevent_xTest exampleSVM examplePatient)
          (leastRelevent_xTest exampleSVM examplePatient) exampleSVM.alpha exampleSVM.sigma
          (gsl_vector_calloc (leastRelevent_xTest exampleSVM examplePatient).size1) = some out ∧
      leastRelevent_largestLoc sqrt exampleSVM examplePatient out = 0 ∧
      exampleSVM.trainFeat.data 1 0 = 2 ∧
      svm1.trainFeat.data 1 0 = 3 ∧
      (∀ c, c ≠ 0 → svm1.trainFeat.data 1 c = exampleSVM.trainFeat.data 1 c) ∧
      svm1.trainY.data 1 = exampleSVM.trainY.data 1 := by
  obtain ⟨out, alpha1, hout, hsz, h0, h1, hres⟩ := example_leastRelevent exp sqrt solve
  have hloc := example_largestLoc sqrt out hsz h0 h1
  refine ⟨_, out, hres, hout, hloc, by simp [exampleSVM], ?_, ?_, ?_⟩
  · simp only [leastRelevent_replaceRow_data, leastRelevent_xTest_data, hloc]
    norm_num [exampleSVM, examplePatient]
  · intro c hc
    simp only [leastRelevent_replaceRow_data, leastRelevent_xTest_data, hloc]
    simp [hc]
  · simp [gsl_vector_set_data, hloc]

/-- C2, evaluated on `exampleSVM` and `examplePatient`: the distance that
`leastRelevent` computes for support row 0 is not the combined distance of
the specification but that distance plus 2505, because the loop compares
columns 0 to 3 (time, dose, sex, age) of the row with the new dose, sex, age
and weight.  Row 0 has the smaller specified distance of the two rows, and is
the row replaced. -/
theorem leastRelevent_distance_reads_columns_0_to_3 (exp sqrt : ℚ → ℚ) :
    ∃ out,
      predictGaussianSVM exp (leastRelevent_xTest exampleSVM examplePatient)
          (leastRelevent_xTest exampleSVM examplePatient) exampleSVM.alpha exampleSVM.sigma
          (gsl_vector_calloc (leastRelevent_xTest exampleSVM examplePatient).size1) = some out ∧
      leastRelevent_rowDist sqrt exampleSVM examplePatient out 0 =
        leastRelevent_rowDistSpec sqrt exampleSVM examplePatient out 0 + 2505 ∧
      leastRelevent_rowDist sqrt exampleSVM examplePatient out 0 ≠
        leastRelevent_rowDistSpec sqrt exampleSVM examplePatient out 0 ∧
      leastRelevent_rowDistSpec sqrt exampleSVM examplePatient out 0 <
        leastRelevent_rowDistSpec sqrt exampleSVM examplePatient out 1 ∧
      leastRelevent_largestLoc sqrt exampleSVM examplePatient out = 0 := by
  obtain ⟨out, alpha1, hout, hsz, h0, h1, -⟩ :=
    example_leastRelevent exp sqrt (fun _ _ _ => 0)
  obtain ⟨e0, -, e2, -⟩ := example_rowDist sqrt out hsz h0 h1
  refine ⟨out, hout, e0, ?_, ?_, example_largestLoc sqrt out hsz h0 h1⟩
  · rw [e0]; intro h; linarith
  · rw [e2]; linarith

/-- The hypotheses of `leastRelevent_evicts_first_maximum` hold on the
example, where the row replaced gets the target 3 of the new sample. -/
theorem leastRelevent_evicts_first_maximum_witness :
    sizesAgree exampleSVM ∧ 0 < exampleSVM.trainFeat.size1 ∧
    ∃ svm1 loc,
      leastRelevent (fun x => x) (fun x => x) (fun _ _ _ => 0) exampleSVM examplePatient
        = some svm1 ∧
      loc < 2 ∧ svm1.trainY.data loc = 3 := by
  obtain ⟨svm1, out, loc, h1, -, -, h2, -, -, -, -, -, -, -, -, h3⟩ :=
    leastRelevent_evicts_first_maximum (fun x => x) (fun x => x) (fun _ _ _ => 0) exampleSVM
      examplePatient ⟨rfl, rfl⟩ (by decide)
  exact ⟨⟨rfl, rfl⟩, by decide, svm1, loc, h1, h2, h3⟩

/-- The hypothesis of `sizesAgree_preserved` holds on the example. -/
theorem sizesAgree_preserved_witness :
    sizesAgree exampleSVM ∧
    (∃ r, trainGaussianSVM (fun x => x) (fun _ _ _ => 0) exampleSVM.trainFeat exampleSVM.trainY
        exampleSVM.C exampleSVM.sigma exampleSVM.alpha = some r ∧
      sizesAgree { exampleSVM with C := r.1, sigma := r.2.1, alpha := r.2.2 }) ∧
    (∃ svm1, leastRelevent (fun x => x) (fun x => x) (fun _ _ _ => 0) exampleSVM examplePatient
        = some svm1 ∧ sizesAgree svm1 ∧
      svm1.trainFeat.size1 = exampleSVM.trainFeat.size1 ∧
      svm1.trainFeat.size2 = exampleSVM.trainFeat.size2) :=
  ⟨⟨rfl, rfl⟩,
    sizesAgree_preserved (fun x => x) (fun x => x) (fun _ _ _ => 0) exampleSVM examplePatient
      ⟨rfl, rfl⟩⟩

end UpdateVerdicts


section ExampleOverRat

/-- Over the rationals `exampleSVMOver` and `examplePatientOver` are `exampleSVM` and
`examplePatient`. -/
theorem exampleOver_rat :
    exampleSVMOver ℚ = exampleSVM ∧ examplePatientOver ℚ = examplePatient :=
  ⟨rfl, rfl⟩

end ExampleOverRat

section ExampleOverUpdate

variable {R : Type} [LinearOrderedField R]

/-- On `exampleSVMOver` the predictions are 0 (the coefficients are 0),
whatever `exp` is. -/
theorem exampleOver_leastRelevent (exp sqrt : R → R)
    (solve : gsl_matrix R → gsl_vector R → Nat → R) :
    ∃ out alpha1,
      predictGaussianSVM exp (leastRelevent_xTest (exampleSVMOver R) (examplePatientOver R))
          (leastRelevent_xTest (exampleSVMOver R) (examplePatientOver R))
          (exampleSVMOver R).alpha (exampleSVMOver R).sigma
          (gsl_vector_calloc
            (leastRelevent_xTest (exampleSVMOver R) (examplePatientOver R)).size1) = some out ∧
      out.size = 2 ∧ out.data 0 = 0 ∧ out.data 1 = 0 ∧
      leastRelevent exp sqrt solve (exampleSVMOver R) (examplePatientOver R) =
        some
          { exampleSVMOver R with
            trainFeat :=
              leastRelevent_replaceRow
                (leastRelevent_xTest (exampleSVMOver R) (examplePatientOver R))
                (leastRelevent_largestLoc sqrt (exampleSVMOver R) (examplePatientOver R) out)
                (exampleSVMOver R) (examplePatientOver R)
            trainY :=
              gsl_vector_set (exampleSVMOver R).trainY
                (leastRelevent_largestLoc sqrt (exampleSVMOver R) (examplePatientOver R) out)
                ((examplePatientOver R).concentrations 0)
            C := trainC (exampleSVMOver R).C
            sigma :=
              trainSigma
                (leastRelevent_replaceRow
                  (leastRelevent_xTest (exampleSVMOver R) (examplePatientOver R))
                  (leastRelevent_largestLoc sqrt (exampleSVMOver R) (examplePatientOver R) out)
                  (exampleSVMOver R) (examplePatientOver R)) (exampleSVMOver R).sigma
            alpha := alpha1 } := by
  obtain ⟨out, alpha1, hout, hsz, hdata, -, hres⟩ :=
    leastRelevent_some exp sqrt solve (exampleSVMOver R) (examplePatientOver R) ⟨rfl, rfl⟩
  refine ⟨out, alpha1, hout, hsz, ?_, ?_, hres⟩
  · rw [hdata 0 (by show 0 < 2; decide)]
    simp [exampleSVMOver]
  · rw [hdata 1 (by show 1 < 2; decide)]
    simp [exampleSVMOver]

/-- The mean and standard deviation that `leastRelevent` computes on the
example from the predictions `0, 0` and the new concentration 3. -/
theorem exampleOver_MS (sqrt : R → R) (out : gsl_vector R) (hsz : out.size = 2)
    (h0 : out.data 0 = 0) (h1 : out.data 1 = 0) :
    leastRelevent_MS sqrt ((examplePatientOver R).concentrations 0) out = (1, sqrt 2) := by
  simp only [leastRelevent_MS, hsz, forLoop, gsl_vector_get, h0, h1, examplePatientOver]
  norm_num

/-- The distances on the example, given the mean 1 and a standard deviation
`s` with `s * s = 2`: the selection loop computes `9/2 + 2505` for row 0 and
`9/2 + 1746` for row 1, the combined distances of the specification are `9/2` and
`9/2 + 201`. -/
theorem exampleOver_rowDist (sqrt : R → R) (out : gsl_vector R) (hsz : out.size = 2)
    (h0 : out.data 0 = 0) (h1 : out.data 1 = 0) (hs : sqrt 2 * sqrt 2 = 2) :
    leastRelevent_rowDist sqrt (exampleSVMOver R) (examplePatientOver R) out 0 = 5019 / 2 ∧
    leastRelevent_rowDist sqrt (exampleSVMOver R) (examplePatientOver R) out 1 = 3501 / 2 ∧
    leastRelevent_rowDistSpec sqrt (exampleSVMOver R) (examplePatientOver R) out 0 = 9 / 2 ∧
    leastRelevent_rowDistSpec sqrt (exampleSVMOver R) (examplePatientOver R) out 1 = 411 / 2 := by
  have hX : (-1 / sqrt 2 - 2 / sqrt 2) ^ 2 = (9 : R) / 2 := by
    have h3 : -1 / sqrt 2 - 2 / sqrt 2 = -3 / sqrt 2 := by ring
    rw [h3, div_pow, pow_two (sqrt 2), hs]
    norm_num
  simp only [leastRelevent_rowDist, leastRelevent_rowDistSpec, leastRelevent_dist_eq,
    combinedDistSpec, leastRelevent_normOut_data, leastRelevent_xTest_data,
    exampleOver_MS sqrt out hsz h0 h1, hsz, h0, h1,
    Finset.sum_range_succ, Finset.sum_range_zero]
  have hc : (examplePatientOver R).concentrations 0 = 3 := rfl
  rw [hc]
  refine ⟨?_, ?_, ?_, ?_⟩
  · norm_num [exampleSVMOver, examplePatientOver, leastRelevent_testFeat]
    rw [hX]; norm_num
  · norm_num [exampleSVMOver, examplePatientOver, leastRelevent_testFeat]
    rw [hX]; norm_num
  · norm_num [exampleSVMOver, examplePatientOver, leastRelevent_testFeat]
    rw [hX]
  · norm_num [exampleSVMOver, examplePatientOver, leastRelevent_testFeat]
    rw [hX]; norm_num

/-- On the example the selection loop keeps row 0. -/
theorem exampleOver_largestLoc (sqrt : R → R) (out : gsl_vector R) (hsz : out.size = 2)
    (h0 : out.data 0 = 0) (h1 : out.data 1 = 0) (hs : sqrt 2 * sqrt 2 = 2) :
    leastRelevent_largestLoc sqrt (exampleSVMOver R) (examplePatientOver R) out = 0 := by
  obtain ⟨e0, e1, -, -⟩ := exampleOver_rowDist sqrt out hsz h0 h1 hs
  rw [leastRelevent_largestLoc_eq]
  have hn : (exampleSVMOver R).trainFeat.size1 = 2 := rfl
  rw [hn]
  simp only [forLoop]
  have hpos : leastRelevent_rowDist sqrt (exampleSVMOver R) (examplePatientOver R) out 0 > 0 := by
    rw [e0]; norm_num
  rw [if_pos hpos]
  have hle : ¬ (leastRelevent_rowDist sqrt (exampleSVMOver R) (examplePatientOver R) out 1 >
      leastRelevent_rowDist sqrt (exampleSVMOver R) (examplePatientOver R) out 0) := by
    rw [e0, e1]; norm_num
  rw [if_neg hle]

end ExampleOverUpdate

section EvictionVerdict

/-- C3, evaluated on the example with the real `exp` and `sqrt` (support rows
`[1,2,0,30,70]` and `[2,2,1,40,80]`, new sample at time 3 with concentration
3, dose 2, sex 0, age 30, weight 70): the predictions are 0, so `Mval = 1`,
`Sval = √2` and both rows have the concentration term `9/2`.  The combined
distance of the specification is `9/2` for row 0 and `9/2 + 201 = 411/2` for
row 1, so row 1 is the row of maximum combined distance.  The selection loop
computes `5019/2` for row 0 and `3501/2` for row 1 and `leastRelevent`
overwrites row 0, the row of the smaller combined distance, with the new
sample; row 1 keeps its covariates and its target 9. -/
theorem leastRelevent_evicts_row_of_smaller_combined_distance
    (solve : gsl_matrix ℝ → gsl_vector ℝ → Nat → ℝ) :
    ∃ svm1 out,
      leastRelevent Real.exp Real.sqrt solve (exampleSVMOver ℝ) (examplePatientOver ℝ)
        = some svm1 ∧
      predictGaussianSVM Real.exp (leastRelevent_xTest (exampleSVMOver ℝ) (examplePatientOver ℝ))
          (leastRelevent_xTest (exampleSVMOver ℝ) (examplePatientOver ℝ))
          (exampleSVMOver ℝ).alpha (exampleSVMOver ℝ).sigma
          (gsl_vector_calloc
            (leastRelevent_xTest (exampleSVMOver ℝ) (examplePatientOver ℝ)).size1) = some out ∧
      out.size = 2 ∧ out.data 0 = 0 ∧ out.data 1 = 0 ∧
      leastRelevent_MS Real.sqrt ((examplePatientOver ℝ).concentrations 0) out
        = (1, Real.sqrt 2) ∧
      leastRelevent_rowDist Real.sqrt (exampleSVMOver ℝ) (examplePatientOver ℝ) out 0
        = 5019 / 2 ∧
      leastRelevent_rowDist Real.sqrt (exampleSVMOver ℝ) (examplePatientOver ℝ) out 1
        = 3501 / 2 ∧
      leastRelevent_rowDistSpec Real.sqrt (exampleSVMOver ℝ) (examplePatientOver ℝ) out 0
        = 9 / 2 ∧
      leastRelevent_rowDistSpec Real.sqrt (exampleSVMOver ℝ) (examplePatientOver ℝ) out 1
        = 411 / 2 ∧
      leastRelevent_largestLoc Real.sqrt (exampleSVMOver ℝ) (examplePatientOver ℝ) out = 0 ∧
      leastRelevent_rowDistSpec Real.sqrt (exampleSVMOver ℝ) (examplePatientOver ℝ) out
          (leastRelevent_largestLoc Real.sqrt (exampleSVMOver ℝ) (examplePatientOver ℝ) out) <
        leastRelevent_rowDistSpec Real.sqrt (exampleSVMOver ℝ) (examplePatientOver ℝ) out 1 ∧
      (svm1.trainFeat.data 0 0 = 3 ∧ svm1.trainFeat.data 0 1 = 2 ∧ svm1.trainFeat.data 0 2 = 0 ∧
        svm1.trainFeat.data 0 3 = 30 ∧ svm1.trainFeat.data 0 4 = 70 ∧
        svm1.trainY.data 0 = 3) ∧
      (svm1.trainFeat.data 1 1 = 2 ∧ svm1.trainFeat.data 1 2 = 1 ∧ svm1.trainFeat.data 1 3 = 40 ∧
        svm1.trainFeat.data 1 4 = 80 ∧ svm1.trainY.data 1 = 9) := by
  have hs : Real.sqrt 2 * Real.sqrt 2 = 2 := Real.mul_self_sqrt (by norm_num)
  obtain ⟨out, alpha1, hout, hsz, h0, h1, hres⟩ :=
    exampleOver_leastRelevent Real.exp Real.sqrt solve
  obtain ⟨e0, e1, e2, e3⟩ := exampleOver_rowDist Real.sqrt out hsz h0 h1 hs
  have hloc := exampleOver_largestLoc Real.sqrt out hsz h0 h1 hs
  refine ⟨_, out, hres, hout, hsz, h0, h1, exampleOver_MS Real.sqrt out hsz h0 h1, e0, e1, e2,
    e3, hloc, ?_, ?_, ?_⟩
  · rw [hloc, e2, e3]; norm_num
  · simp only [leastRelevent_replaceRow_data, leastRelevent_xTest_data, gsl_vector_set_data,
      hloc]
    norm_num [exampleSVMOver, examplePatientOver, leastRelevent_testFeat]
  · simp only [leastRelevent_replaceRow_data, leastRelevent_xTest_data, gsl_vector_set_data,
      hloc]
    norm_num [exampleSVMOver, examplePatientOver, leastRelevent_testFeat]

end EvictionVerdict


section KernelLemmas

variable {R : Type}

/-- The loop `for i: v[i] = f i`. -/
theorem forLoop_vector_fill (n : Nat) (f : Nat → R) (v : gsl_vector R) (a : Nat) :
    (forLoop n (fun i t => gsl_vector_set t i (f i)) v).data a =
      if a < n then f a else v.data a := by
  induction n with
  | zero => simp
  | succ n ih =>
    rw [forLoop_succ, gsl_vector_set_data, ih]
    by_cases h : a = n
    · simp [h]
    · have : (a < n + 1) ↔ (a < n) := by omega
      simp [h, this]

/-- The inner loop `for j: K[i][j] = g j (K[i][j])` over one row. -/
theorem forLoop_row_map (m : Nat) (i : Nat) (g : Nat → R → R) (K : gsl_matrix R) (a b : Nat) :
    (forLoop m (fun j t => gsl_matrix_set t i j (g j (gsl_matrix_get t i j))) K).data a b =
      if a = i ∧ b < m then g b (K.data a b) else K.data a b := by
  induction m generalizing a b with
  | zero => simp
  | succ m ih =>
    rw [forLoop_succ, gsl_matrix_set_data]
    simp only [gsl_matrix_get] at ih ⊢
    simp only [ih]
    by_cases ha : a = i
    · by_cases hb : b = m
      · simp [ha, hb]
      · have : (b < m + 1) ↔ (b < m) := by omega
        simp [ha, hb, this]
    · simp [ha]

/-- The double loop `for i: for j: K[i][j] = g i j (K[i][j])`. -/
theorem forLoop_matrix_map (n m : Nat) (g : Nat → Nat → R → R) (K : gsl_matrix R) (a b : Nat) :
    (forLoop n (fun i t =>
        forLoop m (fun j u => gsl_matrix_set u i j (g i j (gsl_matrix_get u i j))) t) K).data a b =
      if a < n ∧ b < m then g a b (K.data a b) else K.data a b := by
  induction n with
  | zero => simp
  | succ n ih =>
    rw [forLoop_succ, forLoop_row_map m n (g n), ih]
    by_cases ha : a = n
    · subst ha
      by_cases hb : b < m <;> simp [hb]
    · have : (a < n + 1) ↔ (a < n) := by omega
      simp [ha, this]

variable [LinearOrderedField R]

/-- The accumulation loop `for j: s += g j`. -/
theorem forLoop_sum (n : Nat) (g : Nat → R) (s : R) :
    forLoop n (fun j t => t + g j) s = s + ∑ j in Finset.range n, g j := by
  induction n with
  | zero => simp
  | succ n ih => rw [forLoop_succ, ih, Finset.sum_range_succ]; ring

/-- The double accumulation loop `for i: for j: s += f i j`. -/
theorem forLoop_sum2 (n m : Nat) (f : Nat → Nat → R) (s : R) :
    forLoop n (fun i t => forLoop m (fun j u => u + f i j) t) s =
      s + ∑ i in Finset.range n, ∑ j in Finset.range m, f i j := by
  induction n with
  | zero => simp
  | succ n ih => rw [forLoop_succ, forLoop_sum, ih, Finset.sum_range_succ]; ring

end KernelLemmas


section DistLemmas

variable {R : Type} [LinearOrderedField R]

/-- The squared norm of a row, as `gsl_blas_ddot` of the row with itself. -/
theorem ddot_row (X : gsl_matrix R) (i : Nat) :
    gsl_blas_ddot (gsl_matrix_const_row X i) (gsl_matrix_const_row X i) =
      ∑ c in Finset.range X.size2, X.data i c * X.data i c := rfl

/-- Expanding the square: `Σ (x - y)² = Σ x² + Σ y² - 2 Σ x y`. -/
theorem sum_sq_sub (n : Nat) (x y : Nat → R) :
    ∑ c in Finset.range n, (x c - y c) ^ 2 =
      -2 * (∑ c in Finset.range n, x c * y c) +
        1 * ((∑ c in Finset.range n, y c * y c) + ∑ c in Finset.range n, x c * x c) := by
  rw [Finset.mul_sum, one_mul, ← Finset.sum_add_distrib, ← Finset.sum_add_distrib]
  refine Finset.sum_congr rfl (fun c _ => ?_)
  ring

/-- The entries of the matrix `D` of `predictGaussianSVM`:
`D[a][b] = -2 * (xTest_a . xTrain_b) + (‖xTrain_b‖² + ‖xTest_a‖²)`. -/
theorem predictDist_data (xTrain xTest : gsl_matrix R) (a b : Nat) (ha : a < xTest.size1)
    (hb : b < xTrain.size1) :
    (predictDist xTrain xTest).data a b =
      -2 * (∑ k in Finset.range xTest.size2, xTest.data a k * xTrain.data b k) +
        1 * ((∑ c in Finset.range xTrain.size2, xTrain.data b c * xTrain.data b c) +
          ∑ c in Finset.range xTest.size2, xTest.data a c * xTest.data a c) := by
  have hfill := forLoop_matrix_map xTest.size1 xTrain.size1
    (fun i j (_ : R) =>
      gsl_vector_get
        (forLoop xTrain.size1
          (fun i v =>
            gsl_vector_set v i
              (gsl_blas_ddot (gsl_matrix_const_row xTrain i) (gsl_matrix_const_row xTrain i)))
          (gsl_vector_calloc xTrain.size1)) j +
      gsl_blas_ddot (gsl_matrix_const_row xTest i) (gsl_matrix_const_row xTest i))
    (gsl_matrix_calloc xTest.size1 xTrain.size1) a b
  have hs1 := predictDist_size1 xTrain xTest
  have hs2 := predictDist_size2 xTrain xTest
  simp only [predictDist, gsl_blas_dgemm_NoTrans_Trans] at hs1 hs2 ⊢
  rw [hs1, hs2, if_pos ⟨ha, hb⟩]
  rw [hfill, if_pos ⟨ha, hb⟩]
  simp only [gsl_vector_get, forLoop_vector_fill, if_pos hb, ddot_row]

/-- With equal column counts, `D[a][b]` of `predictGaussianSVM` is the squared
Euclidean distance between query row `a` and support row `b`. -/
theorem predictDist_eq_sqDist (xTrain xTest : gsl_matrix R) (hcols : xTrain.size2 = xTest.size2)
    (a b : Nat) (ha : a < xTest.size1) (hb : b < xTrain.size1) :
    (predictDist xTrain xTest).data a b = sqDist xTest xTrain a b := by
  rw [predictDist_data xTrain xTest a b ha hb, sqDist, sum_sq_sub, hcols]

end DistLemmas


section TrainLemmas

variable {R : Type} [LinearOrderedField R]

/-- Splitting an indicator of `b < m + 1` into `b < m` and `b = m`. -/
theorem ite_lt_succ (P : Prop) [Decidable P] (b m : Nat) (x : R) :
    (if P ∧ b < m + 1 then x else 0) =
      (if P ∧ b < m then x else 0) + (if P ∧ b = m then x else 0) := by
  by_cases hP : P
  · rcases Nat.lt_trichotomy b m with h | h | h
    · have h1 : b < m + 1 := by omega
      have h2 : b ≠ m := by omega
      simp [hP, h, h1, h2]
    · have h1 : b < m + 1 := by omega
      have h2 : ¬ b < m := by omega
      simp [hP, h, h1, h2]
    · have h1 : ¬ b < m + 1 := by omega
      have h2 : ¬ b < m := by omega
      have h3 : b ≠ m := by omega
      simp [hP, h1, h2, h3]
  · simp [hP]

/-- One step `K[i][j] += dot; K[j][i] += dot;` of `trainGaussianSVM`. -/
theorem trainDist_step (i j : Nat) (dot : R) (t : gsl_matrix R) (a b : Nat) :
    (gsl_matrix_set (gsl_matrix_set t i j (gsl_matrix_get t i j + dot)) j i
      (gsl_matrix_get (gsl_matrix_set t i j (gsl_matrix_get t i j + dot)) j i + dot)).data a b =
      t.data a b + (if a = i ∧ b = j then dot else 0) + (if b = i ∧ a = j then dot else 0) := by
  simp only [gsl_matrix_get, gsl_matrix_set_data]
  by_cases h2 : a = j ∧ b = i
  · obtain ⟨rfl, rfl⟩ := h2
    by_cases h3 : a = b
    · subst h3; simp
    · have h4 : ¬ b = a := fun h => h3 h.symm
      simp [h3, h4]
  · have h2' : ¬ (b = i ∧ a = j) := fun h => h2 ⟨h.2, h.1⟩
    by_cases h1 : a = i ∧ b = j
    · obtain ⟨rfl, rfl⟩ := h1
      have h3 : ¬ a = b := fun h => h2 ⟨h, h.symm⟩
      have h4 : ¬ b = a := fun h => h3 h.symm
      simp [h3, h4]
    · simp [h1, h2, h2']

/-- The inner loop of the first loop nest of `trainGaussianSVM`:
`K[i][j] += dot; K[j][i] += dot;` for `j < m`. -/
theorem trainDist_inner (m i : Nat) (dot : R) (K : gsl_matrix R) (a b : Nat) :
    (forLoop m
      (fun j t =>
        gsl_matrix_set (gsl_matrix_set t i j (gsl_matrix_get t i j + dot)) j i
          (gsl_matrix_get (gsl_matrix_set t i j (gsl_matrix_get t i j + dot)) j i + dot))
      K).data a b =
      K.data a b + (if a = i ∧ b < m then dot else 0) + (if b = i ∧ a < m then dot else 0) := by
  induction m generalizing a b with
  | zero => simp
  | succ m ih =>
    rw [forLoop_succ, trainDist_step, ih, ite_lt_succ (a = i), ite_lt_succ (b = i)]
    ring

/-- The first loop nest of `trainGaussianSVM` after `k` outer iterations. -/
theorem trainDist_outer (n k : Nat) (dot : Nat → R) (K : gsl_matrix R) (a b : Nat) :
    (forLoop k
      (fun i t =>
        forLoop n
          (fun j u =>
            gsl_matrix_set (gsl_matrix_set u i j (gsl_matrix_get u i j + dot i)) j i
              (gsl_matrix_get (gsl_matrix_set u i j (gsl_matrix_get u i j + dot i)) j i + dot i))
          t)
      K).data a b =
      K.data a b + (if b < n ∧ a < k then dot a else 0) + (if a < n ∧ b < k then dot b else 0) := by
  induction k generalizing a b with
  | zero => simp
  | succ k ih =>
    rw [forLoop_succ, trainDist_inner, ih, ite_lt_succ (b < n), ite_lt_succ (a < n)]
    have e1 : (if b < n ∧ a = k then dot a else 0) = (if a = k ∧ b < n then dot k else 0) := by
      by_cases h : a = k
      · subst h; simp [and_comm]
      · simp [h]
    have e2 : (if a < n ∧ b = k then dot b else 0) = (if b = k ∧ a < n then dot k else 0) := by
      by_cases h : b = k
      · subst h; simp [and_comm]
      · simp [h]
    rw [e1, e2]
    ring

end TrainLemmas


section TrainLemmas2

variable {R : Type} [LinearOrderedField R]

/-- The entries of the matrix `D` of `trainGaussianSVM`:
`D[a][b] = -2 * (x_a . x_b) + (‖x_a‖² + ‖x_b‖²)`. -/
theorem trainDist_data (xTrain : gsl_matrix R) (a b : Nat) (ha : a < xTrain.size1)
    (hb : b < xTrain.size1) :
    (trainDist xTrain).data a b =
      -2 * (∑ k in Finset.range xTrain.size2, xTrain.data a k * xTrain.data b k) +
        1 * ((∑ c in Finset.range xTrain.size2, xTrain.data b c * xTrain.data b c) +
          ∑ c in Finset.range xTrain.size2, xTrain.data a c * xTrain.data a c) := by
  have hloop := trainDist_outer xTrain.size1 xTrain.size1
    (fun i => gsl_blas_ddot (gsl_matrix_const_row xTrain i) (gsl_matrix_const_row xTrain i))
    (gsl_matrix_calloc xTrain.size1 xTrain.size1) a b
  have hs1 := trainDist_size1 xTrain
  have hs2 := trainDist_size2 xTrain
  simp only [trainDist, gsl_blas_dgemm_NoTrans_Trans] at hs1 hs2 ⊢
  rw [hs1, hs2, if_pos ⟨ha, hb⟩, hloop, if_pos ⟨hb, ha⟩, if_pos ⟨ha, hb⟩]
  simp only [ddot_row, gsl_matrix_calloc]
  ring

/-- The entry `D[a][b]` of `trainGaussianSVM` is the squared Euclidean distance between
support rows `a` and `b`. -/
theorem trainDist_eq_sqDist (xTrain : gsl_matrix R) (a b : Nat) (ha : a < xTrain.size1)
    (hb : b < xTrain.size1) : (trainDist xTrain).data a b = sqDist xTrain xTrain a b := by
  rw [trainDist_data xTrain a b ha hb, sqDist, sum_sq_sub]

/-- The value written to `*sigma` by `trainGaussianSVM`: the mean over all
ordered pairs of support rows of their squared Euclidean distance when the
value passed in is not positive. -/
theorem trainSigma_eq (xTrain : gsl_matrix R) (sigma : R) :
    trainSigma xTrain sigma =
      if sigma ≤ 0 then
        (∑ i in Finset.range xTrain.size1, ∑ j in Finset.range xTrain.size1,
          sqDist xTrain xTrain i j) / ((xTrain.size1 : R) * (xTrain.size1 : R))
      else sigma := by
  simp only [trainSigma, gsl_matrix_get, forLoop_sum2, zero_add, Nat.cast_mul]
  by_cases h : sigma ≤ 0
  · rw [if_pos h, if_pos h]
    congr 1
    refine Finset.sum_congr rfl (fun i hi => Finset.sum_congr rfl (fun j hj => ?_))
    exact trainDist_eq_sqDist xTrain i j (Finset.mem_range.mp hi) (Finset.mem_range.mp hj)
  · rw [if_neg h, if_neg h]

/-- The second loop nest of `trainGaussianSVM` after `k ≤ n` outer
iterations. -/
theorem trainKernel_outer (exp : R → R) (n k : Nat) (hk : k ≤ n) (s c : R) (D : gsl_matrix R)
    (a b : Nat) :
    (forLoop k
      (fun i K =>
        gsl_matrix_set
          (forLoop n (fun j K => gsl_matrix_set K i j (exp (gsl_matrix_get K i j * s))) K) i i
          (gsl_matrix_get
            (forLoop n (fun j K => gsl_matrix_set K i j (exp (gsl_matrix_get K i j * s))) K) i i
            + c))
      D).data a b =
      if a < k ∧ b < n then exp (D.data a b * s) + (if a = b then c else 0) else D.data a b := by
  induction k generalizing a b with
  | zero => simp
  | succ k ih =>
    have hkn : k < n := hk
    have ih1 := ih (by omega)
    rw [forLoop_succ, gsl_matrix_set_data, gsl_matrix_get,
      forLoop_row_map n k (fun _ x => exp (x * s)), forLoop_row_map n k (fun _ x => exp (x * s)),
      ih1, ih1]
    by_cases hak : a = k
    · subst hak
      by_cases hbk : b = a
      · subst hbk
        simp [hkn]
      · have hne : ¬ a = b := fun h => hbk h.symm
        by_cases hbn : b < n
        · simp [hbk, hne, hbn]
        · simp [hbk, hne, hbn]
    · have e : (a < k + 1) ↔ (a < k) := by omega
      simp [hak, e]

/-- The entries of the matrix that `trainGaussianSVM` hands to the solver:
`exp(D[a][b] * (-1 / (2 sigma²)))`, plus `1 / C` on the diagonal. -/
theorem trainKernel_data (exp : R → R) (xTrain : gsl_matrix R) (C sigma : R) (a b : Nat)
    (ha : a < xTrain.size1) (hb : b < xTrain.size1) :
    (trainKernel exp xTrain C sigma).data a b =
      exp (sqDist xTrain xTrain a b * (-1 / (2 * sigma * sigma))) +
        (if a = b then 1 / C else 0) := by
  simp only [trainKernel]
  rw [trainKernel_outer exp xTrain.size1 xTrain.size1 le_rfl, if_pos ⟨ha, hb⟩,
    trainDist_eq_sqDist xTrain a b ha hb]

/-- The entries of the kernel matrix of `predictGaussianSVM`. -/
theorem predictKernel_data (exp : R → R) (xTrain xTest : gsl_matrix R) (sigma : R)
    (hcols : xTrain.size2 = xTest.size2) (a b : Nat) (ha : a < xTest.size1)
    (hb : b < xTrain.size1) :
    (predictKernel exp xTrain xTest sigma).data a b =
      exp (sqDist xTest xTrain a b *
        (-1 / (2 * predictSigma xTrain xTest sigma * predictSigma xTrain xTest sigma))) := by
  simp only [predictKernel]
  rw [forLoop_matrix_map xTest.size1 xTrain.size1
    (fun _ _ x =>
      exp (x * (-1 / (2 * predictSigma xTrain xTest sigma * predictSigma xTrain xTest sigma)))),
    if_pos ⟨ha, hb⟩, predictDist_eq_sqDist xTrain xTest hcols a b ha hb]

theorem predictSigma_pos (xTrain xTest : gsl_matrix R) (sigma : R) (hs : 0 < sigma) :
    predictSigma xTrain xTest sigma = sigma := by
  simp only [predictSigma]
  rw [if_neg (not_le.mpr hs)]

theorem sqDist_nonneg (A B : gsl_matrix R) (i j : Nat) : 0 ≤ sqDist A B i j :=
  Finset.sum_nonneg (fun _ _ => sq_nonneg _)

end TrainLemmas2


section TrainClaims

variable {R : Type} [LinearOrderedField R]

/-- C5: `trainGaussianSVM` (called with targets and coefficient vector of the
length of the support set, else it aborts) writes back and uses `C = 1000`
when the `C` passed in is `≤ 0` and leaves it unchanged otherwise; it writes
back and uses as `sigma` the mean over all `n * n` ordered pairs `(i, j)` of
the squared Euclidean distance between support rows `i` and `j` when the
`sigma` passed in is `≤ 0`, and leaves it unchanged otherwise.  "Used": the
matrix handed to the solver is `exp(-‖x_a - x_b‖² / (2 sigma²))` plus `1 / C`
on the diagonal, for the written-back values. -/
theorem trainGaussianSVM_defaults (exp : R → R) (solve : gsl_matrix R → gsl_vector R → Nat → R)
    (xTrain : gsl_matrix R) (y : gsl_vector R) (C sigma : R) (alpha : gsl_vector R)
    (hy : y.size = xTrain.size1) (ha : alpha.size = xTrain.size1) :
    ∃ C1 sigma1 alpha1,
      trainGaussianSVM exp solve xTrain y C sigma alpha = some (C1, sigma1, alpha1) ∧
      C1 = (if C ≤ 0 then 1000 else C) ∧
      sigma1 =
        (if sigma ≤ 0 then
          (∑ i in Finset.range xTrain.size1, ∑ j in Finset.range xTrain.size1,
            sqDist xTrain xTrain i j) / ((xTrain.size1 : R) * (xTrain.size1 : R))
        else sigma) ∧
      (∀ a b, a < xTrain.size1 → b < xTrain.size1 →
        (trainKernel exp xTrain C1 sigma1).data a b =
          exp (-(sqDist xTrain xTrain a b) / (2 * sigma1 ^ 2)) + (if a = b then 1 / C1 else 0)) ∧
      (∀ i, i < xTrain.size1 →
        alpha1.data i = solve (trainKernel exp xTrain C1 sigma1) y i) := by
  obtain ⟨alpha1, htrain, -, hdata⟩ :=
    trainGaussianSVM_some exp solve xTrain y C sigma alpha hy ha
  refine ⟨_, _, alpha1, htrain, rfl, trainSigma_eq xTrain sigma, ?_, ?_⟩
  · intro a b hA hB
    rw [trainKernel_data exp xTrain _ _ a b hA hB]
    congr 2
    ring
  · intro i hi
    exact hdata i (by rw [ha]; exact hi)

/-- The hypotheses of `trainGaussianSVM_defaults` hold for the support set of
`exampleSVM`. -/
theorem trainGaussianSVM_defaults_witness :
    exampleSVM.trainY.size = exampleSVM.trainFeat.size1 ∧
    exampleSVM.alpha.size = exampleSVM.trainFeat.size1 ∧
    ∃ C1 sigma1 alpha1,
      trainGaussianSVM (fun x => x) (fun _ _ _ => 0) exampleSVM.trainFeat exampleSVM.trainY
        (-1) 0 exampleSVM.alpha = some (C1, sigma1, alpha1) ∧ C1 = 1000 := by
  obtain ⟨C1, sigma1, alpha1, h1, h2, -⟩ :=
    trainGaussianSVM_defaults (fun x => x) (fun _ _ _ => 0) exampleSVM.trainFeat
      exampleSVM.trainY (-1) 0 exampleSVM.alpha rfl rfl
  exact ⟨rfl, rfl, C1, sigma1, alpha1, h1, by rw [h2]; norm_num⟩

end TrainClaims

section PredictClaims

/-- The kernel of `predictGaussianSVM` in exact real arithmetic (no rounding,
`exp` the real exponential): for a query matrix with the column count of the
support matrix and `sigma > 0`, the entry `D[i][j]` is
`‖query_i‖² + ‖support_j‖² - 2 query_i . support_j`, which is the squared
Euclidean distance of the two rows and so non-negative, and the kernel entry
`K[i][j] = exp(-D[i][j] / (2 sigma²))` lies in `[0, 1]`.  The `double`
computation of the code is `predictKernelRounded`. -/
theorem predictKernel_in_unit_interval (xTrain xTest : gsl_matrix ℝ) (sigma : ℝ)
    (hcols : xTrain.size2 = xTest.size2) (hs : 0 < sigma) (i j : Nat) (hi : i < xTest.size1)
    (hj : j < xTrain.size1) :
    (predictDist xTrain xTest).data i j =
      (∑ c in Finset.range xTest.size2, xTest.data i c * xTest.data i c) +
        (∑ c in Finset.range xTrain.size2, xTrain.data j c * xTrain.data j c) -
        2 * (∑ c in Finset.range xTest.size2, xTest.data i c * xTrain.data j c) ∧
    (predictDist xTrain xTest).data i j = sqDist xTest xTrain i j ∧
    0 ≤ (predictDist xTrain xTest).data i j ∧
    (predictKernel Real.exp xTrain xTest sigma).data i j =
      Real.exp (-((predictDist xTrain xTest).data i j) / (2 * sigma ^ 2)) ∧
    0 ≤ (predictKernel Real.exp xTrain xTest sigma).data i j ∧
    (predictKernel Real.exp xTrain xTest sigma).data i j ≤ 1 := by
  have hD := predictDist_eq_sqDist xTrain xTest hcols i j hi hj
  have hK := predictKernel_data Real.exp xTrain xTest sigma hcols i j hi hj
  rw [predictSigma_pos xTrain xTest sigma hs] at hK
  have hnn : 0 ≤ sqDist xTest xTrain i j := sqDist_nonneg _ _ _ _
  have harg : sqDist xTest xTrain i j * (-1 / (2 * sigma * sigma)) ≤ 0 := by
    have : (-1 / (2 * sigma * sigma)) ≤ 0 := by
      apply div_nonpos_of_nonpos_of_nonneg (by norm_num)
      positivity
    exact mul_nonpos_of_nonneg_of_nonpos hnn this
  refine ⟨?_, hD, by rw [hD]; exact hnn, ?_, ?_, ?_⟩
  · rw [predictDist_data xTrain xTest i j hi hj]; ring
  · rw [hK, hD]
    congr 1
    ring
  · rw [hK]; exact (Real.exp_pos _).le
  · rw [hK]; exact Real.exp_le_one_iff.mpr harg

/-- The hypotheses of `predictKernel_in_unit_interval` hold for the query row
`[2,0,0,0,0]` against the support rows of the training scenario. -/
theorem predictKernel_in_unit_interval_witness :
    (scenarioRows ℝ).size2 = (scenarioQuery ℝ).size2 ∧ (0 : ℝ) < 1 ∧
    0 < (scenarioQuery ℝ).size1 ∧ 2 < (scenarioRows ℝ).size1 ∧
    0 ≤ (predictKernel Real.exp (scenarioRows ℝ) (scenarioQuery ℝ) 1).data 0 2 ∧
    (predictKernel Real.exp (scenarioRows ℝ) (scenarioQuery ℝ) 1).data 0 2 ≤ 1 :=
  ⟨rfl, one_pos, Nat.one_pos, Nat.lt_succ_self 2,
    (predictKernel_in_unit_interval (scenarioRows ℝ) (scenarioQuery ℝ) 1 rfl one_pos 0 2
      Nat.one_pos (Nat.lt_succ_self 2)).2.2.2.2⟩

end PredictClaims


/-! ## Rounded arithmetic -/

section RoundingLemmas

variable {R : Type} [LinearOrderedField R] [FloorRing R]

theorem roundNearestEven_zero (p : Nat) : roundNearestEven p (0 : R) = 0 := by
  simp [roundNearestEven]

/-- The exponent of a number between two consecutive powers of 2. -/
theorem log_two_abs_eq (x : R) (e : Int) (h1 : (2 : R) ^ e ≤ |x|)
    (h2 : |x| < (2 : R) ^ (e + 1)) : Int.log 2 |x| = e := by
  have hx0 : 0 < |x| := lt_of_lt_of_le (zpow_pos (by norm_num) e) h1
  have a1 : e ≤ Int.log 2 |x| :=
    (Int.zpow_le_iff_le_log (by norm_num) hx0).mp (by simpa using h1)
  have a2 : Int.log 2 |x| < e + 1 :=
    (Int.lt_zpow_iff_log_lt (by norm_num) hx0).mp (by simpa using h2)
  omega

/-- Evaluation of the rounding away from a tie: for `2 ^ e ≤ |x| < 2 ^ (e + 1)`
the result is `m * 2 ^ (e - (p - 1))` for the integer `m` within `1 / 2` of
`x / 2 ^ (e - (p - 1))`. -/
theorem roundNearestEven_eq (p : Nat) (x : R) (e m : Int) (h1 : (2 : R) ^ e ≤ |x|)
    (h2 : |x| < (2 : R) ^ (e + 1))
    (h3 : (m : R) - 1 / 2 < x / (2 : R) ^ (e - ((p : Int) - 1)))
    (h4 : x / (2 : R) ^ (e - ((p : Int) - 1)) < (m : R) + 1 / 2) :
    roundNearestEven p x = (m : R) * (2 : R) ^ (e - ((p : Int) - 1)) := by
  have hx0 : 0 < |x| := lt_of_lt_of_le (zpow_pos (by norm_num) e) h1
  have hx : x ≠ 0 := abs_pos.mp hx0
  have hlog := log_two_abs_eq x e h1 h2
  unfold roundNearestEven
  rw [if_neg hx]
  simp only [hlog]
  generalize x / (2 : R) ^ (e - ((p : Int) - 1)) = q at h3 h4 ⊢
  by_cases hq : (m : R) ≤ q
  · have hf : ⌊q⌋ = m := Int.floor_eq_iff.mpr ⟨hq, by linarith⟩
    rw [hf, if_pos (by linarith)]
  · have hq1 : q < (m : R) := lt_of_not_le hq
    have hf : ⌊q⌋ = m - 1 := Int.floor_eq_iff.mpr ⟨by push_cast; linarith, by push_cast; linarith⟩
    rw [hf]
    have hr : ¬ (q - ((m - 1 : Int) : R) < 1 / 2) := by push_cast; linarith
    have hr2 : (1 : R) / 2 < q - ((m - 1 : Int) : R) := by push_cast; linarith
    rw [if_neg hr, if_pos hr2]
    simp

/-- Evaluation of the rounding at a tie: when `x / 2 ^ (e - (p - 1))` is
`f + 1 / 2` for an integer `f`, the result is the even one of `f` and
`f + 1`. -/
theorem roundNearestEven_tie (p : Nat) (x : R) (e f : Int) (h1 : (2 : R) ^ e ≤ |x|)
    (h2 : |x| < (2 : R) ^ (e + 1))
    (h3 : x / (2 : R) ^ (e - ((p : Int) - 1)) = (f : R) + 1 / 2) :
    roundNearestEven p x =
      ((if f % 2 = 0 then f else f + 1 : Int) : R) * (2 : R) ^ (e - ((p : Int) - 1)) := by
  have hx0 : 0 < |x| := lt_of_lt_of_le (zpow_pos (by norm_num) e) h1
  have hx : x ≠ 0 := abs_pos.mp hx0
  have hlog := log_two_abs_eq x e h1 h2
  unfold roundNearestEven
  rw [if_neg hx]
  simp only [hlog]
  rw [h3]
  have hf : ⌊(f : R) + 1 / 2⌋ = f :=
    Int.floor_eq_iff.mpr ⟨by linarith, by linarith⟩
  rw [hf]
  have hr : ¬ ((f : R) + 1 / 2 - (f : R) < 1 / 2) := by
    intro h; linarith
  have hr2 : ¬ ((1 : R) / 2 < (f : R) + 1 / 2 - (f : R)) := by
    intro h; linarith
  rw [if_neg hr, if_neg hr2]

/-- Rounding keeps a positive number positive. -/
theorem roundNearestEven_pos (p : Nat) (hp : 1 ≤ p) (x : R) (hx : 0 < x) :
    0 < roundNearestEven p x := by
  have hx0 : 0 < |x| := abs_pos.mpr hx.ne'
  unfold roundNearestEven
  rw [if_neg hx.ne']
  have hu : (0 : R) < (2 : R) ^ (Int.log 2 |x| - ((p : Int) - 1)) := zpow_pos (by norm_num) _
  have hle : (2 : R) ^ (Int.log 2 |x|) ≤ |x| := by
    simpa using Int.zpow_log_le_self (by norm_num : 1 < 2) hx0
  have hq : (1 : R) ≤ x / (2 : R) ^ (Int.log 2 |x| - ((p : Int) - 1)) := by
    rw [le_div_iff₀ hu, one_mul]
    refine le_trans ?_ (le_trans hle (le_of_eq (abs_of_pos hx)))
    exact zpow_le_zpow_right₀ (by norm_num) (by omega)
  have hf : (1 : Int) ≤ ⌊x / (2 : R) ^ (Int.log 2 |x| - ((p : Int) - 1))⌋ :=
    Int.le_floor.mpr (by simpa using hq)
  simp only
  generalize ⌊x / (2 : R) ^ (Int.log 2 |x| - ((p : Int) - 1))⌋ = f at hf ⊢
  generalize x / (2 : R) ^ (Int.log 2 |x| - ((p : Int) - 1)) = q
  apply mul_pos _ hu
  have : (0 : Int) < (if q - (f : R) < 1 / 2 then f
      else if 1 / 2 < q - (f : R) then f + 1 else if f % 2 = 0 then f else f + 1) := by
    split_ifs <;> omega
  exact_mod_cast this

/-- Rounding keeps a number that is not positive not positive. -/
theorem roundNearestEven_nonpos (p : Nat) (hp : 1 ≤ p) (x : R) (hx : x ≤ 0) :
    roundNearestEven p x ≤ 0 := by
  rcases eq_or_lt_of_le hx with h0 | hneg
  · rw [h0, roundNearestEven_zero]
  have hx0 : 0 < |x| := abs_pos.mpr hneg.ne
  unfold roundNearestEven
  rw [if_neg hneg.ne]
  have hu : (0 : R) < (2 : R) ^ (Int.log 2 |x| - ((p : Int) - 1)) := zpow_pos (by norm_num) _
  have hle : (2 : R) ^ (Int.log 2 |x|) ≤ |x| := by
    simpa using Int.zpow_log_le_self (by norm_num : 1 < 2) hx0
  have hq : x / (2 : R) ^ (Int.log 2 |x| - ((p : Int) - 1)) ≤ -1 := by
    rw [div_le_iff₀ hu]
    have h1 : (2 : R) ^ (Int.log 2 |x| - ((p : Int) - 1)) ≤ (2 : R) ^ (Int.log 2 |x|) :=
      zpow_le_zpow_right₀ (by norm_num) (by omega)
    have h2 : |x| = -x := abs_of_neg hneg
    linarith
  have hf : ⌊x / (2 : R) ^ (Int.log 2 |x| - ((p : Int) - 1))⌋ ≤ -1 := by
    have := Int.floor_le (x / (2 : R) ^ (Int.log 2 |x| - ((p : Int) - 1)))
    have h3 : ((⌊x / (2 : R) ^ (Int.log 2 |x| - ((p : Int) - 1))⌋ : Int) : R) ≤
        ((-1 : Int) : R) := by
      push_cast; linarith
    exact_mod_cast h3
  simp only
  generalize ⌊x / (2 : R) ^ (Int.log 2 |x| - ((p : Int) - 1))⌋ = f at hf ⊢
  generalize x / (2 : R) ^ (Int.log 2 |x| - ((p : Int) - 1)) = q
  apply mul_nonpos_of_nonpos_of_nonneg _ hu.le
  have : (if q - (f : R) < 1 / 2 then f
      else if 1 / 2 < q - (f : R) then f + 1 else if f % 2 = 0 then f else f + 1) ≤ (0 : Int) := by
    split_ifs <;> omega
  exact_mod_cast this

end RoundingLemmas

section PredictRoundedLemmas

variable {R : Type} [LinearOrderedField R]

theorem predictDistRounded_size1 (fl : R → R) (xTrain xTest : gsl_matrix R) :
    (predictDistRounded fl xTrain xTest).size1 = xTest.size1 := by
  simp only [predictDistRounded, gsl_blas_dgemm_NoTrans_Trans_rounded]
  rw [forLoop_size1]
  · rfl
  · intro i K
    exact forLoop_size1 _ _ _ (fun _ _ => rfl)

theorem predictDistRounded_size2 (fl : R → R) (xTrain xTest : gsl_matrix R) :
    (predictDistRounded fl xTrain xTest).size2 = xTrain.size1 := by
  simp only [predictDistRounded, gsl_blas_dgemm_NoTrans_Trans_rounded]
  rw [forLoop_size2]
  · rfl
  · intro i K
    exact forLoop_size2 _ _ _ (fun _ _ => rfl)

/-- The entries of the matrix `D` of `predictGaussianSVM` in rounded
arithmetic. -/
theorem predictDistRounded_data (fl : R → R) (xTrain xTest : gsl_matrix R) (a b : Nat)
    (ha : a < xTest.size1) (hb : b < xTrain.size1) :
    (predictDistRounded fl xTrain xTest).data a b =
      fl (fl (gsl_blas_ddot_rounded fl (gsl_matrix_const_row xTrain b)
              (gsl_matrix_const_row xTrain b) +
            gsl_blas_ddot_rounded fl (gsl_matrix_const_row xTest a)
              (gsl_matrix_const_row xTest a)) +
        fl (-2 * forLoop xTest.size2
          (fun k t => fl (t + fl (xTest.data a k * xTrain.data b k))) 0)) := by
  have hfill := forLoop_matrix_map xTest.size1 xTrain.size1
    (fun i j (_ : R) =>
      fl (gsl_vector_get
        (forLoop xTrain.size1
          (fun i v =>
            gsl_vector_set v i
              (gsl_blas_ddot_rounded fl (gsl_matrix_const_row xTrain i)
                (gsl_matrix_const_row xTrain i)))
          (gsl_vector_calloc xTrain.size1)) j +
      gsl_blas_ddot_rounded fl (gsl_matrix_const_row xTest i) (gsl_matrix_const_row xTest i)))
    (gsl_matrix_calloc xTest.size1 xTrain.size1) a b
  have hs1 := predictDistRounded_size1 fl xTrain xTest
  have hs2 := predictDistRounded_size2 fl xTrain xTest
  simp only [predictDistRounded, gsl_blas_dgemm_NoTrans_Trans_rounded] at hs1 hs2 ⊢
  rw [hs1, hs2, if_pos ⟨ha, hb⟩]
  rw [hfill, if_pos ⟨ha, hb⟩]
  simp only [gsl_vector_get, forLoop_vector_fill, if_pos hb]

/-- The entries of the kernel matrix of `predictGaussianSVM` in rounded
arithmetic. -/
theorem predictKernelRounded_data (fl exp : R → R) (xTrain xTest : gsl_matrix R) (sigma : R)
    (hs : 0 < sigma) (a b : Nat) (ha : a < xTest.size1) (hb : b < xTrain.size1) :
    (predictKernelRounded fl exp xTrain xTest sigma).data a b =
      exp (fl ((predictDistRounded fl xTrain xTest).data a b *
        fl (-1 / fl (fl (2 * sigma) * sigma)))) := by
  simp only [predictKernelRounded, predictSigmaRounded]
  rw [if_neg (not_le.mpr hs)]
  rw [forLoop_matrix_map xTest.size1 xTrain.size1
    (fun _ _ x => exp (fl (x * fl (-1 / fl (fl (2 * sigma) * sigma))))),
    if_pos ⟨ha, hb⟩]

/-- With no rounding the rounded dot product is `gsl_blas_ddot`. -/
theorem gsl_blas_ddot_rounded_id (x y : gsl_vector R) :
    gsl_blas_ddot_rounded (fun t => t) x y = gsl_blas_ddot x y := by
  simp only [gsl_blas_ddot_rounded, gsl_blas_ddot]
  rw [forLoop_sum, zero_add]

/-- With no rounding `predictDistRounded` is `predictDist`. -/
theorem predictDistRounded_id (xTrain xTest : gsl_matrix R) (a b : Nat)
    (ha : a < xTest.size1) (hb : b < xTrain.size1) :
    (predictDistRounded (fun t => t) xTrain xTest).data a b =
      (predictDist xTrain xTest).data a b := by
  rw [predictDistRounded_data _ xTrain xTest a b ha hb, predictDist_data xTrain xTest a b ha hb,
    gsl_blas_ddot_rounded_id, gsl_blas_ddot_rounded_id, ddot_row, ddot_row, forLoop_sum]
  ring

end PredictRoundedLemmas

section KernelRoundingVerdict

/-- The entries of the rows `closeSupport` and `closeQuery`. -/
theorem closeRows_data :
    (closeSupport ℝ).data 0 0 = 268435463 ∧ (closeQuery ℝ).data 0 0 = 268435462 ∧
    ∀ k, 0 < k → (closeSupport ℝ).data 0 k = 0 ∧ (closeQuery ℝ).data 0 k = 0 := by
  refine ⟨by simp [closeSupport], by simp [closeQuery], ?_⟩
  intro k hk
  have : k ≠ 0 := by omega
  simp [closeSupport, closeQuery, this]

/-- C6 fails on the code: for the support row `[268435463, 0, 0, 0, 0]`, the
query row `[268435462, 0, 0, 0, 0]` and `sigma = 4`, the squared distance of
the two rows is 1, and yet in `double` arithmetic the squared norms are
rounded to 72057597796024368 and 72057597259153440, their sum to
144115195055177792 and the product of the rows to 72057597527588912, so that
the code computes `D[0][0] = -32`, passes `-32 * (-1 / 32) = 1` to `exp` and
stores the kernel entry `exp(1) > 1`. -/
theorem predictGaussianSVM_kernel_entry_exceeds_one :
    (closeSupport ℝ).size2 = (closeQuery ℝ).size2 ∧ (0 : ℝ) < 4 ∧
    sqDist (closeQuery ℝ) (closeSupport ℝ) 0 0 = 1 ∧
    (predictDistRounded (roundNearestEven 53) (closeSupport ℝ) (closeQuery ℝ)).data 0 0 = -32 ∧
    (predictKernelRounded (roundNearestEven 53) Real.exp (closeSupport ℝ) (closeQuery ℝ) 4).data
      0 0 = Real.exp 1 ∧
    ¬ ((predictKernelRounded (roundNearestEven 53) Real.exp (closeSupport ℝ) (closeQuery ℝ)
      4).data 0 0 ≤ 1) := by
  obtain ⟨hs0, hq0, hrest⟩ := closeRows_data
  have hs1 := (hrest 1 (by decide)).1
  have hs2 := (hrest 2 (by decide)).1
  have hs3 := (hrest 3 (by decide)).1
  have hs4 := (hrest 4 (by decide)).1
  have hq1 := (hrest 1 (by decide)).2
  have hq2 := (hrest 2 (by decide)).2
  have hq3 := (hrest 3 (by decide)).2
  have hq4 := (hrest 4 (by decide)).2
  have hz : roundNearestEven 53 (0 : ℝ) = 0 := roundNearestEven_zero 53
  have hB2 : roundNearestEven 53 (268435463 * 268435463 : ℝ) = 72057597796024368 := by
    rw [roundNearestEven_eq 53 _ (56) (4503599862251523)
      (by rw [abs_of_pos (by norm_num)]; norm_num)
      (by rw [abs_of_pos (by norm_num)]; norm_num)
      (by norm_num) (by norm_num)]
    norm_num
  have hB2r : roundNearestEven 53 (72057597796024368 : ℝ) = 72057597796024368 := by
    rw [roundNearestEven_eq 53 _ (56) (4503599862251523)
      (by rw [abs_of_pos (by norm_num)]; norm_num)
      (by rw [abs_of_pos (by norm_num)]; norm_num)
      (by norm_num) (by norm_num)]
    norm_num
  have hA2 : roundNearestEven 53 (268435462 * 268435462 : ℝ) = 72057597259153440 := by
    rw [roundNearestEven_eq 53 _ (56) (4503599828697090)
      (by rw [abs_of_pos (by norm_num)]; norm_num)
      (by rw [abs_of_pos (by norm_num)]; norm_num)
      (by norm_num) (by norm_num)]
    norm_num
  have hA2r : roundNearestEven 53 (72057597259153440 : ℝ) = 72057597259153440 := by
    rw [roundNearestEven_eq 53 _ (56) (4503599828697090)
      (by rw [abs_of_pos (by norm_num)]; norm_num)
      (by rw [abs_of_pos (by norm_num)]; norm_num)
      (by norm_num) (by norm_num)]
    norm_num
  have hK : roundNearestEven 53 (72057597796024368 + 72057597259153440 : ℝ) = 144115195055177792 := by
    rw [roundNearestEven_tie 53 _ (57) (4503599845474306)
      (by rw [abs_of_pos (by norm_num)]; norm_num)
      (by rw [abs_of_pos (by norm_num)]; norm_num)
      (by norm_num)]
    norm_num
  have hT : roundNearestEven 53 (268435462 * 268435463 : ℝ) = 72057597527588912 := by
    rw [roundNearestEven_eq 53 _ (56) (4503599845474307)
      (by rw [abs_of_pos (by norm_num)]; norm_num)
      (by rw [abs_of_pos (by norm_num)]; norm_num)
      (by norm_num) (by norm_num)]
    norm_num
  have hTr : roundNearestEven 53 (72057597527588912 : ℝ) = 72057597527588912 := by
    rw [roundNearestEven_eq 53 _ (56) (4503599845474307)
      (by rw [abs_of_pos (by norm_num)]; norm_num)
      (by rw [abs_of_pos (by norm_num)]; norm_num)
      (by norm_num) (by norm_num)]
    norm_num
  have hT2 : roundNearestEven 53 (-2 * 72057597527588912 : ℝ) = (-144115195055177824) := by
    rw [roundNearestEven_eq 53 _ (57) (-4503599845474307)
      (by rw [abs_of_neg (by norm_num)]; norm_num)
      (by rw [abs_of_neg (by norm_num)]; norm_num)
      (by norm_num) (by norm_num)]
    norm_num
  have hD : roundNearestEven 53 (144115195055177792 + (-144115195055177824) : ℝ) = (-32) := by
    rw [roundNearestEven_eq 53 _ (5) (-4503599627370496)
      (by rw [abs_of_neg (by norm_num)]; norm_num)
      (by rw [abs_of_neg (by norm_num)]; norm_num)
      (by norm_num) (by norm_num)]
    norm_num
  have hS1 : roundNearestEven 53 (2 * 4 : ℝ) = 8 := by
    rw [roundNearestEven_eq 53 _ (3) (4503599627370496)
      (by rw [abs_of_pos (by norm_num)]; norm_num)
      (by rw [abs_of_pos (by norm_num)]; norm_num)
      (by norm_num) (by norm_num)]
    norm_num
  have hS2 : roundNearestEven 53 (8 * 4 : ℝ) = 32 := by
    rw [roundNearestEven_eq 53 _ (5) (4503599627370496)
      (by rw [abs_of_pos (by norm_num)]; norm_num)
      (by rw [abs_of_pos (by norm_num)]; norm_num)
      (by norm_num) (by norm_num)]
    norm_num
  have hS3 : roundNearestEven 53 (-1 / 32 : ℝ) = (-1 / 32) := by
    rw [roundNearestEven_eq 53 _ (-5) (-4503599627370496)
      (by rw [abs_of_neg (by norm_num)]; norm_num)
      (by rw [abs_of_neg (by norm_num)]; norm_num)
      (by norm_num) (by norm_num)]
    norm_num
  have hArg : roundNearestEven 53 ((-32) * (-1 / 32) : ℝ) = 1 := by
    rw [roundNearestEven_eq 53 _ (0) (4503599627370496)
      (by rw [abs_of_pos (by norm_num)]; norm_num)
      (by rw [abs_of_pos (by norm_num)]; norm_num)
      (by norm_num) (by norm_num)]
    norm_num
  have hdist :
      (predictDistRounded (roundNearestEven 53) (closeSupport ℝ) (closeQuery ℝ)).data 0 0
        = -32 := by
    rw [predictDistRounded_data _ _ _ 0 0 Nat.one_pos Nat.one_pos]
    have hsz : (closeSupport ℝ).size2 = 5 := rfl
    have hqz : (closeQuery ℝ).size2 = 5 := rfl
    simp only [gsl_blas_ddot_rounded, gsl_matrix_const_row, hsz, hqz, forLoop, hs0, hs1, hs2,
      hs3, hs4, hq0, hq1, hq2, hq3, hq4, mul_zero, add_zero, zero_add, hz, hB2, hB2r, hA2,
      hA2r, hK, hT, hTr, hT2, hD]
  have hker :
      (predictKernelRounded (roundNearestEven 53) Real.exp (closeSupport ℝ) (closeQuery ℝ)
        4).data 0 0 = Real.exp 1 := by
    rw [predictKernelRounded_data _ _ _ _ 4 (by norm_num) 0 0 Nat.one_pos Nat.one_pos, hdist,
      hS1, hS2, hS3, hArg]
  refine ⟨rfl, by norm_num, ?_, hdist, hker, ?_⟩
  · simp only [sqDist]
    have hqz : (closeQuery ℝ).size2 = 5 := rfl
    rw [hqz]
    simp only [Finset.sum_range_succ, Finset.sum_range_zero, hs0, hs1, hs2, hs3, hs4, hq0,
      hq1, hq2, hq3, hq4]
    norm_num
  · rw [hker, not_le]
    exact Real.one_lt_exp_iff.mpr one_pos

end KernelRoundingVerdict

section KernelRoundingClaim

/-- C6 as amended: for a query matrix with the column count of the support
matrix and `sigma > 0`, in exact arithmetic the entry `D[i][j]` of
`predictGaussianSVM` is the squared Euclidean distance of query row `i` and
support row `j`, hence non-negative, and the kernel entry lies in `[0, 1]`.
The code computes `D[i][j]` in `double` arithmetic and applies no clamp: the
kernel entry it stores is `exp(D[i][j] * s)` for the rounded `D[i][j]` and
the rounded `s = -1 / (2 sigma sigma)`, and it lies in `[0, 1]` whenever the
rounded `D[i][j]` is not negative (`exp` the real exponential). -/
theorem predictKernel_in_unit_interval_unless_rounded_dist_negative
    (xTrain xTest : gsl_matrix ℝ) (sigma : ℝ) (hcols : xTrain.size2 = xTest.size2)
    (hs : 0 < sigma) (i j : Nat) (hi : i < xTest.size1) (hj : j < xTrain.size1) :
    ((predictDist xTrain xTest).data i j = sqDist xTest xTrain i j ∧
      0 ≤ (predictDist xTrain xTest).data i j ∧
      0 ≤ (predictKernel Real.exp xTrain xTest sigma).data i j ∧
      (predictKernel Real.exp xTrain xTest sigma).data i j ≤ 1) ∧
    (predictKernelRounded (roundNearestEven 53) Real.exp xTrain xTest sigma).data i j =
      Real.exp (roundNearestEven 53
        ((predictDistRounded (roundNearestEven 53) xTrain xTest).data i j *
          roundNearestEven 53 (-1 / roundNearestEven 53 (roundNearestEven 53 (2 * sigma) * sigma)))) ∧
    (0 ≤ (predictDistRounded (roundNearestEven 53) xTrain xTest).data i j →
      0 ≤ (predictKernelRounded (roundNearestEven 53) Real.exp xTrain xTest sigma).data i j ∧
      (predictKernelRounded (roundNearestEven 53) Real.exp xTrain xTest sigma).data i j ≤ 1) := by
  obtain ⟨-, h1, h2, -, h3, h4⟩ :=
    predictKernel_in_unit_interval xTrain xTest sigma hcols hs i j hi hj
  have hK := predictKernelRounded_data (roundNearestEven 53) Real.exp xTrain xTest sigma hs i j
    hi hj
  refine ⟨⟨h1, h2, h3, h4⟩, hK, ?_⟩
  intro hD
  have ht1 : 0 < roundNearestEven 53 (2 * sigma) :=
    roundNearestEven_pos 53 (by decide) _ (by linarith)
  have ht2 : 0 < roundNearestEven 53 (roundNearestEven 53 (2 * sigma) * sigma) :=
    roundNearestEven_pos 53 (by decide) _ (mul_pos ht1 hs)
  have hs2 : roundNearestEven 53
      (-1 / roundNearestEven 53 (roundNearestEven 53 (2 * sigma) * sigma)) ≤ 0 :=
    roundNearestEven_nonpos 53 (by decide) _
      (div_nonpos_of_nonpos_of_nonneg (by norm_num) ht2.le)
  have harg : roundNearestEven 53
      ((predictDistRounded (roundNearestEven 53) xTrain xTest).data i j *
        roundNearestEven 53
          (-1 / roundNearestEven 53 (roundNearestEven 53 (2 * sigma) * sigma))) ≤ 0 :=
    roundNearestEven_nonpos 53 (by decide) _ (mul_nonpos_of_nonneg_of_nonpos hD hs2)
  rw [hK]
  exact ⟨(Real.exp_pos _).le, Real.exp_le_one_iff.mpr harg⟩

/-- The entries of the matrix `D` of `predictGaussianSVM` in `double`
arithmetic for the query row `[2,0,0,0,0]` against the support row
`[3,0,0,0,0]` of the training scenario: every operation is exact and
`D[0][2] = 1`. -/
theorem scenario_predictDistRounded :
    (predictDistRounded (roundNearestEven 53) (scenarioRows ℝ) (scenarioQuery ℝ)).data 0 2 = 1 := by
  have hz : roundNearestEven 53 (0 : ℝ) = 0 := roundNearestEven_zero 53
  have h9 : roundNearestEven 53 (3 * 3 : ℝ) = 9 := by
    rw [roundNearestEven_eq 53 _ (3) (5066549580791808)
      (by rw [abs_of_pos (by norm_num)]; norm_num)
      (by rw [abs_of_pos (by norm_num)]; norm_num)
      (by norm_num) (by norm_num)]
    norm_num
  have h9r : roundNearestEven 53 (9 : ℝ) = 9 := by
    rw [roundNearestEven_eq 53 _ (3) (5066549580791808)
      (by rw [abs_of_pos (by norm_num)]; norm_num)
      (by rw [abs_of_pos (by norm_num)]; norm_num)
      (by norm_num) (by norm_num)]
    norm_num
  have h4 : roundNearestEven 53 (2 * 2 : ℝ) = 4 := by
    rw [roundNearestEven_eq 53 _ (2) (4503599627370496)
      (by rw [abs_of_pos (by norm_num)]; norm_num)
      (by rw [abs_of_pos (by norm_num)]; norm_num)
      (by norm_num) (by norm_num)]
    norm_num
  have h4r : roundNearestEven 53 (4 : ℝ) = 4 := by
    rw [roundNearestEven_eq 53 _ (2) (4503599627370496)
      (by rw [abs_of_pos (by norm_num)]; norm_num)
      (by rw [abs_of_pos (by norm_num)]; norm_num)
      (by norm_num) (by norm_num)]
    norm_num
  have h13 : roundNearestEven 53 (9 + 4 : ℝ) = 13 := by
    rw [roundNearestEven_eq 53 _ (3) (7318349394477056)
      (by rw [abs_of_pos (by norm_num)]; norm_num)
      (by rw [abs_of_pos (by norm_num)]; norm_num)
      (by norm_num) (by norm_num)]
    norm_num
  have h6 : roundNearestEven 53 (2 * 3 : ℝ) = 6 := by
    rw [roundNearestEven_eq 53 _ (2) (6755399441055744)
      (by rw [abs_of_pos (by norm_num)]; norm_num)
      (by rw [abs_of_pos (by norm_num)]; norm_num)
      (by norm_num) (by norm_num)]
    norm_num
  have h6r : roundNearestEven 53 (6 : ℝ) = 6 := by
    rw [roundNearestEven_eq 53 _ (2) (6755399441055744)
      (by rw [abs_of_pos (by norm_num)]; norm_num)
      (by rw [abs_of_pos (by norm_num)]; norm_num)
      (by norm_num) (by norm_num)]
    norm_num
  have h12 : roundNearestEven 53 (-2 * 6 : ℝ) = (-12) := by
    rw [roundNearestEven_eq 53 _ (3) (-6755399441055744)
      (by rw [abs_of_neg (by norm_num)]; norm_num)
      (by rw [abs_of_neg (by norm_num)]; norm_num)
      (by norm_num) (by norm_num)]
    norm_num
  have h1 : roundNearestEven 53 (13 + (-12) : ℝ) = 1 := by
    rw [roundNearestEven_eq 53 _ (0) (4503599627370496)
      (by rw [abs_of_pos (by norm_num)]; norm_num)
      (by rw [abs_of_pos (by norm_num)]; norm_num)
      (by norm_num) (by norm_num)]
    norm_num
  have hs0 : (scenarioRows ℝ).data 2 0 = 3 := by norm_num [scenarioRows]
  have hq0 : (scenarioQuery ℝ).data 0 0 = 2 := by simp [scenarioQuery]
  have hs : ∀ k, 0 < k → (scenarioRows ℝ).data 2 k = 0 := by
    intro k hk
    have : k ≠ 0 := by omega
    simp [scenarioRows, this]
  have hq : ∀ k, 0 < k → (scenarioQuery ℝ).data 0 k = 0 := by
    intro k hk
    have : k ≠ 0 := by omega
    simp [scenarioQuery, this]
  rw [predictDistRounded_data _ _ _ 0 2 Nat.one_pos (Nat.lt_succ_self 2)]
  have hsz : (scenarioRows ℝ).size2 = 5 := rfl
  have hqz : (scenarioQuery ℝ).size2 = 5 := rfl
  simp only [gsl_blas_ddot_rounded, gsl_matrix_const_row, hsz, hqz, forLoop, hs0, hq0,
    hs 1 (by decide), hs 2 (by decide), hs 3 (by decide), hs 4 (by decide),
    hq 1 (by decide), hq 2 (by decide), hq 3 (by decide), hq 4 (by decide),
    mul_zero, add_zero, zero_add, hz, h9, h9r, h4, h4r, h13, h6, h6r, h12, h1]

/-- The hypotheses of
`predictKernel_in_unit_interval_unless_rounded_dist_negative` hold for the
query row `[2,0,0,0,0]` against the support rows of the training scenario,
where the rounded `D[0][2]` is 1. -/
theorem predictKernel_in_unit_interval_unless_rounded_dist_negative_witness :
    (scenarioRows ℝ).size2 = (scenarioQuery ℝ).size2 ∧ (0 : ℝ) < 1 ∧
    0 < (scenarioQuery ℝ).size1 ∧ 2 < (scenarioRows ℝ).size1 ∧
    0 ≤ (predictDistRounded (roundNearestEven 53) (scenarioRows ℝ) (scenarioQuery ℝ)).data 0 2 ∧
    0 ≤ (predictKernelRounded (roundNearestEven 53) Real.exp (scenarioRows ℝ) (scenarioQuery ℝ)
      1).data 0 2 ∧
    (predictKernelRounded (roundNearestEven 53) Real.exp (scenarioRows ℝ) (scenarioQuery ℝ)
      1).data 0 2 ≤ 1 :=
  ⟨rfl, one_pos, Nat.one_pos, Nat.lt_succ_self 2,
    by rw [scenario_predictDistRounded]; exact zero_le_one,
    (predictKernel_in_unit_interval_unless_rounded_dist_negative (scenarioRows ℝ)
      (scenarioQuery ℝ) 1 rfl one_pos 0 2 Nat.one_pos (Nat.lt_succ_self 2)).2.2
      (by rw [scenario_predictDistRounded]; exact zero_le_one)⟩

end KernelRoundingClaim


section Recovery

variable {R : Type} [LinearOrderedField R]

/-- Rows that agree on every column have the same squared distances to every
support row. -/
theorem sqDist_congr_row (xTrain xTest : gsl_matrix R) (hcols : xTrain.size2 = xTest.size2)
    (q i j : Nat) (hrow : ∀ c, c < xTrain.size2 → xTest.data q c = xTrain.data i c) :
    sqDist xTest xTrain q j = sqDist xTrain xTrain i j := by
  simp only [sqDist, ← hcols]
  refine Finset.sum_congr rfl (fun c hc => ?_)
  rw [hrow c (Finset.mem_range.mp hc)]

/-- Prediction at a support row: when `alpha` solves the regularised system
`(K + (1/C) I) alpha = y` that `trainGaussianSVM` builds, and the query row `q`
equals support row `i`, `predictGaussianSVM` with the same `sigma > 0`
returns `y[i] - alpha[i] / C` at `q`. -/
theorem predict_at_support_row (exp : R → R) (xTrain xTest : gsl_matrix R)
    (y alpha out0 : gsl_vector R) (C sigma : R) (hs : 0 < sigma)
    (hcols : xTrain.size2 = xTest.size2) (ha : xTrain.size1 = alpha.size)
    (ho : xTest.size1 = out0.size)
    (hsol : ∀ i, i < xTrain.size1 →
      ∑ j in Finset.range xTrain.size1, (trainKernel exp xTrain C sigma).data i j * alpha.data j
        = y.data i)
    (q i : Nat) (hq : q < xTest.size1) (hi : i < xTrain.size1)
    (hrow : ∀ c, c < xTrain.size2 → xTest.data q c = xTrain.data i c) :
    ∃ out, predictGaussianSVM exp xTrain xTest alpha sigma out0 = some out ∧
      out.size = out0.size ∧ out.data q = y.data i - alpha.data i / C := by
  obtain ⟨out, hout, hsz, hdata⟩ :=
    predictGaussianSVM_some exp xTrain xTest alpha sigma out0 hcols ha ho
  refine ⟨out, hout, hsz, ?_⟩
  rw [hdata q (by rw [← ho]; exact hq), ← hsol i hi, eq_sub_iff_add_eq]
  have hterm : ∀ j, j ∈ Finset.range xTrain.size1 →
      (trainKernel exp xTrain C sigma).data i j * alpha.data j =
        (predictKernel exp xTrain xTest sigma).data q j * alpha.data j +
          (if i = j then alpha.data j / C else 0) := by
    intro j hj
    have hj' := Finset.mem_range.mp hj
    rw [trainKernel_data exp xTrain C sigma i j hi hj',
      predictKernel_data exp xTrain xTest sigma hcols q j hq hj',
      predictSigma_pos xTrain xTest sigma hs, sqDist_congr_row xTrain xTest hcols q i j hrow]
    by_cases hij : i = j
    · simp only [hij, if_true]; ring
    · simp only [hij, if_false]; ring
  rw [Finset.sum_congr rfl hterm, Finset.sum_add_distrib, Finset.sum_ite_eq,
    if_pos (Finset.mem_range.mpr hi)]

end Recovery

section Scenario

/-- Bounds on `exp(-9/32)`, from the Taylor polynomial of degree 3. -/
theorem exp_neg_9_32_bounds :
    (7542 / 10000 : ℝ) ≤ Real.exp (-9 / 32) ∧ Real.exp (-9 / 32) ≤ 7550 / 10000 := by
  have h := Real.exp_bound (x := (-9 / 32 : ℝ)) (by rw [abs_le]; constructor <;> norm_num)
    (n := 4) (by norm_num)
  rw [abs_le] at h
  have habs : |(-9 / 32 : ℝ)| = 9 / 32 := by
    rw [abs_of_neg (by norm_num)]; norm_num
  rw [habs] at h
  simp only [Finset.sum_range_succ, Finset.sum_range_zero, Nat.factorial] at h
  norm_num at h
  constructor <;> linarith [h.1, h.2]

/-- The auto-estimated kernel width of the training scenario is `4/3`. -/
theorem scenario_trainSigma : trainSigma (scenarioRows ℝ) 0 = 4 / 3 := by
  rw [trainSigma_eq, if_pos le_rfl]
  simp only [sqDist, scenarioRows, Finset.sum_range_succ, Finset.sum_range_zero]
  norm_num

end Scenario

section Scenario2

/-- The entries of the regularised kernel matrix of the training scenario, in
terms of `a = exp(-9/32)`. -/
theorem scenario_trainKernel :
    (trainKernel Real.exp (scenarioRows ℝ) 1000 (4 / 3)).data 0 0 = 1 + 1 / 1000 ∧
    (trainKernel Real.exp (scenarioRows ℝ) 1000 (4 / 3)).data 0 1 = Real.exp (-9 / 32) ∧
    (trainKernel Real.exp (scenarioRows ℝ) 1000 (4 / 3)).data 0 2 = Real.exp (-9 / 32) ^ 4 ∧
    (trainKernel Real.exp (scenarioRows ℝ) 1000 (4 / 3)).data 1 0 = Real.exp (-9 / 32) ∧
    (trainKernel Real.exp (scenarioRows ℝ) 1000 (4 / 3)).data 1 1 = 1 + 1 / 1000 ∧
    (trainKernel Real.exp (scenarioRows ℝ) 1000 (4 / 3)).data 1 2 = Real.exp (-9 / 32) ∧
    (trainKernel Real.exp (scenarioRows ℝ) 1000 (4 / 3)).data 2 0 = Real.exp (-9 / 32) ^ 4 ∧
    (trainKernel Real.exp (scenarioRows ℝ) 1000 (4 / 3)).data 2 1 = Real.exp (-9 / 32) ∧
    (trainKernel Real.exp (scenarioRows ℝ) 1000 (4 / 3)).data 2 2 = 1 + 1 / 1000 := by
  have h4 : Real.exp (-9 / 32) ^ 4 = Real.exp (-9 / 8) := by
    rw [← Real.exp_nat_mul]; congr 1; norm_num
  have hn : (scenarioRows ℝ).size1 = 3 := rfl
  have e : ∀ a b, a < 3 → b < 3 →
      (trainKernel Real.exp (scenarioRows ℝ) 1000 (4 / 3)).data a b =
        Real.exp (sqDist (scenarioRows ℝ) (scenarioRows ℝ) a b * (-1 / (2 * (4 / 3) * (4 / 3)))) +
          (if a = b then 1 / 1000 else 0) :=
    fun a b ha hb => trainKernel_data Real.exp (scenarioRows ℝ) 1000 (4 / 3) a b ha hb
  have d : ∀ a b : Nat, sqDist (scenarioRows ℝ) (scenarioRows ℝ) a b = ((a : ℝ) - (b : ℝ)) ^ 2 := by
    intro a b
    simp only [sqDist, scenarioRows, Finset.sum_range_succ, Finset.sum_range_zero]
    norm_num
  rw [h4]
  refine ⟨?_, ?_, ?_, ?_, ?_, ?_, ?_, ?_, ?_⟩ <;>
    (rw [e _ _ (by norm_num) (by norm_num), d]; norm_num)

/-- The concrete scenario in real arithmetic: training on the rows
`[[1,0,0,0,0],[2,0,0,0,0],[3,0,0,0,0]]` with targets `[10,20,30]`, `C = 1000`
and `sigma = 0` passed in returns `sigma = 4/3`; if the solver's coefficients
solve the regularised system, the prediction at `[2,0,0,0,0]` is within `1/40`
of 20. -/
theorem scenario_recovery (solve : gsl_matrix ℝ → gsl_vector ℝ → Nat → ℝ)
    (alpha0 out0 : gsl_vector ℝ) (ha : alpha0.size = 3) (ho : out0.size = 1)
    (hsolve : ∀ i, i < 3 →
      ∑ j in Finset.range 3,
        (trainKernel Real.exp (scenarioRows ℝ) 1000 (4 / 3)).data i j *
          solve (trainKernel Real.exp (scenarioRows ℝ) 1000 (4 / 3)) (scenarioTargets ℝ) j
        = (scenarioTargets ℝ).data i) :
    ∃ alpha1 out,
      trainGaussianSVM Real.exp solve (scenarioRows ℝ) (scenarioTargets ℝ) 1000 0 alpha0
        = some (1000, 4 / 3, alpha1) ∧
      predictGaussianSVM Real.exp (scenarioRows ℝ) (scenarioQuery ℝ) alpha1 (4 / 3) out0
        = some out ∧
      out.data 0 = 20 - alpha1.data 1 / 1000 ∧
      |out.data 0 - 20| < 1 / 40 := by
  obtain ⟨alpha1, htrain, hsz, hdata⟩ :=
    trainGaussianSVM_some Real.exp solve (scenarioRows ℝ) (scenarioTargets ℝ) 1000 0 alpha0 rfl ha
  have hC : trainC (1000 : ℝ) = 1000 := by
    simp only [trainC]; rw [if_neg (by norm_num)]
  rw [hC, scenario_trainSigma] at htrain hdata
  rw [ha] at hdata
  have hsol : ∀ i, i < (scenarioRows ℝ).size1 →
      ∑ j in Finset.range (scenarioRows ℝ).size1,
        (trainKernel Real.exp (scenarioRows ℝ) 1000 (4 / 3)).data i j * alpha1.data j
        = (scenarioTargets ℝ).data i := by
    intro i hi
    rw [← hsolve i hi]
    refine Finset.sum_congr rfl (fun j hj => ?_)
    rw [hdata j (Finset.mem_range.mp hj)]
  obtain ⟨out, hout, -, hval⟩ :=
    predict_at_support_row Real.exp (scenarioRows ℝ) (scenarioQuery ℝ) (scenarioTargets ℝ) alpha1
      out0 1000 (4 / 3) (by norm_num) rfl (by rw [hsz, ha]; rfl) (by rw [ho]; rfl) hsol 0 1
      Nat.one_pos (by decide)
      (by intro c _; simp only [scenarioQuery, scenarioRows]; norm_num)
  have hy : (scenarioTargets ℝ).data 1 = 20 := by simp only [scenarioTargets]; norm_num
  rw [hy] at hval
  refine ⟨alpha1, out, htrain, hout, hval, ?_⟩
  -- the three equations of the regularised system, in terms of `a = exp(-9/32)`
  obtain ⟨k00, k01, k02, k10, k11, k12, k20, k21, k22⟩ := scenario_trainKernel
  obtain ⟨hlo, hhi⟩ := exp_neg_9_32_bounds
  have ha0 : 0 ≤ Real.exp (-9 / 32) := (Real.exp_pos _).le
  generalize Real.exp (-9 / 32) = a at k01 k02 k10 k12 k20 k21 hlo hhi ha0
  have e0 := hsol 0 (by decide)
  have e1 := hsol 1 (by decide)
  have e2 := hsol 2 (by decide)
  have hn : (scenarioRows ℝ).size1 = 3 := rfl
  have t0 : (scenarioTargets ℝ).data 0 = 10 := by simp only [scenarioTargets]; norm_num
  have t2 : (scenarioTargets ℝ).data 2 = 30 := by simp only [scenarioTargets]; norm_num
  simp only [hn, Finset.sum_range_succ, Finset.sum_range_zero, zero_add, k00, k01, k02, k10, k11,
    k12, k20, k21, k22, t0, hy, t2] at e0 e1 e2
  have ha2 : a ^ 2 ≤ (7550 / 10000) ^ 2 := pow_le_pow_left₀ ha0 hhi 2
  have ha4lo : (7542 / 10000 : ℝ) ^ 4 ≤ a ^ 4 := pow_le_pow_left₀ (by norm_num) hlo 4
  have ha4hi : a ^ 4 ≤ (7550 / 10000) ^ 4 := pow_le_pow_left₀ ha0 hhi 4
  have hkey : alpha1.data 1 * ((1 + 1 / 1000) * (1 + 1 / 1000 + a ^ 4) - 2 * a ^ 2) =
      20 * (1 + 1 / 1000 + a ^ 4 - 2 * a) := by
    linear_combination (1 + 1 / 1000 + a ^ 4) * e1 - a * e0 - a * e2
  have hden : (18 / 100 : ℝ) ≤ (1 + 1 / 1000) * (1 + 1 / 1000 + a ^ 4) - 2 * a ^ 2 := by
    norm_num at ha2 ha4lo ⊢
    linarith
  have hnum1 : (-38 / 10 : ℝ) ≤ 20 * (1 + 1 / 1000 + a ^ 4 - 2 * a) := by
    norm_num at ha4lo ⊢
    linarith
  have hnum2 : 20 * (1 + 1 / 1000 + a ^ 4 - 2 * a) ≤ 0 := by
    norm_num at ha4hi ⊢
    linarith
  have hden0 : (0 : ℝ) ≤ (1 + 1 / 1000) * (1 + 1 / 1000 + a ^ 4) - 2 * a ^ 2 :=
    le_trans (by norm_num) hden
  have hx1 : |alpha1.data 1| < 25 := by
    rw [abs_lt]
    constructor
    · by_contra hcon
      push_neg at hcon
      have h := mul_le_mul_of_nonneg_right hcon hden0
      linarith
    · by_contra hcon
      push_neg at hcon
      have h := mul_le_mul_of_nonneg_right hcon hden0
      linarith
  rw [hval]
  have : (20 - alpha1.data 1 / 1000 - 20 : ℝ) = -(alpha1.data 1 / 1000) := by ring
  rw [this, abs_neg, abs_div]
  have h1000 : |(1000 : ℝ)| = 1000 := abs_of_pos (by norm_num)
  rw [h1000, div_lt_iff₀ (by norm_num)]
  linarith

/-- Cramer's rule on a 3 by 3 system with non-zero determinant is exact. -/
theorem cramer3_exact {R : Type} [LinearOrderedField R] (X : gsl_matrix R) (y : gsl_vector R)
    (hdet : det3 X.data ≠ 0) (i : Nat) (hi : i < 3) :
    ∑ j in Finset.range 3, X.data i j * cramer3 X y j = y.data i := by
  have c0 : cramer3 X y 0 =
      (y.data 0 * (X.data 1 1 * X.data 2 2 - X.data 1 2 * X.data 2 1) -
        X.data 0 1 * (y.data 1 * X.data 2 2 - X.data 1 2 * y.data 2) +
        X.data 0 2 * (y.data 1 * X.data 2 1 - X.data 1 1 * y.data 2)) / det3 X.data := rfl
  have c1 : cramer3 X y 1 =
      (X.data 0 0 * (y.data 1 * X.data 2 2 - X.data 1 2 * y.data 2) -
        y.data 0 * (X.data 1 0 * X.data 2 2 - X.data 1 2 * X.data 2 0) +
        X.data 0 2 * (X.data 1 0 * y.data 2 - y.data 1 * X.data 2 0)) / det3 X.data := rfl
  have c2 : cramer3 X y 2 =
      (X.data 0 0 * (X.data 1 1 * y.data 2 - y.data 1 * X.data 2 1) -
        X.data 0 1 * (X.data 1 0 * y.data 2 - y.data 1 * X.data 2 0) +
        y.data 0 * (X.data 1 0 * X.data 2 1 - X.data 1 1 * X.data 2 0)) / det3 X.data := rfl
  have hd : det3 X.data =
      X.data 0 0 * (X.data 1 1 * X.data 2 2 - X.data 1 2 * X.data 2 1) -
        X.data 0 1 * (X.data 1 0 * X.data 2 2 - X.data 1 2 * X.data 2 0) +
        X.data 0 2 * (X.data 1 0 * X.data 2 1 - X.data 1 1 * X.data 2 0) := rfl
  rw [Finset.sum_range_succ, Finset.sum_range_succ, Finset.sum_range_succ, Finset.sum_range_zero,
    zero_add, c0, c1, c2]
  rw [hd] at hdet ⊢
  interval_cases i <;> (field_simp; ring)

/-- The determinant of the regularised kernel matrix of the training scenario
is positive. -/
theorem scenario_det_ne_zero :
    det3 (trainKernel Real.exp (scenarioRows ℝ) 1000 (4 / 3)).data ≠ 0 := by
  obtain ⟨k00, k01, k02, k10, k11, k12, k20, k21, k22⟩ := scenario_trainKernel
  obtain ⟨hlo, hhi⟩ := exp_neg_9_32_bounds
  have ha0 : 0 ≤ Real.exp (-9 / 32) := (Real.exp_pos _).le
  generalize Real.exp (-9 / 32) = a at k01 k02 k10 k12 k20 k21 hlo hhi ha0
  have ha2 : a ^ 2 ≤ (7550 / 10000) ^ 2 := pow_le_pow_left₀ ha0 hhi 2
  have ha4lo : (7542 / 10000 : ℝ) ^ 4 ≤ a ^ 4 := pow_le_pow_left₀ (by norm_num) hlo 4
  have ha4hi : a ^ 4 ≤ (7550 / 10000) ^ 4 := pow_le_pow_left₀ ha0 hhi 4
  have h1 : (0 : ℝ) < 1 + 1 / 1000 - a ^ 4 := by
    norm_num at ha4hi ⊢
    linarith
  have h2 : (0 : ℝ) < (1 + 1 / 1000) * (1 + 1 / 1000 + a ^ 4) - 2 * a ^ 2 := by
    norm_num at ha2 ha4lo ⊢
    linarith
  have e : det3 (trainKernel Real.exp (scenarioRows ℝ) 1000 (4 / 3)).data =
      (1 + 1 / 1000 - a ^ 4) * ((1 + 1 / 1000) * (1 + 1 / 1000 + a ^ 4) - 2 * a ^ 2) := by
    simp only [det3, k00, k01, k02, k10, k11, k12, k20, k21, k22]
    ring
  rw [e]
  exact (mul_pos h1 h2).ne'

end Scenario2


section RecoveryClaim

/-- C7: near-exact recovery on the training set.  In general (any ordered
field, any `exp`): for `C > 0` and `sigma > 0`, when `alpha` solves the
regularised system `(K + (1/C) I) alpha = targets` that `trainGaussianSVM`
builds, `predictGaussianSVM` at a query row equal to support row `i` returns
`targets[i] - alpha[i] / C`.  On the scenario (real arithmetic): training on
the rows `[[1,0,0,0,0],[2,0,0,0,0],[3,0,0,0,0]]` with targets `[10,20,30]`,
`C = 1000` and a non-positive `sigma` returns `sigma = 4/3`, and with the
coefficients of an exact solve the prediction at `[2,0,0,0,0]` is within
`1/40` of 20. -/
theorem training_set_recovery :
    (∀ (R : Type) [LinearOrderedField R] (exp : R → R) (xTrain xTest : gsl_matrix R)
      (y alpha out0 : gsl_vector R) (C sigma : R),
      0 < C → 0 < sigma → xTrain.size2 = xTest.size2 → xTrain.size1 = alpha.size →
      xTest.size1 = out0.size →
      (∀ i, i < xTrain.size1 →
        ∑ j in Finset.range xTrain.size1,
          (trainKernel exp xTrain C sigma).data i j * alpha.data j = y.data i) →
      ∀ q i, q < xTest.size1 → i < xTrain.size1 →
        (∀ c, c < xTrain.size2 → xTest.data q c = xTrain.data i c) →
        ∃ out, predictGaussianSVM exp xTrain xTest alpha sigma out0 = some out ∧
          out.data q = y.data i - alpha.data i / C) ∧
    (∀ (solve : gsl_matrix ℝ → gsl_vector ℝ → Nat → ℝ) (alpha0 out0 : gsl_vector ℝ),
      alpha0.size = 3 → out0.size = 1 →
      (∀ i, i < 3 →
        ∑ j in Finset.range 3,
          (trainKernel Real.exp (scenarioRows ℝ) 1000 (4 / 3)).data i j *
            solve (trainKernel Real.exp (scenarioRows ℝ) 1000 (4 / 3)) (scenarioTargets ℝ) j
          = (scenarioTargets ℝ).data i) →
      ∃ alpha1 out,
        trainGaussianSVM Real.exp solve (scenarioRows ℝ) (scenarioTargets ℝ) 1000 0 alpha0
          = some (1000, 4 / 3, alpha1) ∧
        predictGaussianSVM Real.exp (scenarioRows ℝ) (scenarioQuery ℝ) alpha1 (4 / 3) out0
          = some out ∧
        out.data 0 = 20 - alpha1.data 1 / 1000 ∧
        |out.data 0 - 20| < 1 / 40) := by
  constructor
  · intro R _ exp xTrain xTest y alpha out0 C sigma _ hs hcols ha ho hsol q i hq hi hrow
    obtain ⟨out, hout, -, hval⟩ :=
      predict_at_support_row exp xTrain xTest y alpha out0 C sigma hs hcols ha ho hsol q i hq hi
        hrow
    exact ⟨out, hout, hval⟩
  · intro solve alpha0 out0 ha ho hsolve
    exact scenario_recovery solve alpha0 out0 ha ho hsolve

/-- The hypotheses of `training_set_recovery` are met by the training scenario
with Cramer's rule as the solver: it solves the regularised system exactly, so
the trained model predicts within `1/40` of 20 at `[2,0,0,0,0]`. -/
theorem training_set_recovery_witness :
    (∀ i, i < 3 →
      ∑ j in Finset.range 3,
        (trainKernel Real.exp (scenarioRows ℝ) 1000 (4 / 3)).data i j *
          cramer3 (trainKernel Real.exp (scenarioRows ℝ) 1000 (4 / 3)) (scenarioTargets ℝ) j
        = (scenarioTargets ℝ).data i) ∧
    (∃ alpha1 out,
      trainGaussianSVM Real.exp cramer3 (scenarioRows ℝ) (scenarioTargets ℝ) 1000 0
        (gsl_vector_calloc 3) = some (1000, 4 / 3, alpha1) ∧
      predictGaussianSVM Real.exp (scenarioRows ℝ) (scenarioQuery ℝ) alpha1 (4 / 3)
        (gsl_vector_calloc 1) = some out ∧
      out.data 0 = 20 - alpha1.data 1 / 1000 ∧
      |out.data 0 - 20| < 1 / 40) ∧
    (∃ out,
      predictGaussianSVM Real.exp (scenarioRows ℝ) (scenarioQuery ℝ)
        ⟨3, cramer3 (trainKernel Real.exp (scenarioRows ℝ) 1000 (4 / 3)) (scenarioTargets ℝ)⟩
        (4 / 3) (gsl_vector_calloc 1) = some out ∧
      out.data 0 =
        (scenarioTargets ℝ).data 1 -
          cramer3 (trainKernel Real.exp (scenarioRows ℝ) 1000 (4 / 3)) (scenarioTargets ℝ) 1
            / 1000) :=
  ⟨fun i hi => cramer3_exact _ _ scenario_det_ne_zero i hi,
    training_set_recovery.2 cramer3 (gsl_vector_calloc 3) (gsl_vector_calloc 1) rfl rfl
      (fun i hi => cramer3_exact _ _ scenario_det_ne_zero i hi),
    training_set_recovery.1 ℝ Real.exp (scenarioRows ℝ) (scenarioQuery ℝ) (scenarioTargets ℝ)
      ⟨3, cramer3 (trainKernel Real.exp (scenarioRows ℝ) 1000 (4 / 3)) (scenarioTargets ℝ)⟩
      (gsl_vector_calloc 1) 1000 (4 / 3) (by norm_num) (by norm_num) rfl rfl rfl
      (fun i hi => cramer3_exact _ _ scenario_det_ne_zero i hi) 0 1 Nat.one_pos (by decide)
      (by intro c _; simp only [scenarioQuery, scenarioRows]; norm_num)⟩

end RecoveryClaim

section RansacLemmas

variable {σ : Type}

@[simp] theorem forLoopM_zero (body : Nat → σ → Option σ) (s : σ) :
    forLoopM 0 body s = some s := rfl

theorem forLoopM_succ (n : Nat) (body : Nat → σ → Option σ) (s : σ) :
    forLoopM (n + 1) body s = (forLoopM n body s).bind (body n) := rfl

/-- A loop whose body never fails on the states that satisfy an invariant
returns, in a state that satisfies the invariant. -/
theorem forLoopM_some (P : σ → Prop) (n : Nat) (body : Nat → σ → Option σ) (s : σ) (h0 : P s)
    (hs : ∀ i t, P t → ∃ u, body i t = some u ∧ P u) :
    ∃ u, forLoopM n body s = some u ∧ P u := by
  induction n with
  | zero => exact ⟨s, rfl, h0⟩
  | succ n ih =>
    obtain ⟨t, ht, hP⟩ := ih
    obtain ⟨u, hu, hPu⟩ := hs n t hP
    exact ⟨u, by rw [forLoopM_succ, ht]; exact hu, hPu⟩

/-- An invariant of the body, which may mention the number of iterations
done, holds of every state that the loop returns. -/
theorem forLoopM_invariant (P : Nat → σ → Prop) (n : Nat) (body : Nat → σ → Option σ) (s u : σ)
    (h0 : P 0 s) (hs : ∀ i t v, P i t → body i t = some v → P (i + 1) v)
    (h : forLoopM n body s = some u) : P n u := by
  induction n generalizing u with
  | zero =>
    simp only [forLoopM_zero, Option.some.injEq] at h
    exact h ▸ h0
  | succ n ih =>
    rw [forLoopM_succ] at h
    rcases hn : forLoopM n body s with _ | t
    · rw [hn] at h; simp at h
    · rw [hn] at h
      exact hs n t u (ih t hn) h

end RansacLemmas

section RansacSteps

variable {R : Type}

/-- The loop `alpha[j] = malpha[j]` for `j < 3`. -/
theorem ransac_alpha_copy (malpha : gsl_vector R) (alpha : Nat → R) (c : Nat) :
    forLoop 3 (fun j a => fun c => if c = j then gsl_vector_get malpha j else a c) alpha c =
      if c < 3 then malpha.data c else alpha c := by
  simp only [forLoop, gsl_vector_get]
  by_cases h2 : c = 2
  · subst h2; simp
  · by_cases h1 : c = 1
    · subst h1; simp
    · by_cases h0 : c = 0
      · subst h0; simp
      · have : ¬ c < 3 := by omega
        simp [h0, h1, h2, this]

variable [LinearOrderedField R]

theorem ransac_mx_size1 (log exp : R → R) (x : Nat → R) (size : Nat) :
    (ransac_mx log exp x size).size1 = size :=
  Eq.trans (forLoop_size1 size _ _ (fun _ _ => rfl)) rfl

theorem ransac_mx_size2 (log exp : R → R) (x : Nat → R) (size : Nat) :
    (ransac_mx log exp x size).size2 = 3 :=
  Eq.trans (forLoop_size2 size _ _ (fun _ _ => rfl)) rfl

/-- Row `j` of `mx` is `[x[j]^-2, log(x[j]), 1 - exp(-x[j])]`. -/
theorem ransac_mx_data (log exp : R → R) (x : Nat → R) (size : Nat) (j : Nat) (hj : j < size) :
    (ransac_mx log exp x size).data j 0 = x j ^ (-2 : Int) ∧
    (ransac_mx log exp x size).data j 1 = log (x j) ∧
    (ransac_mx log exp x size).data j 2 = 1 - exp (-x j) := by
  unfold ransac_mx
  refine forLoop_induct
    (fun m (t : gsl_matrix R) => j < m →
      t.data j 0 = x j ^ (-2 : Int) ∧ t.data j 1 = log (x j) ∧ t.data j 2 = 1 - exp (-x j))
    size _ _ (fun h => absurd h (Nat.not_lt_zero j)) ?_ hj
  intro m t _ ih hjm
  simp only [gsl_matrix_set_data]
  by_cases h : j = m
  · subst h; simp
  · have hlt : j < m := by omega
    obtain ⟨h0, h1, h2⟩ := ih hlt
    simp [h, h0, h1, h2]

/-- With at least one point the index draw of a trial succeeds, and every
drawn index is `rand() % size`, below `size`. -/
theorem ransac_sample_some (rand : Nat → Nat) (size k i : Nat) (hsize : 0 < size) :
    ∃ r, ransac_sample rand size k i = some r ∧
      ∀ j, j < k → r j = rand (i * k + j) % size ∧ r j < size := by
  unfold ransac_sample
  have key : ∀ m, ∃ r,
      forLoopM m
        (fun j r =>
          if size = 0 then none
          else some (fun a => if a = j then rand (i * k + j) % size else r a))
        (fun _ => 0) = some r ∧
      ∀ j, j < m → r j = rand (i * k + j) % size ∧ r j < size := by
    intro m
    induction m with
    | zero => exact ⟨_, rfl, fun j hj => absurd hj (Nat.not_lt_zero j)⟩
    | succ m ih =>
      obtain ⟨r, hr, hspec⟩ := ih
      refine ⟨fun a => if a = m then rand (i * k + m) % size else r a, ?_, ?_⟩
      · rw [forLoopM_succ, hr]
        simp [Nat.pos_iff_ne_zero.mp hsize]
      · intro j hj
        by_cases h : j = m
        · subst h
          simpa using Nat.mod_lt _ hsize
        · simp only [h, if_false]
          exact hspec j (by omega)
  exact key k

theorem ransac_subset_sizes (mx : gsl_matrix R) (y : Nat → R) (randperm : Nat → Nat) (k : Nat) :
    (ransac_subset mx y randperm k).1.size1 = k ∧ (ransac_subset mx y randperm k).1.size2 = 3 ∧
    (ransac_subset mx y randperm k).2.size = k := by
  unfold ransac_subset
  exact forLoop_induct
    (fun _ (a : gsl_matrix R × gsl_vector R) => a.1.size1 = k ∧ a.1.size2 = 3 ∧ a.2.size = k)
    k _ _ ⟨rfl, rfl, rfl⟩ (fun j t _ h => h)

end RansacSteps

section RansacCounting

/-- The loop `for j: if (p j) ++n;` counts the `j < size` that pass the test. -/
theorem count_loop_eq (p : Nat → Bool) (size : Nat) :
    forLoop size (fun j n => if p j then n + 1 else n) 0 =
      ((List.range size).filter p).length := by
  induction size with
  | zero => rfl
  | succ m ih =>
    rw [forLoop_succ, ih, List.range_succ, List.filter_append]
    by_cases h : p m
    · simp [h]
    · simp [h]

/-- The loop `n = 0; for j: if (p j) inliners[n++] = j;` writes the passing
indices, in increasing order, to the first `n` cells and leaves the others. -/
theorem record_loop_spec (p : Nat → Bool) (size : Nat) (inliners : Nat → Int) :
    (forLoop size
      (fun j (w : Nat × (Nat → Int)) =>
        if p j then (w.1 + 1, fun c => if c = w.1 then (j : Int) else w.2 c) else w)
      (0, inliners)).1 = ((List.range size).filter p).length ∧
    (List.range ((List.range size).filter p).length).map
      (forLoop size
        (fun j (w : Nat × (Nat → Int)) =>
          if p j then (w.1 + 1, fun c => if c = w.1 then (j : Int) else w.2 c) else w)
        (0, inliners)).2 = ((List.range size).filter p).map Int.ofNat ∧
    ∀ c, ((List.range size).filter p).length ≤ c →
      (forLoop size
        (fun j (w : Nat × (Nat → Int)) =>
          if p j then (w.1 + 1, fun c => if c = w.1 then (j : Int) else w.2 c) else w)
        (0, inliners)).2 c = inliners c := by
  induction size with
  | zero => simp
  | succ m ih =>
    obtain ⟨h1, h2, h3⟩ := ih
    rw [forLoop_succ, List.range_succ, List.filter_append]
    by_cases h : p m
    · simp only [h, if_true, List.filter_cons_of_pos, List.filter_nil, List.length_append,
        List.length_singleton, List.map_append, List.map_cons, List.map_nil]
      refine ⟨by rw [h1], ?_, ?_⟩
      · rw [List.range_succ, List.map_append, List.map_singleton, h1]
        simp only [if_true]
        congr 1
        rw [← h2]
        refine List.map_congr_left (fun c hc => ?_)
        have hlt : c < ((List.range m).filter p).length := List.mem_range.mp hc
        rw [if_neg (by omega)]
      · intro c hc
        rw [h1, if_neg (by omega)]
        exact h3 c (by omega)
    · simp only [h, Bool.false_eq_true, if_false, List.filter_cons_of_neg, not_false_eq_true,
        List.filter_nil, List.append_nil]
      exact ⟨h1, h2, h3⟩

end RansacCounting


section RansacTrial

variable {R : Type} [LinearOrderedField R]

/-- The model value depends on the first three coefficients only. -/
theorem ransac_inlier_congr (log exp : R → R) (a b : Nat → R) (x y : Nat → R) (threshold : R)
    (h : ∀ c, c < 3 → a c = b c) (j : Nat) :
    ransac_inlier log exp a x y threshold j = ransac_inlier log exp b x y threshold j := by
  simp only [ransac_inlier, ransac_model, h 0 (by decide), h 1 (by decide), h 2 (by decide)]

theorem ransac_count_eq (mdist : gsl_vector R) (y : Nat → R) (size : Nat) (threshold : R) :
    ransac_count mdist y size threshold =
      ((List.range size).filter (fun j => decide (abs (mdist.data j - y j) < threshold))).length := by
  rw [← count_loop_eq]
  simp only [ransac_count, gsl_vector_get, decide_eq_true_eq]

theorem ransac_record_eq (mdist : gsl_vector R) (y : Nat → R) (size : Nat) (threshold : R)
    (inliners : Nat → Int) :
    ransac_record mdist y size threshold inliners =
      forLoop size
        (fun j (w : Nat × (Nat → Int)) =>
          if (decide (abs (mdist.data j - y j) < threshold)) then
            (w.1 + 1, fun c => if c = w.1 then (j : Int) else w.2 c)
          else w)
        (0, inliners) := by
  simp only [ransac_record, gsl_vector_get, decide_eq_true_eq]

/-- One trial of `ransac`, when it returns: for the coefficients `a` fitted in
the trial and the list `L` of the points within `threshold` of the model with
these coefficients, either `L` is not longer than the best count so far and
nothing changes, or it is longer and the count, the coefficients and the
first `|L|` cells of the inlier buffer are replaced by those of the trial.
The coefficients `a` are what the solver returns for the sampled system. -/
theorem ransac_trial_spec (log exp : R → R) (solve : gsl_matrix R → gsl_vector R → Nat → R)
    (rand : Nat → Nat) (x y : Nat → R) (size : Nat) (threshold : R) (k i : Nat)
    (s s1 : RansacState R)
    (h : ransac_trial solve rand (ransac_mx log exp x size) y size threshold k i s = some s1) :
    ∃ (X : gsl_matrix R) (ys : gsl_vector R) (a : Nat → R), a = solve X ys ∧
      ((((List.range size).filter (ransac_inlier log exp a x y threshold)).length
          ≤ s.nbInliners ∧ s1 = s) ∨
      (s.nbInliners < ((List.range size).filter (ransac_inlier log exp a x y threshold)).length ∧
        s1.nbInliners = ((List.range size).filter (ransac_inlier log exp a x y threshold)).length ∧
        (∀ c, s1.alpha c = if c < 3 then a c else s.alpha c) ∧
        (List.range ((List.range size).filter (ransac_inlier log exp a x y threshold)).length).map
          s1.inliners =
          ((List.range size).filter (ransac_inlier log exp a x y threshold)).map Int.ofNat ∧
        ∀ c, ((List.range size).filter (ransac_inlier log exp a x y threshold)).length ≤ c →
          s1.inliners c = s.inliners c)) := by
  unfold ransac_trial at h
  rcases hsample : ransac_sample rand size k i with _ | randperm
  · rw [hsample] at h; simp at h
  rw [hsample] at h
  simp only at h
  obtain ⟨hs1, hs2, hs3⟩ := ransac_subset_sizes (ransac_mx log exp x size) y randperm k
  have hfit : gsl_multifit_linear solve (ransac_subset (ransac_mx log exp x size) y randperm k).1
      (ransac_subset (ransac_mx log exp x size) y randperm k).2 (gsl_vector_calloc 3) =
      some ⟨3, fun c =>
        if c < 3 then solve (ransac_subset (ransac_mx log exp x size) y randperm k).1
          (ransac_subset (ransac_mx log exp x size) y randperm k).2 c else 0⟩ := by
    simp only [gsl_multifit_linear, hs1, hs2, hs3, gsl_vector_calloc, and_self, if_true]
  rw [hfit] at h
  simp only at h
  have hmul : gsl_blas_dgemv_NoTrans 1 (ransac_mx log exp x size)
      (⟨3, fun c =>
        if c < 3 then solve (ransac_subset (ransac_mx log exp x size) y randperm k).1
          (ransac_subset (ransac_mx log exp x size) y randperm k).2 c else 0⟩ : gsl_vector R) 0
      (gsl_vector_calloc size) =
      some ⟨size, fun j =>
        if j < size then
          1 * (∑ c in Finset.range 3, (ransac_mx log exp x size).data j c *
            (if c < 3 then solve (ransac_subset (ransac_mx log exp x size) y randperm k).1
              (ransac_subset (ransac_mx log exp x size) y randperm k).2 c else 0)) + 0 * 0
        else 0⟩ := by
    simp only [gsl_blas_dgemv_NoTrans, ransac_mx_size1, ransac_mx_size2, gsl_vector_calloc,
      and_self, if_true]
  rw [hmul] at h
  simp only at h
  -- the inlier test of the loop is the inlier test of the model with the trial's coefficients
  have hfilter : ∀ (d : Nat → R),
      (∀ j, j < size → d j =
        ransac_model log exp
          (solve (ransac_subset (ransac_mx log exp x size) y randperm k).1
            (ransac_subset (ransac_mx log exp x size) y randperm k).2) (x j)) →
      (List.range size).filter (fun j => decide (abs (d j - y j) < threshold)) =
        (List.range size).filter
          (ransac_inlier log exp
            (solve (ransac_subset (ransac_mx log exp x size) y randperm k).1
              (ransac_subset (ransac_mx log exp x size) y randperm k).2) x y threshold) := by
    intro d hd
    refine List.filter_congr (fun j hj => ?_)
    rw [ransac_inlier, hd j (List.mem_range.mp hj)]
  have hd : ∀ j, j < size →
      (if j < size then
          1 * (∑ c in Finset.range 3, (ransac_mx log exp x size).data j c *
            (if c < 3 then solve (ransac_subset (ransac_mx log exp x size) y randperm k).1
              (ransac_subset (ransac_mx log exp x size) y randperm k).2 c else 0)) + 0 * 0
        else 0) =
        ransac_model log exp
          (solve (ransac_subset (ransac_mx log exp x size) y randperm k).1
            (ransac_subset (ransac_mx log exp x size) y randperm k).2) (x j) := by
    intro j hj
    obtain ⟨m0, m1, m2⟩ := ransac_mx_data log exp x size j hj
    rw [if_pos hj]
    simp only [Finset.sum_range_succ, Finset.sum_range_zero, m0, m1, m2, ransac_model]
    norm_num
  refine ⟨(ransac_subset (ransac_mx log exp x size) y randperm k).1,
    (ransac_subset (ransac_mx log exp x size) y randperm k).2, _, rfl, ?_⟩
  rw [ransac_count_eq, ransac_record_eq] at h
  simp only [hfilter _ hd] at h
  by_cases hgt : ((List.range size).filter
      (ransac_inlier log exp
        (solve (ransac_subset (ransac_mx log exp x size) y randperm k).1
          (ransac_subset (ransac_mx log exp x size) y randperm k).2) x y threshold)).length
      > s.nbInliners
  · right
    rw [if_pos hgt] at h
    have hs1eq := Option.some.inj h
    obtain ⟨-, r2, r3⟩ := record_loop_spec
      (fun j => decide (abs ((if j < size then
          1 * (∑ c in Finset.range 3, (ransac_mx log exp x size).data j c *
            (if c < 3 then solve (ransac_subset (ransac_mx log exp x size) y randperm k).1
              (ransac_subset (ransac_mx log exp x size) y randperm k).2 c else 0)) + 0 * 0
        else 0) - y j) < threshold)) size s.inliners
    simp only [hfilter _ hd] at r2 r3
    refine ⟨hgt, by rw [← hs1eq], ?_, by rw [← hs1eq]; exact r2, ?_⟩
    · intro c
      rw [← hs1eq]
      simp only [ransac_alpha_copy]
      by_cases hc : c < 3 <;> simp [hc]
    · intro c hc
      rw [← hs1eq]
      exact r3 c hc
  · left
    rw [if_neg hgt] at h
    exact ⟨not_lt.mp hgt, (Option.some.inj h).symm⟩

end RansacTrial

section RansacLoop

variable {R : Type} [LinearOrderedField R]

theorem ransac_loop_succ (log exp : R → R) (solve : gsl_matrix R → gsl_vector R → Nat → R)
    (rand : Nat → Nat) (x y : Nat → R) (size : Nat) (threshold : R) (k : Nat)
    (alpha : Nat → R) (inliners : Nat → Int) (t : Nat) :
    ransac_loop log exp solve rand x y size threshold k alpha inliners (t + 1) =
      (ransac_loop log exp solve rand x y size threshold k alpha inliners t).bind
        (ransac_trial solve rand (ransac_mx log exp x size) y size threshold k t) := rfl

/-- With at least one point every trial of `ransac` returns. -/
theorem ransac_trial_total (solve : gsl_matrix R → gsl_vector R → Nat → R) (rand : Nat → Nat)
    (mx : gsl_matrix R) (y : Nat → R) (size : Nat) (threshold : R) (k i : Nat)
    (s : RansacState R) (hsize : 0 < size) (h1 : mx.size1 = size) (h2 : mx.size2 = 3) :
    ∃ s1, ransac_trial solve rand mx y size threshold k i s = some s1 := by
  obtain ⟨randperm, hsample, -⟩ := ransac_sample_some rand size k i hsize
  obtain ⟨hs1, hs2, hs3⟩ := ransac_subset_sizes mx y randperm k
  unfold ransac_trial
  rw [hsample]
  simp only [gsl_multifit_linear, hs1, hs2, hs3, gsl_vector_calloc, and_self, if_true,
    gsl_blas_dgemv_NoTrans, h1, h2]
  split_ifs
  · exact ⟨_, rfl⟩
  · exact ⟨_, rfl⟩

/-- With at least one point `ransac` runs any number of trials to the end. -/
theorem ransac_loop_total (log exp : R → R) (solve : gsl_matrix R → gsl_vector R → Nat → R)
    (rand : Nat → Nat) (x y : Nat → R) (size : Nat) (threshold : R) (k : Nat)
    (alpha : Nat → R) (inliners : Nat → Int) (hsize : 0 < size) (t : Nat) :
    ∃ s, ransac_loop log exp solve rand x y size threshold k alpha inliners t = some s := by
  obtain ⟨s, hs, -⟩ := forLoopM_some (fun _ => True) t
    (ransac_trial solve rand (ransac_mx log exp x size) y size threshold k)
    (⟨0, alpha, inliners⟩ : RansacState R) trivial
    (fun i u _ => by
      obtain ⟨s1, h⟩ := ransac_trial_total solve rand (ransac_mx log exp x size) y size threshold
        k i u hsize (ransac_mx_size1 log exp x size) (ransac_mx_size2 log exp x size)
      exact ⟨s1, h, trivial⟩)
  exact ⟨s, hs⟩

/-- The best-so-far state of `ransac`: either nothing was recorded yet (count
0, both buffers as the caller passed them), or the count is positive, equals
the number of points within `threshold` of the model with the recorded
coefficients, and the first `count` cells of the buffer list these points in
increasing order. -/
theorem ransac_loop_best (log exp : R → R) (solve : gsl_matrix R → gsl_vector R → Nat → R)
    (rand : Nat → Nat) (x y : Nat → R) (size : Nat) (threshold : R) (k : Nat)
    (alpha : Nat → R) (inliners : Nat → Int) (t : Nat) (s : RansacState R)
    (h : ransac_loop log exp solve rand x y size threshold k alpha inliners t = some s) :
    (s.nbInliners = 0 ∧ (∀ c, s.alpha c = alpha c) ∧ (∀ c, s.inliners c = inliners c)) ∨
    (0 < s.nbInliners ∧
      s.nbInliners =
        ((List.range size).filter (ransac_inlier log exp s.alpha x y threshold)).length ∧
      (List.range s.nbInliners).map s.inliners =
        ((List.range size).filter (ransac_inlier log exp s.alpha x y threshold)).map Int.ofNat) := by
  refine forLoopM_invariant
    (fun _ (s : RansacState R) =>
      (s.nbInliners = 0 ∧ (∀ c, s.alpha c = alpha c) ∧ (∀ c, s.inliners c = inliners c)) ∨
      (0 < s.nbInliners ∧
        s.nbInliners =
          ((List.range size).filter (ransac_inlier log exp s.alpha x y threshold)).length ∧
        (List.range s.nbInliners).map s.inliners =
          ((List.range size).filter (ransac_inlier log exp s.alpha x y threshold)).map Int.ofNat))
    t _ _ s (Or.inl ⟨rfl, fun _ => rfl, fun _ => rfl⟩) ?_ h
  intro i u v hu hv
  obtain ⟨X, ys, a, -, hcase⟩ := ransac_trial_spec log exp solve rand x y size threshold k i u v hv
  rcases hcase with ⟨-, rfl⟩ | ⟨hlt, hnb, halpha, hlist, -⟩
  · exact hu
  · right
    have hcongr : (List.range size).filter (ransac_inlier log exp v.alpha x y threshold) =
        (List.range size).filter (ransac_inlier log exp a x y threshold) := by
      refine List.filter_congr (fun j _ => ?_)
      exact ransac_inlier_congr log exp v.alpha a x y threshold
        (fun c hc => by rw [halpha c, if_pos hc]) j
    rw [hcongr, hnb]
    exact ⟨by omega, rfl, hlist⟩

end RansacLoop


section RansacClaims

variable {R : Type} [LinearOrderedField R]

/-- The best count never decreases from a number of trials to a later one. -/
theorem ransac_loop_mono (log exp : R → R) (solve : gsl_matrix R → gsl_vector R → Nat → R)
    (rand : Nat → Nat) (x y : Nat → R) (size : Nat) (threshold : R) (k : Nat)
    (alpha : Nat → R) (inliners : Nat → Int) (t u : Nat) (s s1 : RansacState R)
    (h : ransac_loop log exp solve rand x y size threshold k alpha inliners t = some s)
    (h1 : ransac_loop log exp solve rand x y size threshold k alpha inliners (t + u) = some s1) :
    s.nbInliners ≤ s1.nbInliners := by
  induction u generalizing s1 with
  | zero =>
    rw [Nat.add_zero, h] at h1
    rw [Option.some.inj h1]
  | succ u ih =>
    rw [← Nat.add_assoc, ransac_loop_succ] at h1
    rcases hm : ransac_loop log exp solve rand x y size threshold k alpha inliners (t + u)
      with _ | m
    · rw [hm] at h1; simp at h1
    · rw [hm] at h1
      obtain ⟨X, ys, a, -, hcase⟩ :=
        ransac_trial_spec log exp solve rand x y size threshold k (t + u) m s1 h1
      have hle := ih m hm
      rcases hcase with ⟨-, rfl⟩ | ⟨hlt, hnb, -⟩
      · exact hle
      · omega

/-- C9: for every input and every sequence `rand` of random draws: with at
least one point `ransac` returns; from one trial to the next the best-so-far
state either stays as it is (the trial has no more inliers than the best
count: ties keep the first found) or its count becomes the strictly larger
inlier count of the trial, so the best count is non-decreasing over the
trials; and on return a positive count is the number of indices written to
the inlier list, which are exactly the `j < size` with
`|model(x[j]) - y[j]| < threshold` under the returned coefficients, in
increasing order, while with count 0 neither buffer has been written. -/
theorem ransac_best_so_far (log exp : R → R) (solve : gsl_matrix R → gsl_vector R → Nat → R)
    (rand : Nat → Nat) (x y : Nat → R) (size : Nat) (threshold : R) (k : Nat)
    (alpha : Nat → R) (inliners : Nat → Int) :
    (0 < size →
      ∃ r, ransac log exp solve rand x y size threshold k alpha inliners = some r) ∧
    (∀ t s s1,
      ransac_loop log exp solve rand x y size threshold k alpha inliners t = some s →
      ransac_loop log exp solve rand x y size threshold k alpha inliners (t + 1) = some s1 →
      ∃ a : Nat → R,
        (((List.range size).filter (ransac_inlier log exp a x y threshold)).length
            ≤ s.nbInliners ∧ s1 = s) ∨
        (s.nbInliners < ((List.range size).filter (ransac_inlier log exp a x y threshold)).length ∧
          s1.nbInliners =
            ((List.range size).filter (ransac_inlier log exp a x y threshold)).length)) ∧
    (∀ t u s s1,
      ransac_loop log exp solve rand x y size threshold k alpha inliners t = some s →
      ransac_loop log exp solve rand x y size threshold k alpha inliners (t + u) = some s1 →
      s.nbInliners ≤ s1.nbInliners) ∧
    (∀ nb alpha1 inliners1,
      ransac log exp solve rand x y size threshold k alpha inliners
        = some (nb, alpha1, inliners1) →
      (0 < nb →
        nb = ((List.range size).filter (ransac_inlier log exp alpha1 x y threshold)).length ∧
        (List.range nb).map inliners1 =
          ((List.range size).filter (ransac_inlier log exp alpha1 x y threshold)).map
            Int.ofNat) ∧
      (nb = 0 → (∀ c, alpha1 c = alpha c) ∧ (∀ c, inliners1 c = inliners c))) := by
  refine ⟨?_, ?_, ?_, ?_⟩
  · intro hsize
    obtain ⟨s, hs⟩ :=
      ransac_loop_total log exp solve rand x y size threshold k alpha inliners hsize 100000
    exact ⟨_, by rw [ransac, hs]; rfl⟩
  · intro t s s1 hs hs1
    rw [ransac_loop_succ, hs] at hs1
    obtain ⟨X, ys, a, -, hcase⟩ :=
      ransac_trial_spec log exp solve rand x y size threshold k t s s1 hs1
    refine ⟨a, ?_⟩
    rcases hcase with ⟨hle, heq⟩ | ⟨hlt, hnb, -⟩
    · exact Or.inl ⟨hle, heq⟩
    · exact Or.inr ⟨hlt, hnb⟩
  · intro t u s s1 hs hs1
    exact ransac_loop_mono log exp solve rand x y size threshold k alpha inliners t u s s1 hs hs1
  · intro nb alpha1 inliners1 hres
    rw [ransac] at hres
    rcases hs : ransac_loop log exp solve rand x y size threshold k alpha inliners 100000
      with _ | s
    · rw [hs] at hres; simp at hres
    · rw [hs] at hres
      simp only [Option.map_some', Option.some.injEq, Prod.mk.injEq] at hres
      obtain ⟨rfl, rfl, rfl⟩ := hres
      have hbest :=
        ransac_loop_best log exp solve rand x y size threshold k alpha inliners 100000 s hs
      constructor
      · intro hpos
        rcases hbest with ⟨h0, -⟩ | ⟨-, h1, h2⟩
        · omega
        · exact ⟨h1, h2⟩
      · intro hzero
        rcases hbest with ⟨-, h1, h2⟩ | ⟨hpos, -⟩
        · exact ⟨h1, h2⟩
        · omega

/-- The hypothesis of `ransac_best_so_far` (at least one point) holds for a
fit of one point. -/
theorem ransac_best_so_far_witness :
    0 < 1 ∧
    ∃ r, ransac Real.log Real.exp (fun _ _ _ => 0) (fun n => n) (fun _ => 1)
      (fun _ => 0) 1 1 3 (fun _ => 7) (fun _ => -1) = some r :=
  ⟨Nat.one_pos,
    (ransac_best_so_far Real.log Real.exp (fun _ _ _ => 0) (fun n => n) (fun _ => 1)
      (fun _ => 0) 1 1 3 (fun _ => 7) (fun _ => -1)).1 Nat.one_pos⟩

/-- C8 as amended: `ransac` does not compare `size` with the subset size `k`
and has no error return.  Whenever there is at least one point and the subset
size is at least 3, also when `size < k`, every trial draws its `k` indices
with replacement, each being `rand() % size` and so a valid index; the system
handed to `gsl_multifit_linear` has `k` rows and 3 columns, hence at least as
many rows as columns, which the solver of GSL requires; and `ransac` runs all
trials and returns. -/
theorem ransac_returns_without_size_check (log exp : R → R)
    (solve : gsl_matrix R → gsl_vector R → Nat → R) (rand : Nat → Nat) (x y : Nat → R)
    (size : Nat) (threshold : R) (k : Nat) (alpha : Nat → R) (inliners : Nat → Int)
    (hsize : 0 < size) (hk : 3 ≤ k) :
    (∃ r, ransac log exp solve rand x y size threshold k alpha inliners = some r) ∧
    ∀ i, ∃ randperm, ransac_sample rand size k i = some randperm ∧
      (∀ j, j < k → randperm j = rand (i * k + j) % size ∧ randperm j < size) ∧
      (ransac_subset (ransac_mx log exp x size) y randperm k).1.size1 = k ∧
      (ransac_subset (ransac_mx log exp x size) y randperm k).1.size2 = 3 ∧
      (ransac_subset (ransac_mx log exp x size) y randperm k).1.size2 ≤
        (ransac_subset (ransac_mx log exp x size) y randperm k).1.size1 := by
  constructor
  · obtain ⟨s, hs⟩ :=
      ransac_loop_total log exp solve rand x y size threshold k alpha inliners hsize 100000
    exact ⟨_, by rw [ransac, hs]; rfl⟩
  · intro i
    obtain ⟨randperm, hsample, hdraw⟩ := ransac_sample_some rand size k i hsize
    obtain ⟨h1, h2, -⟩ := ransac_subset_sizes (ransac_mx log exp x size) y randperm k
    exact ⟨randperm, hsample, hdraw, h1, h2, by rw [h1, h2]; exact hk⟩

/-- The hypotheses of `ransac_returns_without_size_check` hold for one point
and subset size 4. -/
theorem ransac_returns_without_size_check_witness :
    0 < 1 ∧ 3 ≤ 4 ∧ 1 < 4 ∧
    ∃ r, ransac Real.log Real.exp (fun _ _ _ => 0) (fun n => n) (fun _ => 1)
      (fun _ => 0) 1 1 4 (fun _ => 7) (fun _ => -1) = some r :=
  ⟨Nat.one_pos, by decide, by decide,
    (ransac_returns_without_size_check Real.log Real.exp (fun _ _ _ => 0)
      (fun n => n) (fun _ => 1) (fun _ => 0) 1 1 4 (fun _ => 7) (fun _ => -1) Nat.one_pos
      (by decide)).1⟩

/-- C8 fails on the code: with one point `(x, y) = (1, 0)`, threshold 1 and
subset size `k = 4 > size`, a solver that returns the coefficients `0` (the
least-squares solution of this system) and any draws, `ransac` signals no
error: it returns the count 1, having written the fitted coefficients `0`
over the caller's `7` and the inlier index `0` over the caller's `-1`. -/
theorem ransac_fits_one_point_with_subset_size_four :
    1 < 4 ∧
    ∃ alpha1 inliners1,
      ransac Real.log Real.exp (fun _ _ _ => 0) (fun n => n) (fun _ => 1) (fun _ => 0) 1 1 4
        (fun _ => 7) (fun _ => -1) = some (1, alpha1, inliners1) ∧
      alpha1 0 = 0 ∧ alpha1 1 = 0 ∧ alpha1 2 = 0 ∧ inliners1 0 = 0 := by
  refine ⟨by decide, ?_⟩
  obtain ⟨s, hs⟩ := ransac_loop_total Real.log Real.exp (fun _ _ _ => (0 : ℝ)) (fun n => n)
    (fun _ => 1) (fun _ => 0) 1 1 4 (fun _ => 7) (fun _ => -1) Nat.one_pos 100000
  have hL : ∀ a : Nat → ℝ, a = (fun _ => 0) →
      (List.range 1).filter
        (ransac_inlier Real.log Real.exp a (fun _ => (1 : ℝ)) (fun _ => 0) 1) = [0] := by
    intro a ha
    subst ha
    simp [ransac_inlier, ransac_model, List.range_succ]
  have hinv := forLoopM_invariant
    (fun t (u : RansacState ℝ) =>
      (t = 0 ∧ u = ⟨0, fun _ => 7, fun _ => -1⟩) ∨
      (0 < t ∧ u.nbInliners = 1 ∧ (∀ c, c < 3 → u.alpha c = 0) ∧ u.inliners 0 = 0))
    100000 _ _ s (Or.inl ⟨rfl, rfl⟩) ?_ hs
  · rcases hinv with ⟨h0, -⟩ | ⟨-, hnb, halpha, hinl⟩
    · omega
    · refine ⟨s.alpha, s.inliners, ?_, halpha 0 (by decide), halpha 1 (by decide),
        halpha 2 (by decide), hinl⟩
      rw [ransac, hs, ← hnb]
      rfl
  · intro i u v hu hv
    obtain ⟨X, ys, a, ha, hcase⟩ := ransac_trial_spec Real.log Real.exp (fun _ _ _ => (0 : ℝ))
      (fun n => n) (fun _ => 1) (fun _ => 0) 1 1 4 i u v hv
    rw [hL a ha] at hcase
    right
    rcases hu with ⟨-, rfl⟩ | ⟨-, hnb, halpha, hinl⟩
    · rcases hcase with ⟨hle, -⟩ | ⟨-, hnb1, halpha1, hlist, -⟩
      · simp at hle
      · refine ⟨Nat.succ_pos i, hnb1, ?_, ?_⟩
        · intro c hc
          rw [halpha1 c, if_pos hc, ha]
        · simpa [List.range_succ] using hlist
    · rcases hcase with ⟨-, rfl⟩ | ⟨hlt, -⟩
      · exact ⟨Nat.succ_pos i, hnb, halpha, hinl⟩
      · rw [hnb] at hlt
        simp at hlt

end RansacClaims


section NormalizeLemmas

variable {R : Type} [LinearOrderedField R]

theorem main_applyColumn_size1 (m : gsl_matrix R) (i : Nat) (mean std : R) :
    (main_applyColumn m i mean std).size1 = m.size1 :=
  forLoop_size1 m.size1 _ m (fun _ _ => rfl)

theorem main_applyColumn_size2 (m : gsl_matrix R) (i : Nat) (mean std : R) :
    (main_applyColumn m i mean std).size2 = m.size2 :=
  forLoop_size2 m.size1 _ m (fun _ _ => rfl)

/-- The loop `m[j][i] = (m[j][i] - mean) / std` rescales column `i` of the
rows of `m` and touches nothing else. -/
theorem main_applyColumn_data (m : gsl_matrix R) (i : Nat) (mean std : R) (a b : Nat) :
    (main_applyColumn m i mean std).data a b =
      if a < m.size1 ∧ b = i then (m.data a b - mean) / std else m.data a b := by
  unfold main_applyColumn
  refine forLoop_induct
    (fun k (t : gsl_matrix R) =>
      t.data a b = if a < k ∧ b = i then (m.data a b - mean) / std else m.data a b)
    m.size1 _ m (by simp) ?_
  intro j t _ ht
  rw [gsl_matrix_set_data]
  by_cases hb : b = i
  · by_cases ha : a = j
    · subst ha; subst hb
      have h0 : t.data a b = m.data a b := by simpa using ht
      simp [gsl_matrix_get, h0]
    · have e : (a < j + 1) ↔ (a < j) := by omega
      simp only [ha, false_and, if_false, ht, e]
  · simp only [hb, and_false, if_false, ht]

/-- The constants of a column depend on that column only. -/
theorem main_columnStats_congr (sqrt : R → R) (t m : gsl_matrix R) (i : Nat)
    (hsize : t.size1 = m.size1) (hcol : ∀ a, t.data a i = m.data a i) :
    main_columnStats sqrt t i = main_columnStats sqrt m i := by
  simp only [main_columnStats, gsl_matrix_get, hsize, hcol]

/-- The stored `std` is the computed one unless that is exactly 0, in which
case it is 1; in both cases it is not 0. -/
theorem main_columnStats_std_ne_zero (sqrt : R → R) (m : gsl_matrix R) (i : Nat) :
    (main_columnStats sqrt m i).2 ≠ 0 := by
  simp only [main_columnStats]
  split_ifs with h
  · exact one_ne_zero
  · exact h

/-- The normalisation loop of `main` after `k` columns: the columns below `k`
are rescaled with the constants computed from the original column, which are
the ones stored; the other columns and constants are untouched. -/
theorem main_normalize_loop (sqrt : R → R) (st : NormState R) (k : Nat) :
    (forLoop k (main_normalizeColumn sqrt) st).trainFeat.size1 = st.trainFeat.size1 ∧
    (forLoop k (main_normalizeColumn sqrt) st).testFeat.size1 = st.testFeat.size1 ∧
    ∀ a b,
      (forLoop k (main_normalizeColumn sqrt) st).trainFeat.data a b =
        (if a < st.trainFeat.size1 ∧ b < k then
          (st.trainFeat.data a b - (main_columnStats sqrt st.trainFeat b).1) /
            (main_columnStats sqrt st.trainFeat b).2
        else st.trainFeat.data a b) ∧
      (forLoop k (main_normalizeColumn sqrt) st).testFeat.data a b =
        (if a < st.testFeat.size1 ∧ b < k then
          (st.testFeat.data a b - (main_columnStats sqrt st.trainFeat b).1) /
            (main_columnStats sqrt st.trainFeat b).2
        else st.testFeat.data a b) ∧
      (forLoop k (main_normalizeColumn sqrt) st).means b =
        (if b < k then (main_columnStats sqrt st.trainFeat b).1 else st.means b) ∧
      (forLoop k (main_normalizeColumn sqrt) st).stds b =
        (if b < k then (main_columnStats sqrt st.trainFeat b).2 else st.stds b) := by
  induction k with
  | zero => simp
  | succ k ih =>
    obtain ⟨hs1, hs2, hdata⟩ := ih
    rw [forLoop_succ]
    generalize forLoop k (main_normalizeColumn sqrt) st = cur at hs1 hs2 hdata ⊢
    have hstats : main_columnStats sqrt cur.trainFeat k = main_columnStats sqrt st.trainFeat k :=
      main_columnStats_congr sqrt cur.trainFeat st.trainFeat k hs1
        (fun a => by rw [(hdata a k).1]; simp)
    simp only [main_normalizeColumn]
    refine ⟨by rw [main_applyColumn_size1, hs1], by rw [main_applyColumn_size1, hs2], ?_⟩
    intro a b
    obtain ⟨h1, h2, h3, h4⟩ := hdata a b
    simp only [main_applyColumn_data, hstats, hs1, hs2, h1, h2, h3, h4]
    by_cases hb : b = k
    · subst hb
      simp
    · have e : (b < k + 1) ↔ (b < k) := by omega
      simp [hb, e]

end NormalizeLemmas

section NormalizeClaim

variable {R : Type} [LinearOrderedField R]

/-- The normaliser round trip in exact arithmetic (no rounding, `sqrt` any
function with values in the field).  For a non-empty set of training rows and
every column `i < 5`, the constants that the normalisation loop of `main`
stores are the mean and the standard deviation computed from the training
rows of that column, the latter replaced by 1 when it is exactly 0, so the
stored `std` is not 0; every training row and every test row leaves the loop
as `(x - mean) / std`, and the inverse `y * std + mean` with the stored
constants gives back the original value, as it does for any value normalised
with the stored constants at prediction time.  The `float` computation of the
code is `main_columnStatsRounded`. -/
theorem normalizer_round_trip (sqrt : R → R) (st : NormState R)
    (_hrows : 0 < st.trainFeat.size1) (i : Nat) (hi : i < 5) :
    (main_normalize sqrt st).means i = (main_columnStats sqrt st.trainFeat i).1 ∧
    (main_normalize sqrt st).stds i = (main_columnStats sqrt st.trainFeat i).2 ∧
    (main_normalize sqrt st).stds i ≠ 0 ∧
    (∀ j, j < st.trainFeat.size1 →
      (main_normalize sqrt st).trainFeat.data j i =
        (st.trainFeat.data j i - (main_normalize sqrt st).means i) /
          (main_normalize sqrt st).stds i ∧
      unnormalize ((main_normalize sqrt st).means i) ((main_normalize sqrt st).stds i)
        ((main_normalize sqrt st).trainFeat.data j i) = st.trainFeat.data j i) ∧
    (∀ j, j < st.testFeat.size1 →
      (main_normalize sqrt st).testFeat.data j i =
        (st.testFeat.data j i - (main_normalize sqrt st).means i) /
          (main_normalize sqrt st).stds i ∧
      unnormalize ((main_normalize sqrt st).means i) ((main_normalize sqrt st).stds i)
        ((main_normalize sqrt st).testFeat.data j i) = st.testFeat.data j i) ∧
    (∀ v : R,
      unnormalize ((main_normalize sqrt st).means i) ((main_normalize sqrt st).stds i)
        ((v - (main_normalize sqrt st).means i) / (main_normalize sqrt st).stds i) = v) := by
  obtain ⟨-, -, hdata⟩ := main_normalize_loop sqrt st 5
  have hmean : (main_normalize sqrt st).means i = (main_columnStats sqrt st.trainFeat i).1 := by
    rw [main_normalize, (hdata 0 i).2.2.1, if_pos hi]
  have hstd : (main_normalize sqrt st).stds i = (main_columnStats sqrt st.trainFeat i).2 := by
    rw [main_normalize, (hdata 0 i).2.2.2, if_pos hi]
  have hne : (main_normalize sqrt st).stds i ≠ 0 := by
    rw [hstd]; exact main_columnStats_std_ne_zero sqrt st.trainFeat i
  have hround : ∀ v : R,
      unnormalize ((main_normalize sqrt st).means i) ((main_normalize sqrt st).stds i)
        ((v - (main_normalize sqrt st).means i) / (main_normalize sqrt st).stds i) = v := by
    intro v
    rw [unnormalize, div_mul_cancel₀ _ hne]
    ring
  refine ⟨hmean, hstd, hne, ?_, ?_, hround⟩
  · intro j hj
    have h : (main_normalize sqrt st).trainFeat.data j i =
        (st.trainFeat.data j i - (main_normalize sqrt st).means i) /
          (main_normalize sqrt st).stds i := by
      rw [hmean, hstd, main_normalize, (hdata j i).1, if_pos ⟨hj, hi⟩]
    exact ⟨h, by rw [h]; exact hround _⟩
  · intro j hj
    have h : (main_normalize sqrt st).testFeat.data j i =
        (st.testFeat.data j i - (main_normalize sqrt st).means i) /
          (main_normalize sqrt st).stds i := by
      rw [hmean, hstd, main_normalize, (hdata j i).2.1, if_pos ⟨hj, hi⟩]
    exact ⟨h, by rw [h]; exact hround _⟩

/-- The hypotheses of `normalizer_round_trip` hold for the three rows of the
training scenario and column 0, with the real square root. -/
theorem normalizer_round_trip_witness :
    0 < (scenarioRows ℝ).size1 ∧ 0 < 5 ∧
    (main_normalize Real.sqrt
      ⟨scenarioRows ℝ, scenarioQuery ℝ, fun _ => 0, fun _ => 0⟩).stds 0 ≠ 0 :=
  ⟨by decide, by decide,
    (normalizer_round_trip Real.sqrt ⟨scenarioRows ℝ, scenarioQuery ℝ, fun _ => 0, fun _ => 0⟩
      (by decide) 0 (by decide)).2.2.1⟩

end NormalizeClaim


section NormalizeRoundingVerdict

/-- C10, evaluated in `float` arithmetic on three training rows whose weight
column is constant, `61.7f` in every row: the loop accumulates
`mean = 185.1000061` and `std = 11420.66992`, divides both by 3 and passes
`3806.889893 - 3806.890137 = -1 / 4096` to `sqrt` (`-13851689 / 2 ^ 36` when
the compiler fuses the multiply-add), a negative number although the column
has variance 0.  `sqrt` returns NaN, the guard `std == 0` does not fire and
NaN is stored as the `std` of the column, so that every normalised weight is
NaN and no inverse reproduces 61.7.  For the dose column of the same rows,
constant 400, every operation is exact, `sqrt` gets 0 and the guard stores 1;
in exact arithmetic that is also what happens for the weight column. -/
theorem main_normalize_constant_column_stores_nan :
    0 < (constantWeightRows ℚ).size1 ∧
    (∀ j, (constantWeightRows ℚ).data j 4 = 16174285 / 262144) ∧
    main_columnMomentsRounded (roundNearestEven 24) false (constantWeightRows ℚ) 4 =
      (16174285 / 262144, -1 / 4096) ∧
    main_columnMomentsRounded (roundNearestEven 24) true (constantWeightRows ℚ) 4 =
      (16174285 / 262144, -13851689 / 68719476736) ∧
    (∀ (fused : Bool) (sqrt : ℚ → Option ℚ), (∀ x, x < 0 → sqrt x = none) →
      main_columnStatsRounded (roundNearestEven 24) fused sqrt (constantWeightRows ℚ) 4 =
        (16174285 / 262144, none)) ∧
    (∀ fused : Bool,
      main_columnMomentsRounded (roundNearestEven 24) fused (constantWeightRows ℚ) 1 =
        (400, 0)) ∧
    (∀ (fused : Bool) (sqrt : ℚ → Option ℚ), sqrt 0 = some 0 →
      main_columnStatsRounded (roundNearestEven 24) fused sqrt (constantWeightRows ℚ) 1 =
        (400, some 1)) ∧
    (∀ sqrt : ℚ → ℚ, sqrt 0 = 0 →
      main_columnStats sqrt (constantWeightRows ℚ) 4 = (16174285 / 262144, 1)) := by
  have hdata : ∀ j, (constantWeightRows ℚ).data j 4 = 16174285 / 262144 := by
    intro j
    simp [constantWeightRows]
  have hdose : ∀ j, (constantWeightRows ℚ).data j 1 = 400 := by
    intro j
    simp [constantWeightRows]
  have hsz : (constantWeightRows ℚ).size1 = 3 := rfl
  have hz : roundNearestEven 24 (0 : ℚ) = 0 := roundNearestEven_zero 24
  have hW : roundNearestEven 24 (16174285 / 262144 : ℚ) = 16174285 / 262144 := by
    rw [roundNearestEven_eq 24 _ (5) (16174285)
      (by rw [abs_of_pos (by norm_num)]; norm_num)
      (by rw [abs_of_pos (by norm_num)]; norm_num)
      (by norm_num) (by norm_num)]
    norm_num
  have hM2 : roundNearestEven 24 (16174285 / 262144 + 16174285 / 262144 : ℚ) = 16174285 / 131072 := by
    rw [roundNearestEven_eq 24 _ (6) (16174285)
      (by rw [abs_of_pos (by norm_num)]; norm_num)
      (by rw [abs_of_pos (by norm_num)]; norm_num)
      (by norm_num) (by norm_num)]
    norm_num
  have hM3 : roundNearestEven 24 (16174285 / 131072 + 16174285 / 262144 : ℚ) = 6065357 / 32768 := by
    rw [roundNearestEven_eq 24 _ (7) (12130714)
      (by rw [abs_of_pos (by norm_num)]; norm_num)
      (by rw [abs_of_pos (by norm_num)]; norm_num)
      (by norm_num) (by norm_num)]
    norm_num
  have hQ : roundNearestEven 24 (16174285 / 262144 * (16174285 / 262144) : ℚ) = 7796511 / 2048 := by
    rw [roundNearestEven_eq 24 _ (11) (15593022)
      (by rw [abs_of_pos (by norm_num)]; norm_num)
      (by rw [abs_of_pos (by norm_num)]; norm_num)
      (by norm_num) (by norm_num)]
    norm_num
  have hQr : roundNearestEven 24 (7796511 / 2048 : ℚ) = 7796511 / 2048 := by
    rw [roundNearestEven_eq 24 _ (11) (15593022)
      (by rw [abs_of_pos (by norm_num)]; norm_num)
      (by rw [abs_of_pos (by norm_num)]; norm_num)
      (by norm_num) (by norm_num)]
    norm_num
  have hQ2 : roundNearestEven 24 (7796511 / 2048 + 7796511 / 2048 : ℚ) = 7796511 / 1024 := by
    rw [roundNearestEven_eq 24 _ (12) (15593022)
      (by rw [abs_of_pos (by norm_num)]; norm_num)
      (by rw [abs_of_pos (by norm_num)]; norm_num)
      (by norm_num) (by norm_num)]
    norm_num
  have hQ3 : roundNearestEven 24 (7796511 / 1024 + 7796511 / 2048 : ℚ) = 5847383 / 512 := by
    rw [roundNearestEven_tie 24 _ (13) (11694766)
      (by rw [abs_of_pos (by norm_num)]; norm_num)
      (by rw [abs_of_pos (by norm_num)]; norm_num)
      (by norm_num)]
    norm_num
  have h3 : roundNearestEven 24 (3 : ℚ) = 3 := by
    rw [roundNearestEven_eq 24 _ (1) (12582912)
      (by rw [abs_of_pos (by norm_num)]; norm_num)
      (by rw [abs_of_pos (by norm_num)]; norm_num)
      (by norm_num) (by norm_num)]
    norm_num
  have hMean : roundNearestEven 24 (6065357 / 32768 / 3 : ℚ) = 16174285 / 262144 := by
    rw [roundNearestEven_eq 24 _ (5) (16174285)
      (by rw [abs_of_pos (by norm_num)]; norm_num)
      (by rw [abs_of_pos (by norm_num)]; norm_num)
      (by norm_num) (by norm_num)]
    norm_num
  have hA : roundNearestEven 24 (5847383 / 512 / 3 : ℚ) = 15593021 / 4096 := by
    rw [roundNearestEven_eq 24 _ (11) (15593021)
      (by rw [abs_of_pos (by norm_num)]; norm_num)
      (by rw [abs_of_pos (by norm_num)]; norm_num)
      (by norm_num) (by norm_num)]
    norm_num
  have hV : roundNearestEven 24 (15593021 / 4096 - 7796511 / 2048 : ℚ) = (-1 / 4096) := by
    rw [roundNearestEven_eq 24 _ (-12) (-8388608)
      (by rw [abs_of_neg (by norm_num)]; norm_num)
      (by rw [abs_of_neg (by norm_num)]; norm_num)
      (by norm_num) (by norm_num)]
    norm_num
  have f2 : roundNearestEven 24 (7796511 / 2048 + 16174285 / 262144 * (16174285 / 262144) : ℚ) = 7796511 / 1024 := by
    rw [roundNearestEven_eq 24 _ (12) (15593022)
      (by rw [abs_of_pos (by norm_num)]; norm_num)
      (by rw [abs_of_pos (by norm_num)]; norm_num)
      (by norm_num) (by norm_num)]
    norm_num
  have f3 : roundNearestEven 24 (7796511 / 1024 + 16174285 / 262144 * (16174285 / 262144) : ℚ) = 5847383 / 512 := by
    rw [roundNearestEven_eq 24 _ (13) (11694766)
      (by rw [abs_of_pos (by norm_num)]; norm_num)
      (by rw [abs_of_pos (by norm_num)]; norm_num)
      (by norm_num) (by norm_num)]
    norm_num
  have fA : roundNearestEven 24 (5847383 / 512 / 3 : ℚ) = 15593021 / 4096 := by
    rw [roundNearestEven_eq 24 _ (11) (15593021)
      (by rw [abs_of_pos (by norm_num)]; norm_num)
      (by rw [abs_of_pos (by norm_num)]; norm_num)
      (by norm_num) (by norm_num)]
    norm_num
  have fV : roundNearestEven 24 (15593021 / 4096 - 16174285 / 262144 * (16174285 / 262144) : ℚ) = (-13851689 / 68719476736) := by
    rw [roundNearestEven_eq 24 _ (-13) (-13851689)
      (by rw [abs_of_neg (by norm_num)]; norm_num)
      (by rw [abs_of_neg (by norm_num)]; norm_num)
      (by norm_num) (by norm_num)]
    norm_num
  have g2 : roundNearestEven 24 (160000 + 400 * 400 : ℚ) = 320000 := by
    rw [roundNearestEven_eq 24 _ (18) (10240000)
      (by rw [abs_of_pos (by norm_num)]; norm_num)
      (by rw [abs_of_pos (by norm_num)]; norm_num)
      (by norm_num) (by norm_num)]
    norm_num
  have g3 : roundNearestEven 24 (320000 + 400 * 400 : ℚ) = 480000 := by
    rw [roundNearestEven_eq 24 _ (18) (15360000)
      (by rw [abs_of_pos (by norm_num)]; norm_num)
      (by rw [abs_of_pos (by norm_num)]; norm_num)
      (by norm_num) (by norm_num)]
    norm_num
  have gV : roundNearestEven 24 (160000 - 400 * 400 : ℚ) = 0 := by
    rw [show (160000 - 400 * 400 : ℚ) = 0 by norm_num]
    exact roundNearestEven_zero 24
  have d1 : roundNearestEven 24 (400 : ℚ) = 400 := by
    rw [roundNearestEven_eq 24 _ (8) (13107200)
      (by rw [abs_of_pos (by norm_num)]; norm_num)
      (by rw [abs_of_pos (by norm_num)]; norm_num)
      (by norm_num) (by norm_num)]
    norm_num
  have d2 : roundNearestEven 24 (400 + 400 : ℚ) = 800 := by
    rw [roundNearestEven_eq 24 _ (9) (13107200)
      (by rw [abs_of_pos (by norm_num)]; norm_num)
      (by rw [abs_of_pos (by norm_num)]; norm_num)
      (by norm_num) (by norm_num)]
    norm_num
  have d3 : roundNearestEven 24 (800 + 400 : ℚ) = 1200 := by
    rw [roundNearestEven_eq 24 _ (10) (9830400)
      (by rw [abs_of_pos (by norm_num)]; norm_num)
      (by rw [abs_of_pos (by norm_num)]; norm_num)
      (by norm_num) (by norm_num)]
    norm_num
  have d4 : roundNearestEven 24 (400 * 400 : ℚ) = 160000 := by
    rw [roundNearestEven_eq 24 _ (17) (10240000)
      (by rw [abs_of_pos (by norm_num)]; norm_num)
      (by rw [abs_of_pos (by norm_num)]; norm_num)
      (by norm_num) (by norm_num)]
    norm_num
  have d5 : roundNearestEven 24 (160000 : ℚ) = 160000 := by
    rw [roundNearestEven_eq 24 _ (17) (10240000)
      (by rw [abs_of_pos (by norm_num)]; norm_num)
      (by rw [abs_of_pos (by norm_num)]; norm_num)
      (by norm_num) (by norm_num)]
    norm_num
  have d6 : roundNearestEven 24 (160000 + 160000 : ℚ) = 320000 := by
    rw [roundNearestEven_eq 24 _ (18) (10240000)
      (by rw [abs_of_pos (by norm_num)]; norm_num)
      (by rw [abs_of_pos (by norm_num)]; norm_num)
      (by norm_num) (by norm_num)]
    norm_num
  have d7 : roundNearestEven 24 (320000 + 160000 : ℚ) = 480000 := by
    rw [roundNearestEven_eq 24 _ (18) (15360000)
      (by rw [abs_of_pos (by norm_num)]; norm_num)
      (by rw [abs_of_pos (by norm_num)]; norm_num)
      (by norm_num) (by norm_num)]
    norm_num
  have d8 : roundNearestEven 24 (1200 / 3 : ℚ) = 400 := by
    rw [roundNearestEven_eq 24 _ (8) (13107200)
      (by rw [abs_of_pos (by norm_num)]; norm_num)
      (by rw [abs_of_pos (by norm_num)]; norm_num)
      (by norm_num) (by norm_num)]
    norm_num
  have d9 : roundNearestEven 24 (480000 / 3 : ℚ) = 160000 := by
    rw [roundNearestEven_eq 24 _ (17) (10240000)
      (by rw [abs_of_pos (by norm_num)]; norm_num)
      (by rw [abs_of_pos (by norm_num)]; norm_num)
      (by norm_num) (by norm_num)]
    norm_num
  have hmom : main_columnMomentsRounded (roundNearestEven 24) false (constantWeightRows ℚ) 4 =
      (16174285 / 262144, -1 / 4096) := by
    simp only [main_columnMomentsRounded, hsz, forLoop, gsl_matrix_get, hdata, Nat.cast_ofNat,
      Bool.false_eq_true, if_false, zero_add, hW, hM2, hM3, hQ, hQr, hQ2, hQ3, h3, hMean, hA,
      hV]
  have hmomf : main_columnMomentsRounded (roundNearestEven 24) true (constantWeightRows ℚ) 4 =
      (16174285 / 262144, -13851689 / 68719476736) := by
    simp only [main_columnMomentsRounded, hsz, forLoop, gsl_matrix_get, hdata, Nat.cast_ofNat,
      if_true, zero_add, hW, hM2, hM3, hQ, f2, f3, h3, hMean, fA, fV]
  have hmom1 : ∀ fused : Bool,
      main_columnMomentsRounded (roundNearestEven 24) fused (constantWeightRows ℚ) 1 =
        (400, 0) := by
    intro fused
    cases fused
    · simp only [main_columnMomentsRounded, hsz, forLoop, gsl_matrix_get, hdose,
        Nat.cast_ofNat, Bool.false_eq_true, if_false, zero_add, d1, d2, d3, d4, d5, d6, d7, h3,
        d8, d9, sub_self, hz]
    · simp only [main_columnMomentsRounded, hsz, forLoop, gsl_matrix_get, hdose,
        Nat.cast_ofNat, if_true, zero_add, d1, d2, d3, d4, g2, g3, h3, d8, d9, gV]
  refine ⟨by decide, hdata, hmom, hmomf, ?_, hmom1, ?_, ?_⟩
  · intro fused sqrt hsqrt
    cases fused
    · simp only [main_columnStatsRounded, hmom]
      rw [hsqrt _ (by norm_num)]
    · simp only [main_columnStatsRounded, hmomf]
      rw [hsqrt _ (by norm_num)]
  · intro fused sqrt hsqrt
    simp only [main_columnStatsRounded, hmom1 fused, hsqrt, hz, if_true]
  · intro sqrt hsqrt
    simp only [main_columnStats, hsz, forLoop, gsl_matrix_get, hdata, Nat.cast_ofNat, zero_add]
    norm_num [hsqrt]

end NormalizeRoundingVerdict

section RoundedIdentity

variable {R : Type} [LinearOrderedField R]

/-- With no rounding, the kernel entries of `predictKernelRounded` are those
of `predictKernel`. -/
theorem predictKernelRounded_id (exp : R → R) (xTrain xTest : gsl_matrix R) (sigma : R)
    (hs : 0 < sigma) (a b : Nat) (ha : a < xTest.size1) (hb : b < xTrain.size1) :
    (predictKernelRounded (fun t => t) exp xTrain xTest sigma).data a b =
      (predictKernel exp xTrain xTest sigma).data a b := by
  rw [predictKernelRounded_data _ exp xTrain xTest sigma hs a b ha hb,
    predictDistRounded_id xTrain xTest a b ha hb]
  simp only [predictKernel]
  rw [forLoop_matrix_map xTest.size1 xTrain.size1
    (fun _ _ x =>
      exp (x * (-1 / (2 * predictSigma xTrain xTest sigma * predictSigma xTrain xTest sigma)))),
    if_pos ⟨ha, hb⟩, predictSigma_pos xTrain xTest sigma hs]

/-- With no rounding, `main_columnMomentsRounded` gives the mean and the
argument of `sqrt` of `main_columnStats`. -/
theorem main_columnMomentsRounded_id (fused : Bool) (sqrt : R → R) (trainFeat : gsl_matrix R)
    (i : Nat) :
    main_columnStats sqrt trainFeat i =
      ((main_columnMomentsRounded (fun t => t) fused trainFeat i).1,
        if sqrt (main_columnMomentsRounded (fun t => t) fused trainFeat i).2 = 0 then 1
        else sqrt (main_columnMomentsRounded (fun t => t) fused trainFeat i).2) := by
  cases fused <;> simp [main_columnStats, main_columnMomentsRounded]

end RoundedIdentity


section CompactionLemmas

variable {R : Type}

/-- The inner loop of the compaction, `m[i][j] = m[r][j]` for `j < k`: cell
`(r, j)` is read before any cell of column `j` is written. -/
theorem main_compact_inner (i r k : Nat) (m : gsl_matrix R) (a b : Nat) :
    (forLoop k (fun j t => gsl_matrix_set t i j (gsl_matrix_get t r j)) m).data a b =
      if a = i ∧ b < k then m.data r b else m.data a b := by
  induction k generalizing a b with
  | zero => simp
  | succ k ih =>
    rw [forLoop_succ, gsl_matrix_set_data, gsl_matrix_get, ih, ih]
    have hk : ¬ (r = i ∧ k < k) := fun h => Nat.lt_irrefl k h.2
    rw [if_neg hk]
    by_cases ha : a = i
    · by_cases hb : b = k
      · simp [ha, hb]
      · have e : (b < k + 1) ↔ (b < k) := by omega
        simp [ha, hb, e]
    · simp [ha]

/-- The compaction loop after `k` rows, for row indices `f i ≥ i`: row
`a < k` holds the original row `f a`, every other row is still the original
one, because the row read in step `i` has an index `≥ i` and the rows
overwritten before have indices `< i`. -/
theorem main_compact_outer (f : Nat → Nat) (n : Nat) (hf : ∀ i, i < n → i ≤ f i)
    (orig : gsl_matrix R) (k : Nat) (hk : k ≤ n) (a b : Nat) :
    (forLoop k
      (fun i t => forLoop 5 (fun j u => gsl_matrix_set u i j (gsl_matrix_get u (f i) j)) t)
      orig).data a b =
      if a < k ∧ b < 5 then orig.data (f a) b else orig.data a b := by
  induction k generalizing a b with
  | zero => simp
  | succ k ih =>
    have ih1 := ih (by omega)
    rw [forLoop_succ, main_compact_inner, ih1, ih1]
    have hfk : k ≤ f k := hf k (by omega)
    have hnot : ¬ (f k < k ∧ b < 5) := fun h => by omega
    rw [if_neg hnot]
    by_cases ha : a = k
    · subst ha
      by_cases hb : b < 5
      · simp [hb]
      · simp [hb]
    · have e : (a < k + 1) ↔ (a < k) := by omega
      simp [ha, e]

/-- In a strictly increasing list of natural numbers the entry at position
`i` is at least `i`. -/
theorem pairwise_lt_index_le (L : List Nat) (hL : L.Pairwise (fun a b => a < b)) (i : Nat)
    (h : i < L.length) : i ≤ L[i] := by
  induction i with
  | zero => exact Nat.zero_le _
  | succ i ih =>
    have hi : i < L.length := by omega
    have hlt : L[i] < L[i + 1] :=
      List.pairwise_iff_getElem.mp hL i (i + 1) hi h (Nat.lt_succ_self i)
    have := ih hi
    omega

/-- What a buffer that lists a strictly increasing list `L` of indices below
`size` in its first `nb = |L|` cells satisfies: the cells are valid indices,
cell `i` is at least `i`, and the cells increase strictly. -/
theorem inlier_buffer_facts (L : List Nat) (size nb : Nat) (inl : Nat → Int)
    (hsorted : L.Pairwise (fun a b => a < b)) (hbound : ∀ x, x ∈ L → x < size)
    (hnb : nb = L.length) (hmap : (List.range nb).map inl = L.map Int.ofNat) :
    nb ≤ size ∧
    (∀ i, i < nb → 0 ≤ inl i ∧ (i : Int) ≤ inl i ∧ inl i < (size : Int)) ∧
    (∀ i j, i < j → j < nb → inl i < inl j) := by
  subst hnb
  have hpt : ∀ i (h : i < L.length), inl i = (L[i] : Int) := by
    intro i h
    have := congrArg (fun l => l[i]?) hmap
    simpa [List.getElem?_map, List.getElem?_range, h] using this
  refine ⟨?_, ?_, ?_⟩
  · rcases Nat.eq_zero_or_pos L.length with h0 | hpos
    · omega
    · have hlast : L.length - 1 < L.length := by omega
      have h1 := pairwise_lt_index_le L hsorted (L.length - 1) hlast
      have h2 := hbound _ (List.getElem_mem hlast)
      omega
  · intro i hi
    rw [hpt i hi]
    have h1 := pairwise_lt_index_le L hsorted i hi
    have h2 := hbound _ (List.getElem_mem hi)
    omega
  · intro i j hij hj
    have hi : i < L.length := by omega
    rw [hpt i hi, hpt j hj]
    have := List.pairwise_iff_getElem.mp hsorted i j hi hj hij
    omega

end CompactionLemmas


section CompactionClaim

variable {R : Type} [LinearOrderedField R]

/-- The inlier buffer of `ransac` on return lists, in its first `nbInliners`
cells, a strictly increasing list of indices below `size`. -/
theorem ransac_loop_increasing (log exp : R → R) (solve : gsl_matrix R → gsl_vector R → Nat → R)
    (rand : Nat → Nat) (x y : Nat → R) (size : Nat) (threshold : R) (k : Nat)
    (alpha : Nat → R) (inliners : Nat → Int) (t : Nat) (s : RansacState R)
    (h : ransac_loop log exp solve rand x y size threshold k alpha inliners t = some s) :
    ∃ L : List Nat, L.Pairwise (fun a b => a < b) ∧ (∀ x, x ∈ L → x < size) ∧
      s.nbInliners = L.length ∧ (List.range s.nbInliners).map s.inliners = L.map Int.ofNat := by
  rcases ransac_loop_best log exp solve rand x y size threshold k alpha inliners t s h with
    ⟨h0, -, -⟩ | ⟨-, hlen, hmap⟩
  · exact ⟨[], List.Pairwise.nil, fun x hx => absurd hx (List.not_mem_nil x), by simp [h0],
      by simp [h0]⟩
  · refine ⟨(List.range size).filter (ransac_inlier log exp s.alpha x y threshold),
      List.Pairwise.filter _ (List.pairwise_lt_range size), ?_, hlen, hmap⟩
    intro j hj
    exact List.mem_range.mp (List.mem_filter.mp hj).1

/-- C11: the inlier compaction of `main`.  With at least one training sample
`ransac` returns, the indices it has recorded in the first `nbInliners` cells
of `inliners` are valid row indices that increase strictly, so
`inliners[i] ≥ i`: the row read in step `i` of the compaction has not been
overwritten by an earlier step.  Hence after the compaction the training
matrix has `nbInliners` rows, row `i` being the original row `inliners[i]`
in all 5 columns, and the target `trainY[i] = y[inliners[i]]` belongs to the
same sample. -/
theorem main_compaction_keeps_inlier_rows (log exp : R → R)
    (solve : gsl_matrix R → gsl_vector R → Nat → R) (rand : Nat → Nat)
    (trainFeat : gsl_matrix R) (x y : Nat → R) (threshold : R) (k : Nat) (alpha : Nat → R)
    (inliners : Nat → Int) (hsize : 0 < trainFeat.size1) :
    ∃ nb alpha1 inliners1,
      ransac log exp solve rand x y trainFeat.size1 threshold k alpha inliners
        = some (nb, alpha1, inliners1) ∧
      nb ≤ trainFeat.size1 ∧
      (∀ i, i < nb →
        0 ≤ inliners1 i ∧ (i : Int) ≤ inliners1 i ∧ inliners1 i < (trainFeat.size1 : Int)) ∧
      (∀ i j, i < j → j < nb → inliners1 i < inliners1 j) ∧
      (main_compact trainFeat inliners1 nb).size1 = nb ∧
      (main_compact trainFeat inliners1 nb).size2 = trainFeat.size2 ∧
      (∀ i c, i < nb → c < 5 →
        (main_compact trainFeat inliners1 nb).data i c =
          trainFeat.data (inliners1 i).toNat c) ∧
      (main_trainY y inliners1 nb).size = nb ∧
      (∀ i, i < nb → (main_trainY y inliners1 nb).data i = y (inliners1 i).toNat) := by
  obtain ⟨s, hs⟩ := ransac_loop_total log exp solve rand x y trainFeat.size1 threshold k alpha
    inliners hsize 100000
  obtain ⟨L, hsorted, hbound, hlen, hmap⟩ := ransac_loop_increasing log exp solve rand x y
    trainFeat.size1 threshold k alpha inliners 100000 s hs
  obtain ⟨hle, hidx, hinc⟩ :=
    inlier_buffer_facts L trainFeat.size1 s.nbInliners s.inliners hsorted hbound hlen hmap
  refine ⟨s.nbInliners, s.alpha, s.inliners, by rw [ransac, hs]; rfl, hle, hidx, hinc, rfl, ?_,
    ?_, ?_, ?_⟩
  · show (forLoop s.nbInliners _ trainFeat).size2 = trainFeat.size2
    exact forLoop_size2 _ _ _ (fun i t => forLoop_size2 5 _ t (fun _ _ => rfl))
  · intro i c hi hc
    have hf : ∀ a, a < s.nbInliners → a ≤ (s.inliners a).toNat := by
      intro a ha
      have := (hidx a ha).2.1
      omega
    have h := main_compact_outer (fun a => (s.inliners a).toNat) s.nbInliners hf trainFeat
      s.nbInliners le_rfl i c
    rw [if_pos ⟨hi, hc⟩] at h
    exact h
  · exact forLoop_vsize _ _ _ (fun _ _ => rfl)
  · intro i hi
    have h := forLoop_vector_fill s.nbInliners (fun j => y (s.inliners j).toNat)
      (gsl_vector_calloc s.nbInliners) i
    rw [if_pos hi] at h
    exact h

/-- The hypothesis of `main_compaction_keeps_inlier_rows` holds for the three
rows of the training scenario. -/
theorem main_compaction_keeps_inlier_rows_witness :
    0 < (scenarioRows ℝ).size1 ∧
    ∃ nb alpha1 inliners1,
      ransac Real.log Real.exp (fun _ _ _ => 0) (fun n => n) (fun i => (i : ℝ) + 1)
        (scenarioTargets ℝ).data (scenarioRows ℝ).size1 500 4 (fun _ => 0) (fun _ => -1)
        = some (nb, alpha1, inliners1) ∧
      (main_compact (scenarioRows ℝ) inliners1 nb).size1 = nb ∧
      ∀ i c, i < nb → c < 5 →
        (main_compact (scenarioRows ℝ) inliners1 nb).data i c =
          (scenarioRows ℝ).data (inliners1 i).toNat c := by
  obtain ⟨nb, alpha1, inliners1, h1, -, -, -, h2, -, h3, -⟩ :=
    main_compaction_keeps_inlier_rows Real.log Real.exp (fun _ _ _ => 0) (fun n => n)
      (scenarioRows ℝ) (fun i => (i : ℝ) + 1) (scenarioTargets ℝ).data 500 4 (fun _ => 0)
      (fun _ => -1) (by decide)
  exact ⟨by decide, nb, alpha1, inliners1, h1, h2, h3⟩

end CompactionClaim


section PredictNLemmas

variable {R : Type}

/-- The loop `for j: m[j][c] = v j` fills column `c` of the first `k` rows. -/
theorem forLoop_column_fill (k c : Nat) (v : Nat → R) (m : gsl_matrix R) (a b : Nat) :
    (forLoop k (fun j t => gsl_matrix_set t j c (v j)) m).data a b =
      if a < k ∧ b = c then v a else m.data a b := by
  induction k with
  | zero => simp
  | succ k ih =>
    rw [forLoop_succ, gsl_matrix_set_data, ih]
    by_cases hb : b = c
    · by_cases ha : a = k
      · simp [ha, hb]
      · have e : (a < k + 1) ↔ (a < k) := by omega
        simp [ha, hb, e]
    · simp [hb]

theorem forLoop_column_fill_size1 (k c : Nat) (v : Nat → R) (m : gsl_matrix R) :
    (forLoop k (fun j t => gsl_matrix_set t j c (v j)) m).size1 = m.size1 :=
  forLoop_size1 k (fun j t => gsl_matrix_set t j c (v j)) m (fun _ _ => rfl)

theorem forLoop_column_fill_size2 (k c : Nat) (v : Nat → R) (m : gsl_matrix R) :
    (forLoop k (fun j t => gsl_matrix_set t j c (v j)) m).size2 = m.size2 :=
  forLoop_size2 k (fun j t => gsl_matrix_set t j c (v j)) m (fun _ _ => rfl)

variable [LinearOrderedField R]

theorem predictN_testFeat_size1 (start stop : R) (n : Int) (p : Patient R) (dose : R)
    (means stds : Nat → R) :
    (predictN_testFeat start stop n p dose means stds).size1 = n.toNat := by
  simp only [predictN_testFeat, forLoop_column_fill_size1]
  rfl

theorem predictN_testFeat_size2 (start stop : R) (n : Int) (p : Patient R) (dose : R)
    (means stds : Nat → R) :
    (predictN_testFeat start stop n p dose means stds).size2 = 5 := by
  simp only [predictN_testFeat, forLoop_column_fill_size2]
  rfl

/-- Column 0 of row `j` of `testFeat` is the normalised query time of row
`j`. -/
theorem predictN_testFeat_time (start stop : R) (n : Int) (p : Patient R) (dose : R)
    (means stds : Nat → R) (j : Nat) (hj : j < n.toNat) :
    (predictN_testFeat start stop n p dose means stds).data j 0 =
      (predictN_time start stop n j - means 0) / stds 0 := by
  simp only [predictN_testFeat]
  rw [forLoop_column_fill, forLoop_column_fill, forLoop_column_fill, forLoop_column_fill,
    forLoop_column_fill]
  simp [hj]

/-- For `n ≥ 2` the query times of `predictN` run from `start` to `stop` in
equal steps of `(stop - start) / (n - 1)`. -/
theorem predictN_time_spacing (start stop : R) (n : Int) (hn : 2 ≤ n) :
    predictN_divisor (R := R) n ≠ 0 ∧
    predictN_time start stop n 0 = start ∧
    predictN_time start stop n (n - 1).toNat = stop ∧
    ∀ j : Nat, predictN_time start stop n (j + 1) - predictN_time start stop n j =
      (stop - start) / predictN_divisor n := by
  have hpos : (0 : R) < predictN_divisor n := by
    simp only [predictN_divisor]
    have : (0 : Int) < n - 1 := by omega
    exact_mod_cast this
  have hne : predictN_divisor (R := R) n ≠ 0 := hpos.ne'
  refine ⟨hne, ?_, ?_, ?_⟩
  · simp [predictN_time]
  · have hcast : (((n - 1).toNat : Nat) : R) = predictN_divisor n := by
      simp only [predictN_divisor]
      have h : (((n - 1).toNat : Nat) : Int) = n - 1 := Int.toNat_of_nonneg (by omega)
      exact_mod_cast congrArg (fun z : Int => (z : R)) h
    rw [predictN_time, hcast]
    field_simp
  · intro j
    simp only [predictN_time]
    push_cast
    ring

/-- The two outcomes of `predictN`: either it returns -1 and leaves `out` as
it was, or it returns 0, and then no pointer is NULL, `0 ≤ start < stop`,
`n ≥ 1`, the support row count is the length of `alpha` and `sigma > 0`. -/
theorem predictN_result (exp : R → R) (start stop : R) (n : Int) (p : Option (Patient R))
    (dose : R) (svm : Option (SVMView R)) (out : Option (gsl_vector R))
    (r : Int × Option (gsl_vector R))
    (h : predictN exp start stop n p dose svm out = some r) :
    (r.1 = -1 ∧ r.2 = out) ∨
    (r.1 = 0 ∧ ∃ p1 s tf al o, p = some p1 ∧ svm = some s ∧ out = some o ∧
      s.trainFeat = some tf ∧ s.alpha = some al ∧ 0 ≤ start ∧ start < stop ∧ 1 ≤ n ∧
      tf.size1 = al.size ∧ 0 < s.sigma) := by
  unfold predictN at h
  rcases p with _ | p1
  · simp only [Option.some.injEq] at h
    exact Or.inl (by rw [← h]; exact ⟨rfl, rfl⟩)
  rcases svm with _ | s
  · simp only [Option.some.injEq] at h
    exact Or.inl (by rw [← h]; exact ⟨rfl, rfl⟩)
  rcases out with _ | o
  · simp only [Option.some.injEq] at h
    exact Or.inl (by rw [← h]; exact ⟨rfl, rfl⟩)
  simp only at h
  rcases htf : s.trainFeat with _ | tf
  · rw [htf] at h
    simp only [Option.some.injEq] at h
    exact Or.inl (by rw [← h]; exact ⟨rfl, rfl⟩)
  rcases hal : s.alpha with _ | al
  · rw [htf, hal] at h
    simp only [Option.some.injEq] at h
    exact Or.inl (by rw [← h]; exact ⟨rfl, rfl⟩)
  rw [htf, hal] at h
  simp only at h
  by_cases hg : start < 0 ∨ start ≥ stop ∨ n < 1 ∨ tf.size1 ≠ al.size ∨ s.sigma ≤ 0
  · rw [if_pos hg] at h
    simp only [Option.some.injEq] at h
    exact Or.inl (by rw [← h]; exact ⟨rfl, rfl⟩)
  · rw [if_neg hg] at h
    push_neg at hg
    obtain ⟨g0, g1, g2, g3, g4⟩ := hg
    rcases hp : predictGaussianSVM exp tf
        (predictN_testFeat start stop n p1 dose s.means s.stds) al s.sigma o with _ | out1
    · rw [hp] at h; simp at h
    · rw [hp] at h
      simp only [Option.some.injEq] at h
      exact Or.inr ⟨by rw [← h], p1, s, tf, al, o, rfl, rfl, rfl, htf, hal, g0, g1, g2, g3, g4⟩

/-- An input that passes the guard of `predictN`, with a 5-column support
matrix and an `out` of length `n`, is accepted: 0 is returned and `out` is
written. -/
theorem predictN_accepted (exp : R → R) (start stop : R) (n : Int) (p : Patient R) (dose : R)
    (svm : SVMView R) (tf : gsl_matrix R) (al out : gsl_vector R)
    (htf : svm.trainFeat = some tf) (hal : svm.alpha = some al) (h0 : 0 ≤ start)
    (h1 : start < stop) (hn : 1 ≤ n) (hsz : tf.size1 = al.size) (hs : 0 < svm.sigma)
    (hcols : tf.size2 = 5) (hout : out.size = n.toNat) :
    ∃ out1, predictN exp start stop n (some p) dose (some svm) (some out) = some (0, some out1) ∧
      out1.size = out.size := by
  obtain ⟨out1, hp, hsize, -⟩ := predictGaussianSVM_some exp tf
    (predictN_testFeat start stop n p dose svm.means svm.stds) al svm.sigma out
    (by rw [hcols, predictN_testFeat_size2]) hsz (by rw [predictN_testFeat_size1, hout])
  refine ⟨out1, ?_, hsize⟩
  have hg : ¬ (start < 0 ∨ start ≥ stop ∨ n < 1 ∨ tf.size1 ≠ al.size ∨ svm.sigma ≤ 0) := by
    push_neg
    exact ⟨h0, h1, hn, hsz, hs⟩
  simp only [predictN, htf, hal, if_neg hg, hp]

end PredictNLemmas

section PredictNClaim

/-- C12, evaluated at `n = 1`: `predictN` with `start = 1`, `stop = 24`,
`n = 1`, the example patient and model and an `out` of length 1 passes the
guard (`n < 1` is false) and returns 0, although the divisor `n - 1` of the
time step is 0 for this input (in C the time of the single row is
`1 + 0.0 / 0.0`), and the time of the last row, which is also the first, is
not `stop`. -/
theorem predictN_accepts_one_sample_and_divides_by_zero (exp : ℚ → ℚ) :
    ∃ out1,
      predictN exp 1 24 1 (some examplePatient) 400 (some exampleSVM.view)
        (some (gsl_vector_calloc 1)) = some (0, some out1) ∧
      predictN_divisor (R := ℚ) 1 = 0 ∧
      predictN_time (1 : ℚ) 24 1 (1 - 1 : Int).toNat ≠ 24 := by
  obtain ⟨out1, h, -⟩ := predictN_accepted exp (1 : ℚ) 24 1 examplePatient 400 exampleSVM.view
    exampleSVM.trainFeat exampleSVM.alpha (gsl_vector_calloc 1) rfl rfl (by norm_num)
    (by norm_num) (by norm_num) rfl (by norm_num [exampleSVM, SVM.view]) rfl rfl
  refine ⟨out1, h, by simp [predictN_divisor], ?_⟩
  simp [predictN_time, predictN_divisor]

end PredictNClaim

end SVMDose
